import Mathlib

/-!
# ZUC keystream generator (`zuc/core.go`)

A shallow embedding of the ZUC-128 / ZUC-256 keystream core.

* `uint32` values are natural numbers; every operation that can leave the
  32-bit range in Go (`+`, `<<`) is followed by an explicit `% 2 ^ 32`.
* `byte` values are natural numbers below `256`.
* Arrays and slices are lists.  Every index expression of the source is a
  checked lookup `l[i]?`; a lookup that fails (a Go run-time panic) makes the
  enclosing function return the error `indexOutOfRange`.
* Methods on `*zucState32` take the state and return the new state next to
  their result.
-/

namespace Zuc

/-- Constant D for ZUC-128. -/
def kd : List Nat := [
  0x44D7, 0x26BC, 0x626B, 0x135E, 0x5789, 0x35E2, 0x7135, 0x09AF,
  0x4D78, 0x2F13, 0x6BC4, 0x1AF1, 0x5E26, 0x3C4D, 0x789A, 0x47AC]

/-- Substitution table 0. -/
def sbox0 : List Nat := [
  0x3e, 0x72, 0x5b, 0x47, 0xca, 0xe0, 0x00, 0x33, 0x04, 0xd1, 0x54, 0x98, 0x09, 0xb9, 0x6d, 0xcb,
  0x7b, 0x1b, 0xf9, 0x32, 0xaf, 0x9d, 0x6a, 0xa5, 0xb8, 0x2d, 0xfc, 0x1d, 0x08, 0x53, 0x03, 0x90,
  0x4d, 0x4e, 0x84, 0x99, 0xe4, 0xce, 0xd9, 0x91, 0xdd, 0xb6, 0x85, 0x48, 0x8b, 0x29, 0x6e, 0xac,
  0xcd, 0xc1, 0xf8, 0x1e, 0x73, 0x43, 0x69, 0xc6, 0xb5, 0xbd, 0xfd, 0x39, 0x63, 0x20, 0xd4, 0x38,
  0x76, 0x7d, 0xb2, 0xa7, 0xcf, 0xed, 0x57, 0xc5, 0xf3, 0x2c, 0xbb, 0x14, 0x21, 0x06, 0x55, 0x9b,
  0xe3, 0xef, 0x5e, 0x31, 0x4f, 0x7f, 0x5a, 0xa4, 0x0d, 0x82, 0x51, 0x49, 0x5f, 0xba, 0x58, 0x1c,
  0x4a, 0x16, 0xd5, 0x17, 0xa8, 0x92, 0x24, 0x1f, 0x8c, 0xff, 0xd8, 0xae, 0x2e, 0x01, 0xd3, 0xad,
  0x3b, 0x4b, 0xda, 0x46, 0xeb, 0xc9, 0xde, 0x9a, 0x8f, 0x87, 0xd7, 0x3a, 0x80, 0x6f, 0x2f, 0xc8,
  0xb1, 0xb4, 0x37, 0xf7, 0x0a, 0x22, 0x13, 0x28, 0x7c, 0xcc, 0x3c, 0x89, 0xc7, 0xc3, 0x96, 0x56,
  0x07, 0xbf, 0x7e, 0xf0, 0x0b, 0x2b, 0x97, 0x52, 0x35, 0x41, 0x79, 0x61, 0xa6, 0x4c, 0x10, 0xfe,
  0xbc, 0x26, 0x95, 0x88, 0x8a, 0xb0, 0xa3, 0xfb, 0xc0, 0x18, 0x94, 0xf2, 0xe1, 0xe5, 0xe9, 0x5d,
  0xd0, 0xdc, 0x11, 0x66, 0x64, 0x5c, 0xec, 0x59, 0x42, 0x75, 0x12, 0xf5, 0x74, 0x9c, 0xaa, 0x23,
  0x0e, 0x86, 0xab, 0xbe, 0x2a, 0x02, 0xe7, 0x67, 0xe6, 0x44, 0xa2, 0x6c, 0xc2, 0x93, 0x9f, 0xf1,
  0xf6, 0xfa, 0x36, 0xd2, 0x50, 0x68, 0x9e, 0x62, 0x71, 0x15, 0x3d, 0xd6, 0x40, 0xc4, 0xe2, 0x0f,
  0x8e, 0x83, 0x77, 0x6b, 0x25, 0x05, 0x3f, 0x0c, 0x30, 0xea, 0x70, 0xb7, 0xa1, 0xe8, 0xa9, 0x65,
  0x8d, 0x27, 0x1a, 0xdb, 0x81, 0xb3, 0xa0, 0xf4, 0x45, 0x7a, 0x19, 0xdf, 0xee, 0x78, 0x34, 0x60]

/-- Substitution table 1. -/
def sbox1 : List Nat := [
  0x55, 0xc2, 0x63, 0x71, 0x3b, 0xc8, 0x47, 0x86, 0x9f, 0x3c, 0xda, 0x5b, 0x29, 0xaa, 0xfd, 0x77,
  0x8c, 0xc5, 0x94, 0x0c, 0xa6, 0x1a, 0x13, 0x00, 0xe3, 0xa8, 0x16, 0x72, 0x40, 0xf9, 0xf8, 0x42,
  0x44, 0x26, 0x68, 0x96, 0x81, 0xd9, 0x45, 0x3e, 0x10, 0x76, 0xc6, 0xa7, 0x8b, 0x39, 0x43, 0xe1,
  0x3a, 0xb5, 0x56, 0x2a, 0xc0, 0x6d, 0xb3, 0x05, 0x22, 0x66, 0xbf, 0xdc, 0x0b, 0xfa, 0x62, 0x48,
  0xdd, 0x20, 0x11, 0x06, 0x36, 0xc9, 0xc1, 0xcf, 0xf6, 0x27, 0x52, 0xbb, 0x69, 0xf5, 0xd4, 0x87,
  0x7f, 0x84, 0x4c, 0xd2, 0x9c, 0x57, 0xa4, 0xbc, 0x4f, 0x9a, 0xdf, 0xfe, 0xd6, 0x8d, 0x7a, 0xeb,
  0x2b, 0x53, 0xd8, 0x5c, 0xa1, 0x14, 0x17, 0xfb, 0x23, 0xd5, 0x7d, 0x30, 0x67, 0x73, 0x08, 0x09,
  0xee, 0xb7, 0x70, 0x3f, 0x61, 0xb2, 0x19, 0x8e, 0x4e, 0xe5, 0x4b, 0x93, 0x8f, 0x5d, 0xdb, 0xa9,
  0xad, 0xf1, 0xae, 0x2e, 0xcb, 0x0d, 0xfc, 0xf4, 0x2d, 0x46, 0x6e, 0x1d, 0x97, 0xe8, 0xd1, 0xe9,
  0x4d, 0x37, 0xa5, 0x75, 0x5e, 0x83, 0x9e, 0xab, 0x82, 0x9d, 0xb9, 0x1c, 0xe0, 0xcd, 0x49, 0x89,
  0x01, 0xb6, 0xbd, 0x58, 0x24, 0xa2, 0x5f, 0x38, 0x78, 0x99, 0x15, 0x90, 0x50, 0xb8, 0x95, 0xe4,
  0xd0, 0x91, 0xc7, 0xce, 0xed, 0x0f, 0xb4, 0x6f, 0xa0, 0xcc, 0xf0, 0x02, 0x4a, 0x79, 0xc3, 0xde,
  0xa3, 0xef, 0xea, 0x51, 0xe6, 0x6b, 0x18, 0xec, 0x1b, 0x2c, 0x80, 0xf7, 0x74, 0xe7, 0xff, 0x21,
  0x5a, 0x6a, 0x54, 0x1e, 0x41, 0x31, 0x92, 0x35, 0xc4, 0x33, 0x07, 0x0a, 0xba, 0x7e, 0x0e, 0x34,
  0x88, 0xb1, 0x98, 0x7c, 0xf3, 0x3d, 0x60, 0x6c, 0x7b, 0xca, 0xd3, 0x1f, 0x32, 0x65, 0x04, 0x28,
  0x64, 0xbe, 0x85, 0x9b, 0x2f, 0x59, 0x8a, 0xd7, 0xb0, 0x25, 0xac, 0xaf, 0x12, 0x03, 0xe2, 0xf2]

/-- Constant D-0 for ZUC-256. -/
def zuc256_d0 : List Nat := [
  0x22, 0x2F, 0x24, 0x2A, 0x6D, 0x40, 0x40, 0x40,
  0x40, 0x40, 0x40, 0x40, 0x40, 0x52, 0x10, 0x30]

/-- The generator state: the linear feedback shift register and the two
memory words of the nonlinear function. -/
structure zucState32 where
  lfsr : List Nat
  r1 : Nat
  r2 : Nat
deriving DecidableEq

/-- The ways a function of this file can fail: the two `fmt.Errorf` values of
`newZUCState` (with the offending length, and for the IV the expected
length), and a run-time index panic. -/
inductive zucError where
  | invalidKeySize (k : Nat)
  | invalidIVSize (ivLen expect : Nat)
  | indexOutOfRange
deriving DecidableEq

/-- The index expression `l[i]` used as a value. -/
def index (l : List Nat) (i : Nat) : Except zucError Nat :=
  match l[i]? with
  | some x => .ok x
  | none => .error .indexOutOfRange

/-- The index expression `l[i] = v` used as an assignment target. -/
def assign (l : List Nat) (i v : Nat) : Except zucError (List Nat) :=
  if i < l.length then .ok (l.set i v) else .error .indexOutOfRange

/-- The zero value `&zucState32{}`: sixteen zero cells, `r1 = r2 = 0`. -/
def zeroState : zucState32 := ⟨List.replicate 16 0, 0, 0⟩

/-- Method `bitReconstruction`: the four words `X0..X3`, as a slice of length 4. -/
def bitReconstruction (s : zucState32) : Except zucError (List Nat) := do
  let s15 ← index s.lfsr 15
  let s14 ← index s.lfsr 14
  let s11 ← index s.lfsr 11
  let s9 ← index s.lfsr 9
  let s7 ← index s.lfsr 7
  let s5 ← index s.lfsr 5
  let s2 ← index s.lfsr 2
  let s0 ← index s.lfsr 0
  pure [(((s15 &&& 0x7FFF8000) <<< 1) % 2 ^ 32) ||| (s14 &&& 0xFFFF),
        (((s11 &&& 0xFFFF) <<< 16) % 2 ^ 32) ||| (s9 >>> 15),
        (((s7 &&& 0xFFFF) <<< 16) % 2 ^ 32) ||| (s5 >>> 15),
        (((s2 &&& 0xFFFF) <<< 16) % 2 ^ 32) ||| (s0 >>> 15)]

/-- The library function `bits.RotateLeft32` for a non-negative count:
`s := k & 31; x<<s | x>>(32-s)`. -/
def rotateLeft32 (x k : Nat) : Nat :=
  let s := k % 32
  ((x <<< s) % 2 ^ 32) ||| (x >>> (32 - s))

/-- Linear mixer `l1`. -/
def l1 (x : Nat) : Nat :=
  x ^^^ rotateLeft32 x 2 ^^^ rotateLeft32 x 10 ^^^ rotateLeft32 x 18 ^^^ rotateLeft32 x 24

/-- Linear mixer `l2`. -/
def l2 (x : Nat) : Nat :=
  x ^^^ rotateLeft32 x 8 ^^^ rotateLeft32 x 14 ^^^ rotateLeft32 x 22 ^^^ rotateLeft32 x 30

/-- The library function `binary.BigEndian.Uint32` on a byte slice. -/
def bigEndianUint32 (b : List Nat) : Except zucError Nat := do
  let b3 ← index b 3
  let b2 ← index b 2
  let b1 ← index b 1
  let b0 ← index b 0
  pure (b3 ||| ((b2 <<< 8) % 2 ^ 32) ||| ((b1 <<< 16) % 2 ^ 32) ||| ((b0 <<< 24) % 2 ^ 32))

/-- Method `f32`: returns `w` and the state with the new `r1`, `r2`.
In Go `^` and `+` have the same precedence and associate to the left, so
`s.r1 ^ x0 + s.r2` is `(s.r1 ^ x0) + s.r2`. -/
def f32 (s : zucState32) (x0 x1 x2 : Nat) : Except zucError (Nat × zucState32) := do
  let w := ((s.r1 ^^^ x0) + s.r2) % 2 ^ 32
  let w1 := (s.r1 + x1) % 2 ^ 32
  let w2 := s.r2 ^^^ x2
  let u := l1 (((w1 <<< 16) % 2 ^ 32) ||| (w2 >>> 16))
  let v := l2 (((w2 <<< 16) % 2 ^ 32) ||| (w1 >>> 16))
  let a0 ← index sbox0 (u >>> 24)
  let a1 ← index sbox1 ((u >>> 16) &&& 0xFF)
  let a2 ← index sbox0 ((u >>> 8) &&& 0xFF)
  let a3 ← index sbox1 (u &&& 0xFF)
  let r1 ← bigEndianUint32 [a0, a1, a2, a3]
  let b0 ← index sbox0 (v >>> 24)
  let b1 ← index sbox1 ((v >>> 16) &&& 0xFF)
  let b2 ← index sbox0 ((v >>> 8) &&& 0xFF)
  let b3 ← index sbox1 (v &&& 0xFF)
  let r2 ← bigEndianUint32 [b0, b1, b2, b3]
  pure (w, { s with r1 := r1, r2 := r2 })

/-- Function `rotateLeft31`, for a shift count `k ≤ 31` (the source only
calls it with the constants 8, 15, 17, 20, 21). -/
def rotateLeft31 (x k : Nat) : Nat :=
  (((x <<< k) % 2 ^ 32) ||| (x >>> (31 - k))) &&& 0x7FFFFFFF

/-- Function `add31`: both additions are 32-bit additions. -/
def add31 (x y : Nat) : Nat :=
  let resut := (x + y) % 2 ^ 32
  ((resut &&& 0x7FFFFFFF) + (resut >>> 31)) % 2 ^ 32

/-- The loop `for i := 0; i < 15; i++ { s.lfsr[i] = s.lfsr[i+1] }`: the `n`
iterations from index `i` on (the whole loop is `shiftLoop 15 0`). -/
def shiftLoop : Nat → Nat → List Nat → Except zucError (List Nat)
  | 0, _, l => pure l
  | n + 1, i, l => do
    let x ← index l (i + 1)
    let l ← assign l i x
    shiftLoop n (i + 1) l

/-- Method `enterInitMode`. -/
def enterInitMode (s : zucState32) (w : Nat) : Except zucError zucState32 := do
  let v ← index s.lfsr 0
  let c0 ← index s.lfsr 0
  let v := add31 v (rotateLeft31 c0 8)
  let c4 ← index s.lfsr 4
  let v := add31 v (rotateLeft31 c4 20)
  let c10 ← index s.lfsr 10
  let v := add31 v (rotateLeft31 c10 21)
  let c13 ← index s.lfsr 13
  let v := add31 v (rotateLeft31 c13 17)
  let c15 ← index s.lfsr 15
  let v := add31 v (rotateLeft31 c15 15)
  let v := add31 v w
  let v := if v = 0 then 0x7FFFFFFF else v
  let l ← shiftLoop 15 0 s.lfsr
  let l ← assign l 15 v
  pure { s with lfsr := l }

/-- Method `enterWorkMode`. -/
def enterWorkMode (s : zucState32) : Except zucError zucState32 :=
  enterInitMode s 0

/-- Function `makeFieldValue3`. -/
def makeFieldValue3 (a b c : Nat) : Nat :=
  ((a <<< 23) % 2 ^ 32) ||| ((b <<< 8) % 2 ^ 32) ||| c

/-- Function `makeFieldValue4`. -/
def makeFieldValue4 (a b c d : Nat) : Nat :=
  ((a <<< 23) % 2 ^ 32) ||| ((b <<< 16) % 2 ^ 32) ||| ((c <<< 8) % 2 ^ 32) ||| d

/-- The loop of `loadKeyIV16`: the `n` iterations from index `i` on (the
whole loop is `loadKeyIV16Loop 16 0`). -/
def loadKeyIV16Loop : Nat → Nat → List Nat → List Nat → List Nat → Except zucError (List Nat)
  | 0, _, lfsr, _, _ => pure lfsr
  | n + 1, i, lfsr, key, iv => do
    let k ← index key i
    let d ← index kd i
    let c ← index iv i
    let lfsr ← assign lfsr i (makeFieldValue3 k d c)
    loadKeyIV16Loop n (i + 1) lfsr key iv

/-- Method `loadKeyIV16`. -/
def loadKeyIV16 (s : zucState32) (key iv : List Nat) : Except zucError zucState32 := do
  let l ← loadKeyIV16Loop 16 0 s.lfsr key iv
  pure { s with lfsr := l }

/-- Method `loadKeyIV32`.  The locals `iv17 .. iv24` are bytes, so the left
shifts that build them are taken modulo `256`. -/
def loadKeyIV32 (s : zucState32) (key iv d : List Nat) : Except zucError zucState32 := do
  let iv17 := (← index iv 17) >>> 2
  let iv18 := ((((← index iv 17) &&& 0x3) <<< 4) % 256) ||| ((← index iv 18) >>> 4)
  let iv19 := ((((← index iv 18) &&& 0xf) <<< 2) % 256) ||| ((← index iv 19) >>> 6)
  let iv20 := (← index iv 19) &&& 0x3f
  let iv21 := (← index iv 20) >>> 2
  let iv22 := ((((← index iv 20) &&& 0x3) <<< 4) % 256) ||| ((← index iv 21) >>> 4)
  let iv23 := ((((← index iv 21) &&& 0xf) <<< 2) % 256) ||| ((← index iv 22) >>> 6)
  let iv24 := (← index iv 22) &&& 0x3f
  let l := s.lfsr
  let l ← assign l 0 (makeFieldValue4 (← index key 0) (← index d 0) (← index key 21) (← index key
      16))
  let l ← assign l 1 (makeFieldValue4 (← index key 1) (← index d 1) (← index key 22) (← index key
      17))
  let l ← assign l 2 (makeFieldValue4 (← index key 2) (← index d 2) (← index key 23) (← index key
      18))
  let l ← assign l 3 (makeFieldValue4 (← index key 3) (← index d 3) (← index key 24) (← index key
      19))
  let l ← assign l 4 (makeFieldValue4 (← index key 4) (← index d 4) (← index key 25) (← index key
      20))
  let l ← assign l 5
    (makeFieldValue4 (← index iv 0) ((← index d 5) ||| iv17) (← index key 5) (← index key 26))
  let l ← assign l 6
    (makeFieldValue4 (← index iv 1) ((← index d 6) ||| iv18) (← index key 6) (← index key 27))
  let l ← assign l 7
    (makeFieldValue4 (← index iv 10) ((← index d 7) ||| iv19) (← index key 7) (← index iv 2))
  let l ← assign l 8
    (makeFieldValue4 (← index key 8) ((← index d 8) ||| iv20) (← index iv 3) (← index iv 11))
  let l ← assign l 9
    (makeFieldValue4 (← index key 9) ((← index d 9) ||| iv21) (← index iv 12) (← index iv 4))
  let l ← assign l 10
    (makeFieldValue4 (← index iv 5) ((← index d 10) ||| iv22) (← index key 10) (← index key 28))
  let l ← assign l 11
    (makeFieldValue4 (← index key 11) ((← index d 11) ||| iv23) (← index iv 6) (← index iv 13))
  let l ← assign l 12
    (makeFieldValue4 (← index key 12) ((← index d 12) ||| iv24) (← index iv 7) (← index iv 14))
  let l ← assign l 13 (makeFieldValue4 (← index key 13) (← index d 13) (← index iv 15) (← index iv
      8))
  let l ← assign l 14
    (makeFieldValue4 (← index key 14) ((← index d 14) ||| ((← index key 31) >>> 4)) (← index iv 16)
      (← index iv 9))
  let l ← assign l 15
    (makeFieldValue4 (← index key 15) ((← index d 15) ||| ((← index key 31) &&& 0x0f))
      (← index key 30) (← index key 29))
  pure { s with lfsr := l }

/-- One round of the initialization loop of `newZUCState`. -/
def initRound (state : zucState32) : Except zucError zucState32 := do
  let x ← bitReconstruction state
  let (w, state) ← f32 state (← index x 0) (← index x 1) (← index x 2)
  enterInitMode state (w >>> 1)

/-- The loop `for i := 0; i < 32; i++ { ... }` of `newZUCState`: `n` rounds. -/
def initLoop : Nat → zucState32 → Except zucError zucState32
  | 0, state => pure state
  | n + 1, state => do
    let state ← initRound state
    initLoop n state

/-- The lines of `newZUCState` under the comment `// work state`: one more
`bitReconstruction` and `f32`, whose result is dropped, then `enterWorkMode`. -/
def workState (state : zucState32) : Except zucError zucState32 := do
  let x ← bitReconstruction state
  let (_, state) ← f32 state (← index x 0) (← index x 1) (← index x 2)
  enterWorkMode state

/-- The part of `newZUCState` after key loading: the 32 initialization
rounds, then the step into the work state. -/
def runInit (state : zucState32) : Except zucError zucState32 := do
  let state ← initLoop 32 state
  workState state

/-- Function `newZUCState`. -/
def newZUCState (key iv : List Nat) : Except zucError zucState32 :=
  let k := key.length
  let ivLen := iv.length
  let state := zeroState
  if k = 16 then
    if ivLen ≠ 16 then .error (.invalidIVSize ivLen 16)
    else loadKeyIV16 state key iv >>= runInit
  else if k = 32 then
    if ivLen ≠ 23 then .error (.invalidIVSize ivLen 23)
    else loadKeyIV32 state key iv zuc256_d0 >>= runInit
  else .error (.invalidKeySize k)

/-- Method `genKeyword`: returns the keystream word and the new state. -/
def genKeyword (s : zucState32) : Except zucError (Nat × zucState32) := do
  let x ← bitReconstruction s
  let x3 ← index x 3
  let (w, s) ← f32 s (← index x 0) (← index x 1) (← index x 2)
  let z := x3 ^^^ w
  let s ← enterWorkMode s
  pure (z, s)

/-- The loop of `genKeywords`: the `n` iterations from index `i` on (the
whole loop is `genKeywordsLoop (len words) 0`). -/
def genKeywordsLoop :
    Nat → Nat → zucState32 → List Nat → Except zucError (zucState32 × List Nat)
  | 0, _, s, words => pure (s, words)
  | n + 1, i, s, words => do
    let (z, s) ← genKeyword s
    let words ← assign words i z
    genKeywordsLoop n (i + 1) s words

/-- Method `genKeywords`: returns the new state and the filled buffer. -/
def genKeywords (s : zucState32) (words : List Nat) : Except zucError (zucState32 × List Nat) :=
  if words.length = 0 then pure (s, words)
  else genKeywordsLoop words.length 0 s words

/-! ## Definitions used to state the properties -/

/-- Result of `n` successive calls of `genKeyword`: the state after the last
call and the words the calls returned, in call order. -/
def genKeywordCalls : Nat → zucState32 → Except zucError (zucState32 × List Nat)
  | 0, s => pure (s, [])
  | n + 1, s => do
    let (z, s) ← genKeyword s
    let (s, zs) ← genKeywordCalls n s
    pure (s, z :: zs)

/-- The value `enterInitMode` writes into cell 15, as a function of the cells
0, 4, 10, 13, 15 it reads and of the injected word. -/
def feedback (c0 c4 c10 c13 c15 w : Nat) : Nat :=
  let v := add31 (add31 (add31 (add31 (add31 (add31 c0 (rotateLeft31 c0 8))
    (rotateLeft31 c4 20)) (rotateLeft31 c10 21)) (rotateLeft31 c13 17)) (rotateLeft31 c15 15)) w
  if v = 0 then 0x7FFFFFFF else v

/-- A state as the Go type has it: sixteen cells, every word below `2 ^ 32`. -/
def wellTyped (s : zucState32) : Prop :=
  s.lfsr.length = 16 ∧ (∀ c ∈ s.lfsr, c < 2 ^ 32) ∧ s.r1 < 2 ^ 32 ∧ s.r2 < 2 ^ 32

/-- A byte slice: every element is below `256`. -/
abbrev isBytes (b : List Nat) : Prop := ∀ x ∈ b, x < 256

/-- What one LFSR advance leaves behind: the old cells 1..15 followed by a
new cell `v`, which is nonzero, a 32-bit word, and a field element when the
old cell 0 is. -/
def advanced (s s' : zucState32) : Prop :=
  ∃ v, s'.lfsr = s.lfsr.tail ++ [v] ∧ v ≠ 0 ∧ v < 2 ^ 32 ∧
    ((∀ c ∈ s.lfsr, c ≤ 0x7FFFFFFF) → v ≤ 0x7FFFFFFF)

/-- Every cell is a field element: at most `2 ^ 31 - 1`. -/
def cellsField (s : zucState32) : Prop := ∀ c ∈ s.lfsr, c ≤ 0x7FFFFFFF

/-- No cell is zero. -/
def cellsNonzero (s : zucState32) : Prop := ∀ c ∈ s.lfsr, c ≠ 0

/-- The expression `binary.BigEndian.Uint32([]byte{sbox0[u>>24],
sbox1[(u>>16)&0xFF], sbox0[(u>>8)&0xFF], sbox1[u&0xFF]})` that `f32` evaluates
on `u` for the new `r1` and, with `v` in place of `u`, for the new `r2`. -/
def sboxWord (u : Nat) : Except zucError Nat := do
  let a0 ← index sbox0 (u >>> 24)
  let a1 ← index sbox1 ((u >>> 16) &&& 0xFF)
  let a2 ← index sbox0 ((u >>> 8) &&& 0xFF)
  let a3 ← index sbox1 (u &&& 0xFF)
  bigEndianUint32 [a0, a1, a2, a3]

/-- The assembly of the new `r2` in the wording of the specification, with
the four bytes of `v` going through table 1, table 0, table 1, table 0.  It is
written from the specification, to be compared with `sboxWord`, which is what
the source evaluates; the source has no such expression. -/
def sboxWordMirrored (v : Nat) : Except zucError Nat := do
  let b0 ← index sbox1 (v >>> 24)
  let b1 ← index sbox0 ((v >>> 16) &&& 0xFF)
  let b2 ← index sbox1 ((v >>> 8) &&& 0xFF)
  let b3 ← index sbox0 (v &&& 0xFF)
  bigEndianUint32 [b0, b1, b2, b3]

/-- The value `v` of `enterInitMode` just before the test `v == 0`: the six
`add31` steps on the cells 0, 4, 10, 13, 15 and the injected word. -/
def feedbackSum (c0 c4 c10 c13 c15 w : Nat) : Nat :=
  add31 (add31 (add31 (add31 (add31 (add31 c0 (rotateLeft31 c0 8))
    (rotateLeft31 c4 20)) (rotateLeft31 c10 21)) (rotateLeft31 c13 17)) (rotateLeft31 c15 15)) w

/-- The test `v == 0` of `enterInitMode` fails on the cells of `s`, whatever
the registers and the injected 31-bit word: the sum `v` is nonzero and is
itself the value written to cell 15. -/
def branchNotTaken (s : zucState32) : Prop :=
  ∀ r1 r2 w : Nat, w ≤ 0x7FFFFFFF →
    feedbackSum (s.lfsr.getD 0 0) (s.lfsr.getD 4 0) (s.lfsr.getD 10 0) (s.lfsr.getD 13 0)
        (s.lfsr.getD 15 0) w ≠ 0 ∧
      enterInitMode ⟨s.lfsr, r1, r2⟩ w = .ok ⟨s.lfsr.tail ++
        [feedbackSum (s.lfsr.getD 0 0) (s.lfsr.getD 4 0) (s.lfsr.getD 10 0) (s.lfsr.getD 13 0)
          (s.lfsr.getD 15 0) w], r1, r2⟩

/-! ## The zero test of `enterInitMode` -/

/-- The sixteen cells that `loadKeyIV32` writes for a 32-byte key and a
23-byte IV with the constants `zuc256_d0`, each as the sum of its four fields
`a * 2 ^ 23 + b * 2 ^ 16 + c * 2 ^ 8 + d` (bits 30..23, 22..16, 15..8, 7..0);
in the cells 5..12, 14 and 15 the field `b` is the constant plus a slice of
`iv[17..22]` or of `key[31]` that lies below the constant's set bits. -/
def loadedCells32 (key iv : List Nat) : List Nat :=
  [key.getD 0 0 * 2 ^ 23 + 34 * 2 ^ 16 + key.getD 21 0 * 2 ^ 8 + key.getD 16 0,
   key.getD 1 0 * 2 ^ 23 + 47 * 2 ^ 16 + key.getD 22 0 * 2 ^ 8 + key.getD 17 0,
   key.getD 2 0 * 2 ^ 23 + 36 * 2 ^ 16 + key.getD 23 0 * 2 ^ 8 + key.getD 18 0,
   key.getD 3 0 * 2 ^ 23 + 42 * 2 ^ 16 + key.getD 24 0 * 2 ^ 8 + key.getD 19 0,
   key.getD 4 0 * 2 ^ 23 + 109 * 2 ^ 16 + key.getD 25 0 * 2 ^ 8 + key.getD 20 0,
   iv.getD 0 0 * 2 ^ 23 + (64 + iv.getD 17 0 / 4) * 2 ^ 16 + key.getD 5 0 * 2 ^ 8 + key.getD 26 0,
   iv.getD 1 0 * 2 ^ 23 + (64 + (iv.getD 17 0 % 4 * 16 + iv.getD 18 0 / 16)) * 2 ^ 16 + key.getD 6 0 * 2 ^ 8 + key.getD 27 0,
   iv.getD 10 0 * 2 ^ 23 + (64 + (iv.getD 18 0 % 16 * 4 + iv.getD 19 0 / 64)) * 2 ^ 16 + key.getD 7 0 * 2 ^ 8 + iv.getD 2 0,
   key.getD 8 0 * 2 ^ 23 + (64 + iv.getD 19 0 % 64) * 2 ^ 16 + iv.getD 3 0 * 2 ^ 8 + iv.getD 11 0,
   key.getD 9 0 * 2 ^ 23 + (64 + iv.getD 20 0 / 4) * 2 ^ 16 + iv.getD 12 0 * 2 ^ 8 + iv.getD 4 0,
   iv.getD 5 0 * 2 ^ 23 + (64 + (iv.getD 20 0 % 4 * 16 + iv.getD 21 0 / 16)) * 2 ^ 16 + key.getD 10 0 * 2 ^ 8 + key.getD 28 0,
   key.getD 11 0 * 2 ^ 23 + (64 + (iv.getD 21 0 % 16 * 4 + iv.getD 22 0 / 64)) * 2 ^ 16 + iv.getD 6 0 * 2 ^ 8 + iv.getD 13 0,
   key.getD 12 0 * 2 ^ 23 + (64 + iv.getD 22 0 % 64) * 2 ^ 16 + iv.getD 7 0 * 2 ^ 8 + iv.getD 14 0,
   key.getD 13 0 * 2 ^ 23 + 82 * 2 ^ 16 + iv.getD 15 0 * 2 ^ 8 + iv.getD 8 0,
   key.getD 14 0 * 2 ^ 23 + (16 + key.getD 31 0 / 16) * 2 ^ 16 + iv.getD 16 0 * 2 ^ 8 + iv.getD 9 0,
   key.getD 15 0 * 2 ^ 23 + (48 + key.getD 31 0 % 16) * 2 ^ 16 + key.getD 30 0 * 2 ^ 8 + key.getD 29 0]

/-! # Lemmas -/

/-! ## Arithmetic -/

theorem and_mask31 (x : Nat) : x &&& 0x7FFFFFFF = x % 2 ^ 31 :=
  Nat.and_pow_two_sub_one_eq_mod x 31

theorem and_mask16 (x : Nat) : x &&& 0xFFFF = x % 2 ^ 16 :=
  Nat.and_pow_two_sub_one_eq_mod x 16

theorem and_mask8 (x : Nat) : x &&& 0xFF = x % 2 ^ 8 :=
  Nat.and_pow_two_sub_one_eq_mod x 8

/-- A bitwise or of a multiple of `2 ^ k` with a number below `2 ^ k` is a sum. -/
theorem or_eq_add (k a b : Nat) (ha : a % 2 ^ k = 0) (hb : b < 2 ^ k) : a ||| b = a + b := by
  have h : a = 2 ^ k * (a / 2 ^ k) := by
    have := Nat.div_add_mod a (2 ^ k)
    omega
  rw [h, Nat.mul_add_lt_is_or hb]

theorem add31_eq (x y : Nat) :
    add31 x y = ((x + y) % 2 ^ 32 % 2 ^ 31 + (x + y) % 2 ^ 32 / 2 ^ 31) % 2 ^ 32 := by
  simp only [add31, and_mask31, Nat.shiftRight_eq_div_pow]

theorem add31_lt (x y : Nat) : add31 x y < 2 ^ 32 := by
  rw [add31_eq]; exact Nat.mod_lt _ (by norm_num)

/-- On field elements `add31` subtracts `2 ^ 31 - 1` once when the sum
reaches `2 ^ 31`. -/
theorem add31_cases (x y : Nat) (hx : x ≤ 0x7FFFFFFF) (hy : y ≤ 0x7FFFFFFF) :
    add31 x y = if x + y < 2 ^ 31 then x + y else x + y - 0x7FFFFFFF := by
  rw [add31_eq]
  have h1 : (x + y) % 2 ^ 32 = x + y := Nat.mod_eq_of_lt (by omega)
  rw [h1]
  split
  · next h =>
    rw [Nat.mod_eq_of_lt h, Nat.div_eq_of_lt h]
    omega
  · next h =>
    have h2 : (x + y) / 2 ^ 31 = 1 := by omega
    have h3 : (x + y) % 2 ^ 31 = x + y - 2 ^ 31 := by omega
    rw [h2, h3]
    omega

theorem add31_le (x y : Nat) (hx : x ≤ 0x7FFFFFFF) (hy : y ≤ 0x7FFFFFFF) :
    add31 x y ≤ 0x7FFFFFFF := by
  rw [add31_cases x y hx hy]; split <;> omega

theorem add31_mod (x y : Nat) (hx : x ≤ 0x7FFFFFFF) (hy : y ≤ 0x7FFFFFFF) :
    add31 x y % 0x7FFFFFFF = (x + y) % 0x7FFFFFFF := by
  rw [add31_cases x y hx hy]; split
  · rfl
  · next h =>
    have : x + y = (x + y - 0x7FFFFFFF) + 0x7FFFFFFF := by omega
    conv => rhs; rw [this]
    simp

theorem rotateLeft31_eq (x k : Nat) :
    rotateLeft31 x k = (((x * 2 ^ k) % 2 ^ 32) ||| (x / 2 ^ (31 - k))) % 2 ^ 31 := by
  simp only [rotateLeft31, and_mask31, Nat.shiftRight_eq_div_pow, Nat.shiftLeft_eq]

theorem rotateLeft31_le (x k : Nat) : rotateLeft31 x k ≤ 0x7FFFFFFF := by
  rw [rotateLeft31_eq]; omega

/-- The explicit value of a 31-bit rotation of a field element. -/
theorem rotateLeft31_val (x k : Nat) (hk : k ≤ 31) (hx : x < 2 ^ 31) :
    rotateLeft31 x k = (x % 2 ^ (31 - k)) * 2 ^ k + x / 2 ^ (31 - k) := by
  have e31 : 2 ^ 31 = 2 ^ (31 - k) * 2 ^ k := by rw [← pow_add]; congr 1; omega
  have e32 : 2 ^ 32 = 2 ^ (32 - k) * 2 ^ k := by rw [← pow_add]; congr 1; omega
  have hhi : x / 2 ^ (31 - k) < 2 ^ k := by
    apply Nat.div_lt_of_lt_mul; rw [← e31]; exact hx
  have hlo : x % 2 ^ (31 - k) < 2 ^ (31 - k) := Nat.mod_lt _ (by positivity)
  rw [rotateLeft31_eq]
  have h1 : x * 2 ^ k % 2 ^ 32 = (x % 2 ^ (32 - k)) * 2 ^ k := by
    rw [e32, Nat.mul_mod_mul_right]
  rw [h1, or_eq_add k _ _ (by simp) hhi]
  have h2 : (x % 2 ^ (32 - k)) * 2 ^ k % 2 ^ 31 = (x % 2 ^ (31 - k)) * 2 ^ k := by
    rw [e31, Nat.mul_mod_mul_right, Nat.mod_mod_of_dvd]
    exact pow_dvd_pow 2 (by omega)
  rw [Nat.add_mod, h2, Nat.add_mod_mod]
  apply Nat.mod_eq_of_lt
  calc x % 2 ^ (31 - k) * 2 ^ k + x / 2 ^ (31 - k)
      < x % 2 ^ (31 - k) * 2 ^ k + 2 ^ k := by omega
    _ = (x % 2 ^ (31 - k) + 1) * 2 ^ k := by ring
    _ ≤ 2 ^ (31 - k) * 2 ^ k := Nat.mul_le_mul_right _ hlo
    _ = 2 ^ 31 := e31.symm

/-- Rotating a field element left by `k` multiplies it by `2 ^ k` modulo
`2 ^ 31 - 1`. -/
theorem rotateLeft31_mod (x k : Nat) (hk : k ≤ 31) (hx : x ≤ 0x7FFFFFFF) :
    rotateLeft31 x k % 0x7FFFFFFF = (2 ^ k * x) % 0x7FFFFFFF := by
  have e31 : 2 ^ 31 = 2 ^ (31 - k) * 2 ^ k := by rw [← pow_add]; congr 1; omega
  rw [rotateLeft31_val x k hk (by omega)]
  have hx' : 2 ^ k * x = (x % 2 ^ (31 - k)) * 2 ^ k + x / 2 ^ (31 - k)
      + 0x7FFFFFFF * (x / 2 ^ (31 - k)) := by
    have h := Nat.div_add_mod x (2 ^ (31 - k))
    have e : (0x7FFFFFFF : Nat) = 2 ^ (31 - k) * 2 ^ k - 1 := by rw [← e31]; norm_num
    have hpos : 1 ≤ 2 ^ (31 - k) * 2 ^ k := by rw [← e31]; norm_num
    conv => lhs; rw [← h]
    rw [e]
    zify [hpos]
    ring
  rw [hx', Nat.add_mul_mod_self_left]

/-! ## Running the methods on a state with sixteen cells -/

theorem ok_bind {α β : Type} (a : α) (f : α → Except zucError β) :
    (Except.ok a >>= f) = f a := by
  have h : ∀ x : Except zucError α, x = Except.ok a → (x >>= f) = f a := by
    intro x hx
    subst hx
    rfl
  exact h _ rfl

theorem cells16 (l : List Nat) (h : l.length = 16) :
    ∃ c0 c1 c2 c3 c4 c5 c6 c7 c8 c9 c10 c11 c12 c13 c14 c15 : Nat,
      l = [c0, c1, c2, c3, c4, c5, c6, c7, c8, c9, c10, c11, c12, c13, c14, c15] := by
  match l, h with
  | [c0, c1, c2, c3, c4, c5, c6, c7, c8, c9, c10, c11, c12, c13, c14, c15], _ =>
    exact ⟨c0, c1, c2, c3, c4, c5, c6, c7, c8, c9, c10, c11, c12, c13, c14, c15, rfl⟩

theorem bitReconstruction_cells (c0 c1 c2 c3 c4 c5 c6 c7 c8 c9 c10 c11 c12 c13 c14 c15 r1 r2 : Nat)
    :
    bitReconstruction ⟨[c0, c1, c2, c3, c4, c5, c6, c7, c8, c9, c10, c11, c12, c13, c14, c15], r1,
        r2⟩
      = .ok [(((c15 &&& 0x7FFF8000) <<< 1) % 2 ^ 32) ||| (c14 &&& 0xFFFF),
        (((c11 &&& 0xFFFF) <<< 16) % 2 ^ 32) ||| (c9 >>> 15),
        (((c7 &&& 0xFFFF) <<< 16) % 2 ^ 32) ||| (c5 >>> 15),
        (((c2 &&& 0xFFFF) <<< 16) % 2 ^ 32) ||| (c0 >>> 15)] := rfl

theorem enterInitMode_cells
    (c0 c1 c2 c3 c4 c5 c6 c7 c8 c9 c10 c11 c12 c13 c14 c15 r1 r2 w : Nat) :
    enterInitMode ⟨[c0, c1, c2, c3, c4, c5, c6, c7, c8, c9, c10, c11, c12, c13, c14, c15], r1, r2⟩ w
      = .ok ⟨[c1, c2, c3, c4, c5, c6, c7, c8, c9, c10, c11, c12, c13, c14, c15,
          feedback c0 c4 c10 c13 c15 w], r1, r2⟩ := by
  have hs : shiftLoop 15 0 [c0, c1, c2, c3, c4, c5, c6, c7, c8, c9, c10, c11, c12, c13, c14, c15]
      = .ok [c1, c2, c3, c4, c5, c6, c7, c8, c9, c10, c11, c12, c13, c14, c15, c15] := by
    simp [shiftLoop, index, assign, ok_bind]
  simp [enterInitMode, hs, index, assign, ok_bind, feedback]

/-! ## The nonlinear function never leaves the tables -/

theorem index_ok (l : List Nat) (i : Nat) (h : i < l.length) : index l i = .ok l[i] := by
  simp [index, List.getElem?_eq_getElem h]

set_option maxRecDepth 100000 in
theorem sbox0_bytes : sbox0.length = 256 ∧ ∀ b ∈ sbox0, b < 256 := by decide

set_option maxRecDepth 100000 in
theorem sbox1_bytes : sbox1.length = 256 ∧ ∀ b ∈ sbox1, b < 256 := by decide

theorem index_sbox0 (i : Nat) (h : i < 256) : ∃ b, index sbox0 i = .ok b ∧ b < 256 :=
  have hl : i < sbox0.length := by rw [sbox0_bytes.1]; exact h
  ⟨_, index_ok sbox0 i hl, sbox0_bytes.2 _ (List.getElem_mem hl)⟩

theorem index_sbox1 (i : Nat) (h : i < 256) : ∃ b, index sbox1 i = .ok b ∧ b < 256 :=
  have hl : i < sbox1.length := by rw [sbox1_bytes.1]; exact h
  ⟨_, index_ok sbox1 i hl, sbox1_bytes.2 _ (List.getElem_mem hl)⟩

theorem shiftRight_lt (x j k : Nat) (h : x < 2 ^ (j + k)) : x >>> j < 2 ^ k := by
  rw [Nat.shiftRight_eq_div_pow]
  apply Nat.div_lt_of_lt_mul
  rw [← pow_add]; exact h

theorem rotateLeft32_lt (x k : Nat) (h : x < 2 ^ 32) : rotateLeft32 x k < 2 ^ 32 := by
  unfold rotateLeft32
  apply Nat.or_lt_two_pow (Nat.mod_lt _ (by norm_num))
  exact lt_of_le_of_lt (by rw [Nat.shiftRight_eq_div_pow]; exact Nat.div_le_self _ _) h

theorem l1_lt (x : Nat) (h : x < 2 ^ 32) : l1 x < 2 ^ 32 := by
  unfold l1
  exact Nat.xor_lt_two_pow (Nat.xor_lt_two_pow (Nat.xor_lt_two_pow (Nat.xor_lt_two_pow h
    (rotateLeft32_lt x 2 h)) (rotateLeft32_lt x 10 h)) (rotateLeft32_lt x 18 h))
    (rotateLeft32_lt x 24 h)

theorem l2_lt (x : Nat) (h : x < 2 ^ 32) : l2 x < 2 ^ 32 := by
  unfold l2
  exact Nat.xor_lt_two_pow (Nat.xor_lt_two_pow (Nat.xor_lt_two_pow (Nat.xor_lt_two_pow h
    (rotateLeft32_lt x 8 h)) (rotateLeft32_lt x 14 h)) (rotateLeft32_lt x 22 h))
    (rotateLeft32_lt x 30 h)

theorem bigEndianUint32_bytes (a0 a1 a2 a3 : Nat) :
    ∃ r, bigEndianUint32 [a0, a1, a2, a3] = .ok r ∧ (a3 < 2 ^ 32 → r < 2 ^ 32) := by
  refine ⟨_, rfl, fun h => ?_⟩
  exact Nat.or_lt_two_pow (Nat.or_lt_two_pow (Nat.or_lt_two_pow h (Nat.mod_lt _ (by norm_num)))
    (Nat.mod_lt _ (by norm_num))) (Nat.mod_lt _ (by norm_num))

/-- The four table lookups `sbox0[u>>24]`, `sbox1[(u>>16)&0xFF]`,
`sbox0[(u>>8)&0xFF]`, `sbox1[u&0xFF]` succeed for every 32-bit `u`. -/
theorem sbox_lookups (u : Nat) (hu : u < 2 ^ 32) :
    ∃ a0 a1 a2 a3, index sbox0 (u >>> 24) = .ok a0 ∧ index sbox1 ((u >>> 16) &&& 0xFF) = .ok a1 ∧
      index sbox0 ((u >>> 8) &&& 0xFF) = .ok a2 ∧ index sbox1 (u &&& 0xFF) = .ok a3 ∧
      a3 < 256 := by
  obtain ⟨a0, h0, -⟩ := index_sbox0 (u >>> 24) (shiftRight_lt u 24 8 hu)
  obtain ⟨a1, h1, -⟩ := index_sbox1 ((u >>> 16) &&& 0xFF)
    (by rw [and_mask8]; exact Nat.mod_lt _ (by norm_num))
  obtain ⟨a2, h2, -⟩ := index_sbox0 ((u >>> 8) &&& 0xFF)
    (by rw [and_mask8]; exact Nat.mod_lt _ (by norm_num))
  obtain ⟨a3, h3, h3'⟩ := index_sbox1 (u &&& 0xFF)
    (by rw [and_mask8]; exact Nat.mod_lt _ (by norm_num))
  exact ⟨a0, a1, a2, a3, h0, h1, h2, h3, h3'⟩

theorem f32_ok (s : zucState32) (x0 x1 x2 : Nat) (h2 : s.r2 < 2 ^ 32) (hx2 : x2 < 2 ^ 32) :
    ∃ r1 r2, f32 s x0 x1 x2 = .ok (((s.r1 ^^^ x0) + s.r2) % 2 ^ 32, ⟨s.lfsr, r1, r2⟩) ∧
      r1 < 2 ^ 32 ∧ r2 < 2 ^ 32 := by
  have hw2 : s.r2 ^^^ x2 < 2 ^ 32 := Nat.xor_lt_two_pow h2 hx2
  have hw1 : (s.r1 + x1) % 2 ^ 32 < 2 ^ 32 := Nat.mod_lt _ (by norm_num)
  obtain ⟨a0, a1, a2, a3, ha0, ha1, ha2, ha3, ha⟩ := sbox_lookups
    (l1 (((((s.r1 + x1) % 2 ^ 32) <<< 16) % 2 ^ 32) ||| ((s.r2 ^^^ x2) >>> 16)))
    (l1_lt _ (Nat.or_lt_two_pow (Nat.mod_lt _ (by norm_num))
      ((shiftRight_lt _ 16 16 hw2).trans (by norm_num))))
  obtain ⟨b0, b1, b2, b3, hb0, hb1, hb2, hb3, hb⟩ := sbox_lookups
    (l2 ((((s.r2 ^^^ x2) <<< 16) % 2 ^ 32) ||| (((s.r1 + x1) % 2 ^ 32) >>> 16)))
    (l2_lt _ (Nat.or_lt_two_pow (Nat.mod_lt _ (by norm_num))
      ((shiftRight_lt _ 16 16 hw1).trans (by norm_num))))
  obtain ⟨r1, e1, hr1⟩ := bigEndianUint32_bytes a0 a1 a2 a3
  obtain ⟨r2, e2, hr2⟩ := bigEndianUint32_bytes b0 b1 b2 b3
  refine ⟨r1, r2, ?_, hr1 (by omega), hr2 (by omega)⟩
  simp only [f32, ha0, ha1, ha2, ha3, hb0, hb1, hb2, hb3, e1, e2, ok_bind]
  rfl

/-! ## One round on a state with sixteen cells -/

theorem index_cons_zero (a : Nat) (l : List Nat) : index (a :: l) 0 = .ok a := by
  simp [index]

theorem index_cons_succ (a : Nat) (l : List Nat) (n : Nat) :
    index (a :: l) (n + 1) = index l n := by
  simp [index]

theorem x2_lt (c7 c5 : Nat) (h : c5 < 2 ^ 32) :
    ((((c7 &&& 0xFFFF) <<< 16) % 2 ^ 32) ||| (c5 >>> 15)) < 2 ^ 32 :=
  Nat.or_lt_two_pow (Nat.mod_lt _ (by norm_num))
    ((shiftRight_lt c5 15 17 h).trans (by norm_num))

theorem genKeyword_cells (c0 c1 c2 c3 c4 c5 c6 c7 c8 c9 c10 c11 c12 c13 c14 c15 r1 r2 : Nat) (h5 :
    c5 < 2 ^ 32)
    (h2 : r2 < 2 ^ 32) :
    ∃ r1' r2', genKeyword ⟨[c0, c1, c2, c3, c4, c5, c6, c7, c8, c9, c10, c11, c12, c13, c14, c15],
        r1, r2⟩
      = .ok (((((c2 &&& 0xFFFF) <<< 16) % 2 ^ 32) ||| (c0 >>> 15)) ^^^ ((r1 ^^^ ((((c15 &&&
          0x7FFF8000) <<< 1) % 2 ^ 32) ||| (c14 &&& 0xFFFF))) + r2) % 2 ^ 32,
          ⟨[c1, c2, c3, c4, c5, c6, c7, c8, c9, c10, c11, c12, c13, c14, c15,
            feedback c0 c4 c10 c13 c15 0], r1', r2'⟩) ∧ r1' < 2 ^ 32 ∧ r2' < 2 ^ 32 := by
  obtain ⟨r1', r2', hf, hb1, hb2⟩ := f32_ok ⟨[c0, c1, c2, c3, c4, c5, c6, c7, c8, c9, c10, c11,
      c12, c13, c14, c15], r1, r2⟩
    ((((c15 &&& 0x7FFF8000) <<< 1) % 2 ^ 32) ||| (c14 &&& 0xFFFF)) ((((c11 &&& 0xFFFF) <<< 16) % 2
        ^ 32) ||| (c9 >>> 15)) ((((c7 &&& 0xFFFF) <<< 16) % 2 ^ 32) ||| (c5 >>> 15)) h2 (x2_lt c7
        c5 h5)
  refine ⟨r1', r2', ?_, hb1, hb2⟩
  unfold genKeyword
  rw [bitReconstruction_cells, ok_bind]
  simp only [index_cons_zero, index_cons_succ]
  rw [ok_bind, ok_bind, ok_bind, ok_bind, hf, ok_bind]
  dsimp only [enterWorkMode]
  rw [enterInitMode_cells, ok_bind]
  rfl

theorem initRound_cells (c0 c1 c2 c3 c4 c5 c6 c7 c8 c9 c10 c11 c12 c13 c14 c15 r1 r2 : Nat) (h5 :
    c5 < 2 ^ 32)
    (h2 : r2 < 2 ^ 32) :
    ∃ r1' r2', initRound ⟨[c0, c1, c2, c3, c4, c5, c6, c7, c8, c9, c10, c11, c12, c13, c14, c15],
        r1, r2⟩
      = .ok ⟨[c1, c2, c3, c4, c5, c6, c7, c8, c9, c10, c11, c12, c13, c14, c15,
            feedback c0 c4 c10 c13 c15 ((((r1 ^^^ ((((c15 &&& 0x7FFF8000) <<< 1) % 2 ^ 32) ||| (c14
                &&& 0xFFFF))) + r2) % 2 ^ 32) >>> 1)], r1', r2'⟩ ∧
        r1' < 2 ^ 32 ∧ r2' < 2 ^ 32 := by
  obtain ⟨r1', r2', hf, hb1, hb2⟩ := f32_ok ⟨[c0, c1, c2, c3, c4, c5, c6, c7, c8, c9, c10, c11,
      c12, c13, c14, c15], r1, r2⟩
    ((((c15 &&& 0x7FFF8000) <<< 1) % 2 ^ 32) ||| (c14 &&& 0xFFFF)) ((((c11 &&& 0xFFFF) <<< 16) % 2
        ^ 32) ||| (c9 >>> 15)) ((((c7 &&& 0xFFFF) <<< 16) % 2 ^ 32) ||| (c5 >>> 15)) h2 (x2_lt c7
        c5 h5)
  refine ⟨r1', r2', ?_, hb1, hb2⟩
  unfold initRound
  rw [bitReconstruction_cells, ok_bind]
  simp only [index_cons_zero, index_cons_succ]
  rw [ok_bind, ok_bind, ok_bind, hf, ok_bind]
  dsimp only
  rw [enterInitMode_cells]
/-! ## The feedback value -/

theorem feedback_ne_zero (c0 c4 c10 c13 c15 w : Nat) : feedback c0 c4 c10 c13 c15 w ≠ 0 := by
  unfold feedback
  dsimp only
  split <;> omega

theorem feedback_lt (c0 c4 c10 c13 c15 w : Nat) : feedback c0 c4 c10 c13 c15 w < 2 ^ 32 := by
  unfold feedback
  dsimp only
  split
  · norm_num
  · exact add31_lt _ _

theorem feedback_le (c0 c4 c10 c13 c15 w : Nat) (h0 : c0 ≤ 0x7FFFFFFF) (hw : w ≤ 0x7FFFFFFF) :
    feedback c0 c4 c10 c13 c15 w ≤ 0x7FFFFFFF := by
  unfold feedback
  dsimp only
  split
  · exact le_refl _
  · exact add31_le _ _ (add31_le _ _ (add31_le _ _ (add31_le _ _ (add31_le _ _
      (add31_le _ _ h0 (rotateLeft31_le _ _)) (rotateLeft31_le _ _)) (rotateLeft31_le _ _))
      (rotateLeft31_le _ _)) (rotateLeft31_le _ _)) hw

theorem feedback_mod (c0 c4 c10 c13 c15 w : Nat) (h0 : c0 ≤ 0x7FFFFFFF) (h4 : c4 ≤ 0x7FFFFFFF)
    (h10 : c10 ≤ 0x7FFFFFFF) (h13 : c13 ≤ 0x7FFFFFFF) (h15 : c15 ≤ 0x7FFFFFFF)
    (hw : w ≤ 0x7FFFFFFF) :
    feedback c0 c4 c10 c13 c15 w % 0x7FFFFFFF
      = (c0 + 2 ^ 8 * c0 + 2 ^ 20 * c4 + 2 ^ 21 * c10 + 2 ^ 17 * c13 + 2 ^ 15 * c15 + w)
          % 0x7FFFFFFF := by
  have r0 := rotateLeft31_mod c0 8 (by norm_num) h0
  have r4 := rotateLeft31_mod c4 20 (by norm_num) h4
  have r10 := rotateLeft31_mod c10 21 (by norm_num) h10
  have r13 := rotateLeft31_mod c13 17 (by norm_num) h13
  have r15 := rotateLeft31_mod c15 15 (by norm_num) h15
  have b1 := add31_le _ _ h0 (rotateLeft31_le c0 8)
  have b2 := add31_le _ _ b1 (rotateLeft31_le c4 20)
  have b3 := add31_le _ _ b2 (rotateLeft31_le c10 21)
  have b4 := add31_le _ _ b3 (rotateLeft31_le c13 17)
  have b5 := add31_le _ _ b4 (rotateLeft31_le c15 15)
  have m1 := add31_mod _ _ h0 (rotateLeft31_le c0 8)
  have m2 := add31_mod _ _ b1 (rotateLeft31_le c4 20)
  have m3 := add31_mod _ _ b2 (rotateLeft31_le c10 21)
  have m4 := add31_mod _ _ b3 (rotateLeft31_le c13 17)
  have m5 := add31_mod _ _ b4 (rotateLeft31_le c15 15)
  have m6 := add31_mod _ _ b5 hw
  have hv : feedback c0 c4 c10 c13 c15 w % 0x7FFFFFFF
      = add31 (add31 (add31 (add31 (add31 (add31 c0 (rotateLeft31 c0 8))
        (rotateLeft31 c4 20)) (rotateLeft31 c10 21)) (rotateLeft31 c13 17))
        (rotateLeft31 c15 15)) w % 0x7FFFFFFF := by
    unfold feedback
    dsimp only
    split
    · next h => rw [h]
    · rfl
  rw [hv, m6]
  omega

/-! ## One call on a well-typed state -/

theorem forall_mem_tail_append {P : Nat → Prop} {l : List Nat} {v : Nat}
    (hl : ∀ c ∈ l, P c) (hv : P v) : ∀ c ∈ l.tail ++ [v], P c := by
  intro c hc
  rcases List.mem_append.1 hc with h | h
  · exact hl c (List.mem_of_mem_tail h)
  · rw [List.mem_singleton.1 h]; exact hv

theorem genKeyword_step (s : zucState32) (h : wellTyped s) :
    ∃ z s', genKeyword s = .ok (z, s') ∧ z < 2 ^ 32 ∧ wellTyped s' ∧ advanced s s' := by
  obtain ⟨hlen, hc, h1, h2⟩ := h
  obtain ⟨lfsr, r1, r2⟩ := s
  obtain ⟨c0, c1, c2, c3, c4, c5, c6, c7, c8, c9, c10, c11, c12, c13, c14, c15, rfl⟩ :=
    cells16 lfsr hlen
  have hc' := hc
  simp only [List.mem_cons, List.mem_singleton, forall_eq_or_imp, forall_eq, List.not_mem_nil,
    false_implies, implies_true, and_true] at hc'
  obtain ⟨r1', r2', hg, hb1, hb2⟩ := genKeyword_cells c0 c1 c2 c3 c4 c5 c6 c7 c8 c9 c10 c11 c12
    c13 c14 c15 r1 r2 hc'.2.2.2.2.2.1 h2
  have hadv : advanced ⟨[c0, c1, c2, c3, c4, c5, c6, c7, c8, c9, c10, c11, c12, c13, c14, c15], r1,
      r2⟩
      ⟨[c1, c2, c3, c4, c5, c6, c7, c8, c9, c10, c11, c12, c13, c14, c15,
        feedback c0 c4 c10 c13 c15 0], r1', r2'⟩ :=
    ⟨feedback c0 c4 c10 c13 c15 0, rfl, feedback_ne_zero _ _ _ _ _ _, feedback_lt _ _ _ _ _ _,
      fun hle => feedback_le _ _ _ _ _ _ (hle c0 (List.mem_cons_self _ _)) (by norm_num)⟩
  refine ⟨_, _, hg, ?_, ⟨rfl, ?_, hb1, hb2⟩, hadv⟩
  · exact Nat.xor_lt_two_pow (Nat.or_lt_two_pow (Nat.mod_lt _ (by norm_num))
      ((shiftRight_lt c0 15 17 hc'.1).trans (by norm_num))) (Nat.mod_lt _ (by norm_num))
  · exact forall_mem_tail_append hc (feedback_lt _ _ _ _ _ _)

theorem initRound_step (s : zucState32) (h : wellTyped s) :
    ∃ s', initRound s = .ok s' ∧ wellTyped s' ∧ advanced s s' := by
  obtain ⟨hlen, hc, h1, h2⟩ := h
  obtain ⟨lfsr, r1, r2⟩ := s
  obtain ⟨c0, c1, c2, c3, c4, c5, c6, c7, c8, c9, c10, c11, c12, c13, c14, c15, rfl⟩ :=
    cells16 lfsr hlen
  have hc' := hc
  simp only [List.mem_cons, List.mem_singleton, forall_eq_or_imp, forall_eq, List.not_mem_nil,
    false_implies, implies_true, and_true] at hc'
  obtain ⟨r1', r2', hg, hb1, hb2⟩ := initRound_cells c0 c1 c2 c3 c4 c5 c6 c7 c8 c9 c10 c11 c12
    c13 c14 c15 r1 r2 hc'.2.2.2.2.2.1 h2
  refine ⟨_, hg, ⟨rfl, forall_mem_tail_append hc (feedback_lt _ _ _ _ _ _), hb1, hb2⟩,
    ⟨_, rfl, feedback_ne_zero _ _ _ _ _ _, feedback_lt _ _ _ _ _ _, fun hle => ?_⟩⟩
  refine feedback_le _ _ _ _ _ _ (hle c0 (List.mem_cons_self _ _)) ?_
  have : ((r1 ^^^ ((((c15 &&& 0x7FFF8000) <<< 1) % 2 ^ 32) ||| (c14 &&& 0xFFFF))) + r2) % 2 ^ 32
      < 2 ^ 32 := Nat.mod_lt _ (by norm_num)
  have := shiftRight_lt _ 1 31 this
  omega
theorem workState_cells (c0 c1 c2 c3 c4 c5 c6 c7 c8 c9 c10 c11 c12 c13 c14 c15 r1 r2 : Nat) (h5 :
    c5 < 2 ^ 32)
    (h2 : r2 < 2 ^ 32) :
    ∃ r1' r2', workState ⟨[c0, c1, c2, c3, c4, c5, c6, c7, c8, c9, c10, c11, c12, c13, c14, c15],
        r1, r2⟩
      = .ok ⟨[c1, c2, c3, c4, c5, c6, c7, c8, c9, c10, c11, c12, c13, c14, c15,
            feedback c0 c4 c10 c13 c15 0], r1', r2'⟩ ∧ r1' < 2 ^ 32 ∧ r2' < 2 ^ 32 := by
  obtain ⟨r1', r2', hf, hb1, hb2⟩ := f32_ok ⟨[c0, c1, c2, c3, c4, c5, c6, c7, c8, c9, c10, c11,
      c12, c13, c14, c15], r1, r2⟩
    ((((c15 &&& 0x7FFF8000) <<< 1) % 2 ^ 32) ||| (c14 &&& 0xFFFF)) ((((c11 &&& 0xFFFF) <<< 16) % 2
        ^ 32) ||| (c9 >>> 15)) ((((c7 &&& 0xFFFF) <<< 16) % 2 ^ 32) ||| (c5 >>> 15)) h2 (x2_lt c7
        c5 h5)
  refine ⟨r1', r2', ?_, hb1, hb2⟩
  unfold workState
  rw [bitReconstruction_cells, ok_bind]
  simp only [index_cons_zero, index_cons_succ]
  rw [ok_bind, ok_bind, ok_bind, hf, ok_bind]
  dsimp only [enterWorkMode]
  rw [enterInitMode_cells]

theorem workState_step (s : zucState32) (h : wellTyped s) :
    ∃ s', workState s = .ok s' ∧ wellTyped s' ∧ advanced s s' := by
  obtain ⟨hlen, hc, h1, h2⟩ := h
  obtain ⟨lfsr, r1, r2⟩ := s
  obtain ⟨c0, c1, c2, c3, c4, c5, c6, c7, c8, c9, c10, c11, c12, c13, c14, c15, rfl⟩ :=
    cells16 lfsr hlen
  have hc' := hc
  simp only [List.mem_cons, List.mem_singleton, forall_eq_or_imp, forall_eq, List.not_mem_nil,
    false_implies, implies_true, and_true] at hc'
  obtain ⟨r1', r2', hg, hb1, hb2⟩ := workState_cells c0 c1 c2 c3 c4 c5 c6 c7 c8 c9 c10 c11 c12
    c13 c14 c15 r1 r2 hc'.2.2.2.2.2.1 h2
  exact ⟨_, hg, ⟨rfl, forall_mem_tail_append hc (feedback_lt _ _ _ _ _ _), hb1, hb2⟩,
    ⟨_, rfl, feedback_ne_zero _ _ _ _ _ _, feedback_lt _ _ _ _ _ _,
      fun hle => feedback_le _ _ _ _ _ _ (hle c0 (List.mem_cons_self _ _)) (by norm_num)⟩⟩

/-! ## Invariants along the loops -/

theorem advanced_field {s s' : zucState32} (h : advanced s s') (hs : cellsField s) :
    cellsField s' := by
  obtain ⟨v, hl, -, -, hv⟩ := h
  unfold cellsField
  rw [hl]
  exact forall_mem_tail_append hs (hv hs)

theorem advanced_nonzero {s s' : zucState32} (h : advanced s s') (hs : cellsNonzero s) :
    cellsNonzero s' := by
  obtain ⟨v, hl, hv, -, -⟩ := h
  unfold cellsNonzero
  rw [hl]
  exact forall_mem_tail_append hs hv

theorem initLoop_inv (n : Nat) (s : zucState32) (h : wellTyped s) :
    ∃ s', initLoop n s = .ok s' ∧ wellTyped s' ∧ (cellsField s → cellsField s') ∧
      (cellsNonzero s → cellsNonzero s') := by
  induction n generalizing s with
  | zero => exact ⟨s, rfl, h, id, id⟩
  | succ n ih =>
    obtain ⟨s1, e1, w1, a1⟩ := initRound_step s h
    obtain ⟨s2, e2, w2, f2, z2⟩ := ih s1 w1
    refine ⟨s2, ?_, w2, fun hf => f2 (advanced_field a1 hf), fun hz => z2 (advanced_nonzero a1 hz)⟩
    rw [initLoop, e1, ok_bind, e2]

theorem runInit_inv (s : zucState32) (h : wellTyped s) :
    ∃ s', runInit s = .ok s' ∧ wellTyped s' ∧ (cellsField s → cellsField s') ∧
      (cellsNonzero s → cellsNonzero s') := by
  obtain ⟨s1, e1, w1, f1, z1⟩ := initLoop_inv 32 s h
  obtain ⟨s2, e2, w2, a2⟩ := workState_step s1 w1
  refine ⟨s2, ?_, w2, fun hf => advanced_field a2 (f1 hf), fun hz => advanced_nonzero a2 (z1 hz)⟩
  rw [runInit, e1, ok_bind, e2]

theorem genKeywordCalls_inv (n : Nat) (s : zucState32) (h : wellTyped s) :
    ∃ s' zs, genKeywordCalls n s = .ok (s', zs) ∧ zs.length = n ∧ (∀ z ∈ zs, z < 2 ^ 32) ∧
      wellTyped s' ∧ (cellsField s → cellsField s') ∧ (cellsNonzero s → cellsNonzero s') := by
  induction n generalizing s with
  | zero => exact ⟨s, [], rfl, rfl, by simp, h, id, id⟩
  | succ n ih =>
    obtain ⟨z, s1, e1, hz, w1, a1⟩ := genKeyword_step s h
    obtain ⟨s2, zs, e2, hl, hzs, w2, f2, z2⟩ := ih s1 w1
    refine ⟨s2, z :: zs, ?_, by simp [hl], ?_, w2, fun hf => f2 (advanced_field a1 hf),
      fun hz => z2 (advanced_nonzero a1 hz)⟩
    · rw [genKeywordCalls, e1, ok_bind]
      dsimp only
      rw [e2, ok_bind]
      rfl
    · intro y hy
      rcases List.mem_cons.1 hy with rfl | hy
      · exact hz
      · exact hzs y hy

/-! ## `genKeywords` against successive `genKeyword` calls -/

theorem take_succ_set (l : List Nat) (i z : Nat) (h : i < l.length) :
    (l.set i z).take (i + 1) = l.take i ++ [z] := by
  induction l generalizing i with
  | nil => simp at h
  | cons a l ih =>
    cases i with
    | zero => simp
    | succ i =>
      simp only [List.length_cons, Nat.add_lt_add_iff_right] at h
      simp [ih i h]

theorem genKeywordsLoop_eq (n i : Nat) (s : zucState32) (words : List Nat)
    (h : i + n = words.length) :
    genKeywordsLoop n i s words
      = (genKeywordCalls n s >>= fun p => pure (p.1, words.take i ++ p.2)) := by
  induction n generalizing i s words with
  | zero =>
    have hi : i = words.length := by omega
    rw [genKeywordsLoop, genKeywordCalls, hi]
    simp [pure, Except.pure, bind, Except.bind]
  | succ n ih =>
    rw [genKeywordsLoop, genKeywordCalls]
    cases hg : genKeyword s with
    | error e => rfl
    | ok p =>
      obtain ⟨z, s1⟩ := p
      have hi : i < words.length := by omega
      rw [ok_bind, ok_bind]
      dsimp only
      have ha : assign words i z = .ok (words.set i z) := by simp [assign, hi]
      rw [ha, ok_bind, ih (i + 1) s1 (words.set i z) (by simp; omega), take_succ_set words i z hi]
      cases genKeywordCalls n s1 with
      | error e => rfl
      | ok q => simp [pure, Except.pure, bind, Except.bind]
/-! ## Key loading -/

theorem cells32 (l : List Nat) (h : l.length = 32) :
    ∃ c0 c1 c2 c3 c4 c5 c6 c7 c8 c9 c10 c11 c12 c13 c14 c15 c16 c17 c18 c19 c20 c21 c22 c23 c24 c25
        c26 c27 c28 c29 c30 c31 : Nat,
      l = [c0, c1, c2, c3, c4, c5, c6, c7, c8, c9, c10, c11, c12, c13, c14, c15, c16, c17, c18,
          c19, c20, c21, c22, c23, c24, c25, c26, c27, c28, c29, c30, c31] := by
  match l, h with
  | [c0, c1, c2, c3, c4, c5, c6, c7, c8, c9, c10, c11, c12, c13, c14, c15, c16, c17, c18, c19, c20,
      c21, c22, c23, c24, c25, c26, c27, c28, c29, c30, c31], _ =>
    exact ⟨c0, c1, c2, c3, c4, c5, c6, c7, c8, c9, c10, c11, c12, c13, c14, c15, c16, c17, c18,
        c19, c20, c21, c22, c23, c24, c25, c26, c27, c28, c29, c30, c31, rfl⟩

theorem cells23 (l : List Nat) (h : l.length = 23) :
    ∃ c0 c1 c2 c3 c4 c5 c6 c7 c8 c9 c10 c11 c12 c13 c14 c15 c16 c17 c18 c19 c20 c21 c22 : Nat,
      l = [c0, c1, c2, c3, c4, c5, c6, c7, c8, c9, c10, c11, c12, c13, c14, c15, c16, c17, c18,
          c19, c20, c21, c22] := by
  match l, h with
  | [c0, c1, c2, c3, c4, c5, c6, c7, c8, c9, c10, c11, c12, c13, c14, c15, c16, c17, c18, c19, c20,
      c21, c22], _ =>
    exact ⟨c0, c1, c2, c3, c4, c5, c6, c7, c8, c9, c10, c11, c12, c13, c14, c15, c16, c17, c18,
        c19, c20, c21, c22, rfl⟩

theorem makeFieldValue3_eq (a b c : Nat) (ha : a < 256) (hb : b < 2 ^ 15) (hc : c < 256) :
    makeFieldValue3 a b c = a * 2 ^ 23 + b * 2 ^ 8 + c := by
  unfold makeFieldValue3
  simp only [Nat.shiftLeft_eq]
  rw [Nat.mod_eq_of_lt (by omega), Nat.mod_eq_of_lt (by omega),
    or_eq_add 23 (a * 2 ^ 23) (b * 2 ^ 8) (by omega) (by omega),
    or_eq_add 8 (a * 2 ^ 23 + b * 2 ^ 8) c (by omega) (by omega)]

theorem makeFieldValue4_eq (a b c d : Nat) (ha : a < 256) (hb : b < 128) (hc : c < 256)
    (hd : d < 256) :
    makeFieldValue4 a b c d = a * 2 ^ 23 + b * 2 ^ 16 + c * 2 ^ 8 + d := by
  unfold makeFieldValue4
  simp only [Nat.shiftLeft_eq]
  rw [Nat.mod_eq_of_lt (by omega), Nat.mod_eq_of_lt (by omega), Nat.mod_eq_of_lt (by omega),
    or_eq_add 23 (a * 2 ^ 23) (b * 2 ^ 16) (by omega) (by omega),
    or_eq_add 16 (a * 2 ^ 23 + b * 2 ^ 16) (c * 2 ^ 8) (by omega) (by omega),
    or_eq_add 8 (a * 2 ^ 23 + b * 2 ^ 16 + c * 2 ^ 8) d (by omega) (by omega)]

theorem loadKeyIV16_cells (k0 k1 k2 k3 k4 k5 k6 k7 k8 k9 k10 k11 k12 k13 k14 k15
    i0 i1 i2 i3 i4 i5 i6 i7 i8 i9 i10 i11 i12 i13 i14 i15 : Nat) :
    loadKeyIV16 zeroState [k0, k1, k2, k3, k4, k5, k6, k7, k8, k9, k10, k11, k12, k13, k14, k15]
      [i0, i1, i2, i3, i4, i5, i6, i7, i8, i9, i10, i11, i12, i13, i14, i15]
      = .ok ⟨[makeFieldValue3 k0 17623 i0,
        makeFieldValue3 k1 9916 i1,
        makeFieldValue3 k2 25195 i2,
        makeFieldValue3 k3 4958 i3,
        makeFieldValue3 k4 22409 i4,
        makeFieldValue3 k5 13794 i5,
        makeFieldValue3 k6 28981 i6,
        makeFieldValue3 k7 2479 i7,
        makeFieldValue3 k8 19832 i8,
        makeFieldValue3 k9 12051 i9,
        makeFieldValue3 k10 27588 i10,
        makeFieldValue3 k11 6897 i11,
        makeFieldValue3 k12 24102 i12,
        makeFieldValue3 k13 15437 i13,
        makeFieldValue3 k14 30874 i14,
        makeFieldValue3 k15 18348 i15], 0, 0⟩ := by
  simp [loadKeyIV16, loadKeyIV16Loop, zeroState, index_cons_zero, index_cons_succ, assign, kd,
    ok_bind]

theorem loadKeyIV32_cells (k0 k1 k2 k3 k4 k5 k6 k7 k8 k9 k10 k11 k12 k13 k14 k15 k16 k17 k18 k19
    k20 k21 k22 k23 k24 k25 k26 k27 k28 k29 k30 k31
    v0 v1 v2 v3 v4 v5 v6 v7 v8 v9 v10 v11 v12 v13 v14 v15 v16 v17 v18 v19 v20 v21 v22 : Nat) :
    loadKeyIV32 zeroState
      [k0, k1, k2, k3, k4, k5, k6, k7, k8, k9, k10, k11, k12, k13, k14, k15, k16, k17, k18, k19,
          k20, k21, k22, k23, k24, k25, k26, k27, k28, k29, k30, k31]
      [v0, v1, v2, v3, v4, v5, v6, v7, v8, v9, v10, v11, v12, v13, v14, v15, v16, v17, v18, v19,
          v20, v21, v22] zuc256_d0
      = .ok ⟨[makeFieldValue4 k0 0x22 k21 k16,
        makeFieldValue4 k1 0x2f k22 k17,
        makeFieldValue4 k2 0x24 k23 k18,
        makeFieldValue4 k3 0x2a k24 k19,
        makeFieldValue4 k4 0x6d k25 k20,
        makeFieldValue4 v0 (0x40 ||| (v17 >>> 2)) k5 k26,
        makeFieldValue4 v1 (0x40 ||| ((((v17 &&& 0x3) <<< 4) % 256) ||| (v18 >>> 4))) k6 k27,
        makeFieldValue4 v10 (0x40 ||| ((((v18 &&& 0xf) <<< 2) % 256) ||| (v19 >>> 6))) k7 v2,
        makeFieldValue4 k8 (0x40 ||| (v19 &&& 0x3f)) v3 v11,
        makeFieldValue4 k9 (0x40 ||| (v20 >>> 2)) v12 v4,
        makeFieldValue4 v5 (0x40 ||| ((((v20 &&& 0x3) <<< 4) % 256) ||| (v21 >>> 4))) k10 k28,
        makeFieldValue4 k11 (0x40 ||| ((((v21 &&& 0xf) <<< 2) % 256) ||| (v22 >>> 6))) v6 v13,
        makeFieldValue4 k12 (0x40 ||| (v22 &&& 0x3f)) v7 v14,
        makeFieldValue4 k13 0x52 v15 v8,
        makeFieldValue4 k14 (0x10 ||| (k31 >>> 4)) v16 v9,
        makeFieldValue4 k15 (0x30 ||| (k31 &&& 0x0f)) k30 k29], 0, 0⟩ := by
  simp [loadKeyIV32, zeroState, index_cons_zero, index_cons_succ, assign, zuc256_d0, ok_bind]

theorem or_ne_zero (d x : Nat) (hd : d ≠ 0) : d ||| x ≠ 0 := by
  intro h
  apply hd
  apply Nat.eq_of_testBit_eq
  intro i
  have := congrArg (fun n => n.testBit i) h
  simp only [Nat.testBit_or, Nat.zero_testBit, Bool.or_eq_false_iff] at this
  simp [this.1]

theorem makeFieldValue3_good (a b c : Nat) (ha : a < 256) (hb : b < 2 ^ 15) (hb0 : b ≠ 0)
    (hc : c < 256) : makeFieldValue3 a b c ≤ 0x7FFFFFFF ∧ makeFieldValue3 a b c ≠ 0 := by
  rw [makeFieldValue3_eq a b c ha hb hc]
  constructor <;> omega

theorem makeFieldValue4_good (a b c d : Nat) (ha : a < 256) (hb : b < 128) (hb0 : b ≠ 0)
    (hc : c < 256) (hd : d < 256) :
    makeFieldValue4 a b c d ≤ 0x7FFFFFFF ∧ makeFieldValue4 a b c d ≠ 0 := by
  rw [makeFieldValue4_eq a b c d ha hb hc hd]
  constructor <;> omega

theorem slice_shift2 (v : Nat) (h : v < 256) : v >>> 2 < 2 ^ 7 :=
  (shiftRight_lt v 2 6 h).trans (by norm_num)

theorem slice_low6 (v : Nat) : v &&& 0x3f < 2 ^ 7 :=
  lt_of_le_of_lt Nat.and_le_right (by norm_num)

theorem slice_2_4 (v w : Nat) (h : w < 256) :
    ((((v &&& 0x3) <<< 4) % 256) ||| (w >>> 4)) < 2 ^ 7 := by
  apply Nat.or_lt_two_pow
  · have : v &&& 0x3 ≤ 0x3 := Nat.and_le_right
    rw [Nat.shiftLeft_eq]; omega
  · exact (shiftRight_lt w 4 4 h).trans (by norm_num)

theorem slice_4_2 (v w : Nat) (h : w < 256) :
    ((((v &&& 0xf) <<< 2) % 256) ||| (w >>> 6)) < 2 ^ 7 := by
  apply Nat.or_lt_two_pow
  · have : v &&& 0xf ≤ 0xf := Nat.and_le_right
    rw [Nat.shiftLeft_eq]; omega
  · exact (shiftRight_lt w 6 2 h).trans (by norm_num)

theorem slice_high4 (v : Nat) (h : v < 256) : v >>> 4 < 2 ^ 7 :=
  (shiftRight_lt v 4 4 h).trans (by norm_num)

theorem slice_low4 (v : Nat) : v &&& 0x0f < 2 ^ 7 :=
  lt_of_le_of_lt Nat.and_le_right (by norm_num)

/-- A constant byte of `zuc256_d0`, possibly with a slice or-ed in, is a
nonzero value below `128`. -/
theorem dfield_good (d x : Nat) (hd : d < 2 ^ 7) (hd0 : d ≠ 0) (hx : x < 2 ^ 7) :
    d ||| x < 128 ∧ d ||| x ≠ 0 :=
  ⟨Nat.or_lt_two_pow hd hx, or_ne_zero d x hd0⟩

theorem wellTyped_of_field (l : List Nat) (hl : l.length = 16) (h : ∀ c ∈ l, c ≤ 0x7FFFFFFF) :
    wellTyped ⟨l, 0, 0⟩ :=
  ⟨hl, fun c hc => lt_of_le_of_lt (h c hc) (by norm_num), by norm_num, by norm_num⟩

/-- Sixteen loaded cells that are nonzero field elements form a state of the
Go type whose cells are nonzero field elements. -/
theorem loaded_good (l : List Nat) (hl : l.length = 16) (h : ∀ c ∈ l, c ≤ 0x7FFFFFFF ∧ c ≠ 0) :
    wellTyped ⟨l, 0, 0⟩ ∧ cellsField ⟨l, 0, 0⟩ ∧ cellsNonzero ⟨l, 0, 0⟩ :=
  ⟨wellTyped_of_field l hl (fun c hc => (h c hc).1), fun c hc => (h c hc).1,
    fun c hc => (h c hc).2⟩

theorem loadKeyIV16_ok (key iv : List Nat) (hk : key.length = 16) (hi : iv.length = 16)
    (bk : isBytes key) (bi : isBytes iv) :
    ∃ s, loadKeyIV16 zeroState key iv = .ok s ∧ wellTyped s ∧ cellsField s ∧ cellsNonzero s := by
  obtain ⟨k0, k1, k2, k3, k4, k5, k6, k7, k8, k9, k10, k11, k12, k13, k14, k15, rfl⟩ :=
    cells16 key hk
  obtain ⟨i0, i1, i2, i3, i4, i5, i6, i7, i8, i9, i10, i11, i12, i13, i14, i15, rfl⟩ :=
    cells16 iv hi
  simp only [isBytes, List.mem_cons, List.mem_singleton, forall_eq_or_imp, forall_eq,
    List.not_mem_nil, false_implies, implies_true, and_true] at bk bi
  obtain ⟨hk0, hk1, hk2, hk3, hk4, hk5, hk6, hk7, hk8, hk9, hk10, hk11, hk12, hk13, hk14, hk15⟩ :=
      bk
  obtain ⟨hi0, hi1, hi2, hi3, hi4, hi5, hi6, hi7, hi8, hi9, hi10, hi11, hi12, hi13, hi14, hi15⟩ :=
      bi
  refine ⟨_, loadKeyIV16_cells _ _ _ _ _ _ _ _ _ _ _ _ _ _ _ _ _ _ _ _ _ _ _ _ _ _ _ _ _ _ _ _,
    loaded_good _ rfl ?_⟩
  simp only [List.mem_cons, List.mem_singleton, forall_eq_or_imp, forall_eq,
    List.not_mem_nil, false_implies, implies_true, and_true]
  exact ⟨makeFieldValue3_good _ _ _ hk0 (by norm_num) (by norm_num) hi0,
    makeFieldValue3_good _ _ _ hk1 (by norm_num) (by norm_num) hi1,
    makeFieldValue3_good _ _ _ hk2 (by norm_num) (by norm_num) hi2,
    makeFieldValue3_good _ _ _ hk3 (by norm_num) (by norm_num) hi3,
    makeFieldValue3_good _ _ _ hk4 (by norm_num) (by norm_num) hi4,
    makeFieldValue3_good _ _ _ hk5 (by norm_num) (by norm_num) hi5,
    makeFieldValue3_good _ _ _ hk6 (by norm_num) (by norm_num) hi6,
    makeFieldValue3_good _ _ _ hk7 (by norm_num) (by norm_num) hi7,
    makeFieldValue3_good _ _ _ hk8 (by norm_num) (by norm_num) hi8,
    makeFieldValue3_good _ _ _ hk9 (by norm_num) (by norm_num) hi9,
    makeFieldValue3_good _ _ _ hk10 (by norm_num) (by norm_num) hi10,
    makeFieldValue3_good _ _ _ hk11 (by norm_num) (by norm_num) hi11,
    makeFieldValue3_good _ _ _ hk12 (by norm_num) (by norm_num) hi12,
    makeFieldValue3_good _ _ _ hk13 (by norm_num) (by norm_num) hi13,
    makeFieldValue3_good _ _ _ hk14 (by norm_num) (by norm_num) hi14,
    makeFieldValue3_good _ _ _ hk15 (by norm_num) (by norm_num) hi15⟩

theorem loadKeyIV32_ok (key iv : List Nat) (hk : key.length = 32) (hi : iv.length = 23)
    (bk : isBytes key) (bi : isBytes iv) :
    ∃ s, loadKeyIV32 zeroState key iv zuc256_d0 = .ok s ∧ wellTyped s ∧ cellsField s ∧
      cellsNonzero s := by
  obtain ⟨k0, k1, k2, k3, k4, k5, k6, k7, k8, k9, k10, k11, k12, k13, k14, k15, k16, k17, k18, k19,
      k20, k21, k22, k23, k24, k25, k26, k27, k28, k29, k30, k31, rfl⟩ :=
    cells32 key hk
  obtain ⟨v0, v1, v2, v3, v4, v5, v6, v7, v8, v9, v10, v11, v12, v13, v14, v15, v16, v17, v18, v19,
      v20, v21, v22, rfl⟩ :=
    cells23 iv hi
  simp only [isBytes, List.mem_cons, List.mem_singleton, forall_eq_or_imp, forall_eq,
    List.not_mem_nil, false_implies, implies_true, and_true] at bk bi
  obtain ⟨hk0, hk1, hk2, hk3, hk4, hk5, hk6, hk7, hk8, hk9, hk10, hk11, hk12, hk13, hk14, hk15,
      hk16, hk17, hk18, hk19, hk20, hk21, hk22, hk23, hk24, hk25, hk26, hk27, hk28, hk29, hk30,
      hk31⟩ := bk
  obtain ⟨hv0, hv1, hv2, hv3, hv4, hv5, hv6, hv7, hv8, hv9, hv10, hv11, hv12, hv13, hv14, hv15,
      hv16, hv17, hv18, hv19, hv20, hv21, hv22⟩ := bi
  refine ⟨_, loadKeyIV32_cells k0 k1 k2 k3 k4 k5 k6 k7 k8 k9 k10 k11 k12 k13 k14 k15 k16 k17 k18
      k19 k20 k21 k22 k23 k24 k25 k26 k27 k28 k29 k30 k31
    v0 v1 v2 v3 v4 v5 v6 v7 v8 v9 v10 v11 v12 v13 v14 v15 v16 v17 v18 v19 v20 v21 v22,
    loaded_good _ rfl ?_⟩
  simp only [List.mem_cons, List.mem_singleton, forall_eq_or_imp, forall_eq,
    List.not_mem_nil, false_implies, implies_true, and_true]
  exact ⟨makeFieldValue4_good _ _ _ _ hk0 (by norm_num) (by norm_num) hk21 hk16,
    makeFieldValue4_good _ _ _ _ hk1 (by norm_num) (by norm_num) hk22 hk17,
    makeFieldValue4_good _ _ _ _ hk2 (by norm_num) (by norm_num) hk23 hk18,
    makeFieldValue4_good _ _ _ _ hk3 (by norm_num) (by norm_num) hk24 hk19,
    makeFieldValue4_good _ _ _ _ hk4 (by norm_num) (by norm_num) hk25 hk20,
    makeFieldValue4_good _ _ _ _ hv0 (dfield_good _ _ (by norm_num) (by norm_num) (slice_shift2 _
        hv17)).1
      (dfield_good _ _ (by norm_num) (by norm_num) (slice_shift2 _ hv17)).2 hk5 hk26,
    makeFieldValue4_good _ _ _ _ hv1 (dfield_good _ _ (by norm_num) (by norm_num) (slice_2_4 _ _
        hv18)).1
      (dfield_good _ _ (by norm_num) (by norm_num) (slice_2_4 _ _ hv18)).2 hk6 hk27,
    makeFieldValue4_good _ _ _ _ hv10 (dfield_good _ _ (by norm_num) (by norm_num) (slice_4_2 _ _
        hv19)).1
      (dfield_good _ _ (by norm_num) (by norm_num) (slice_4_2 _ _ hv19)).2 hk7 hv2,
    makeFieldValue4_good _ _ _ _ hk8 (dfield_good _ _ (by norm_num) (by norm_num) (slice_low6 _)).1
      (dfield_good _ _ (by norm_num) (by norm_num) (slice_low6 _)).2 hv3 hv11,
    makeFieldValue4_good _ _ _ _ hk9 (dfield_good _ _ (by norm_num) (by norm_num) (slice_shift2 _
        hv20)).1
      (dfield_good _ _ (by norm_num) (by norm_num) (slice_shift2 _ hv20)).2 hv12 hv4,
    makeFieldValue4_good _ _ _ _ hv5 (dfield_good _ _ (by norm_num) (by norm_num) (slice_2_4 _ _
        hv21)).1
      (dfield_good _ _ (by norm_num) (by norm_num) (slice_2_4 _ _ hv21)).2 hk10 hk28,
    makeFieldValue4_good _ _ _ _ hk11 (dfield_good _ _ (by norm_num) (by norm_num) (slice_4_2 _ _
        hv22)).1
      (dfield_good _ _ (by norm_num) (by norm_num) (slice_4_2 _ _ hv22)).2 hv6 hv13,
    makeFieldValue4_good _ _ _ _ hk12 (dfield_good _ _ (by norm_num) (by norm_num) (slice_low6 _)).1
      (dfield_good _ _ (by norm_num) (by norm_num) (slice_low6 _)).2 hv7 hv14,
    makeFieldValue4_good _ _ _ _ hk13 (by norm_num) (by norm_num) hv15 hv8,
    makeFieldValue4_good _ _ _ _ hk14 (dfield_good _ _ (by norm_num) (by norm_num) (slice_high4 _
        hk31)).1
      (dfield_good _ _ (by norm_num) (by norm_num) (slice_high4 _ hk31)).2 hv16 hv9,
    makeFieldValue4_good _ _ _ _ hk15 (dfield_good _ _ (by norm_num) (by norm_num) (slice_low4 _)).1
      (dfield_good _ _ (by norm_num) (by norm_num) (slice_low4 _)).2 hk30 hk29⟩
theorem genKeywords_eq (s : zucState32) (words : List Nat) :
    genKeywords s words = genKeywordCalls words.length s := by
  unfold genKeywords
  split
  · next h =>
    rw [h, List.length_eq_zero.1 h]
    rfl
  · rw [genKeywordsLoop_eq words.length 0 s words (by simp)]
    cases genKeywordCalls words.length s with
    | error e => rfl
    | ok q => rfl

theorem wellTyped_zeroState : wellTyped zeroState :=
  ⟨rfl, by decide, by decide, by decide⟩

/-! ## `newZUCState` -/

theorem newZUCState_16 (key iv : List Nat) (hk : key.length = 16) (hi : iv.length = 16) :
    newZUCState key iv = (loadKeyIV16 zeroState key iv >>= runInit) := by
  simp [newZUCState, hk, hi]

theorem newZUCState_32 (key iv : List Nat) (hk : key.length = 32) (hi : iv.length = 23) :
    newZUCState key iv = (loadKeyIV32 zeroState key iv zuc256_d0 >>= runInit) := by
  simp [newZUCState, hk, hi]

theorem newZUCState_badIV16 (key iv : List Nat) (hk : key.length = 16) (hi : iv.length ≠ 16) :
    newZUCState key iv = .error (.invalidIVSize iv.length 16) := by
  simp [newZUCState, hk, hi]

theorem newZUCState_badIV32 (key iv : List Nat) (hk : key.length = 32) (hi : iv.length ≠ 23) :
    newZUCState key iv = .error (.invalidIVSize iv.length 23) := by
  simp [newZUCState, hk, hi]

theorem newZUCState_badKey (key iv : List Nat) (h16 : key.length ≠ 16) (h32 : key.length ≠ 32) :
    newZUCState key iv = .error (.invalidKeySize key.length) := by
  simp [newZUCState, h16, h32]

/-- On a key and IV of valid lengths the key is loaded into a state `s0` and
`newZUCState` returns `runInit s0`; both are states of the Go type, with
nonzero field elements in all cells. -/
theorem newZUCState_ok (key iv : List Nat) (bk : isBytes key) (bi : isBytes iv)
    (hlen : (key.length = 16 ∧ iv.length = 16) ∨ (key.length = 32 ∧ iv.length = 23)) :
    ∃ s0 s, (key.length = 16 → loadKeyIV16 zeroState key iv = .ok s0) ∧
      (key.length = 32 → loadKeyIV32 zeroState key iv zuc256_d0 = .ok s0) ∧
      wellTyped s0 ∧ cellsField s0 ∧ cellsNonzero s0 ∧
      runInit s0 = .ok s ∧ newZUCState key iv = .ok s ∧
      wellTyped s ∧ cellsField s ∧ cellsNonzero s := by
  rcases hlen with ⟨hk, hi⟩ | ⟨hk, hi⟩
  · obtain ⟨s0, e0, w0, f0, z0⟩ := loadKeyIV16_ok key iv hk hi bk bi
    obtain ⟨s, e, w, f, z⟩ := runInit_inv s0 w0
    refine ⟨s0, s, fun _ => e0, fun h => ?_, w0, f0, z0, e, ?_, w, f f0, z z0⟩
    · omega
    · rw [newZUCState_16 key iv hk hi, e0, ok_bind, e]
  · obtain ⟨s0, e0, w0, f0, z0⟩ := loadKeyIV32_ok key iv hk hi bk bi
    obtain ⟨s, e, w, f, z⟩ := runInit_inv s0 w0
    refine ⟨s0, s, fun h => ?_, fun _ => e0, w0, f0, z0, e, ?_, w, f f0, z z0⟩
    · omega
    · rw [newZUCState_32 key iv hk hi, e0, ok_bind, e]

theorem initLoop_add (a b : Nat) (s : zucState32) :
    initLoop (a + b) s = (initLoop a s >>= initLoop b) := by
  induction a generalizing s with
  | zero => simp [initLoop, pure, Except.pure, bind, Except.bind]
  | succ a ih =>
    rw [Nat.add_right_comm, initLoop, initLoop]
    cases initRound s with
    | error e => rfl
    | ok s1 => rw [ok_bind, ok_bind, ih]

/-! ## Bit fields -/

/-- Masking with `0x7FFF8000` keeps bits 30..15 in place. -/
theorem and_mask_30_15 (x : Nat) : x &&& 0x7FFF8000 = (x / 2 ^ 15 % 2 ^ 16) * 2 ^ 15 := by
  have hm : (0x7FFF8000 : Nat) = 2 ^ 15 * (2 ^ 16 - 1) := by norm_num
  rw [hm, Nat.mul_comm (x / 2 ^ 15 % 2 ^ 16), ← Nat.shiftRight_eq_div_pow]
  apply Nat.eq_of_testBit_eq
  intro i
  simp only [Nat.testBit_and, Nat.testBit_mul_pow_two, Nat.testBit_two_pow_sub_one,
    Nat.testBit_mod_two_pow, Nat.testBit_shiftRight]
  by_cases h : 15 ≤ i
  · have e : 15 + (i - 15) = i := by omega
    simp [h, e, Bool.and_comm]
  · simp [h]

/-- The word `((hi & 0x7FFF8000) << 1) | (lo & 0xFFFF)`. -/
theorem word_high_low (hi lo : Nat) :
    (((hi &&& 0x7FFF8000) <<< 1) % 2 ^ 32) ||| (lo &&& 0xFFFF)
      = (hi / 2 ^ 15 % 2 ^ 16) * 2 ^ 16 + lo % 2 ^ 16 := by
  rw [and_mask_30_15, and_mask16, Nat.shiftLeft_eq]
  have h1 : hi / 2 ^ 15 % 2 ^ 16 < 2 ^ 16 := Nat.mod_lt _ (by norm_num)
  have h2 : lo % 2 ^ 16 < 2 ^ 16 := Nat.mod_lt _ (by norm_num)
  rw [Nat.mod_eq_of_lt (by omega), or_eq_add 16 _ _ (by omega) h2]
  omega

/-- The word `((lo & 0xFFFF) << 16) | (hi >> 15)` for a field element `hi`. -/
theorem word_low_high (lo hi : Nat) (h : hi ≤ 0x7FFFFFFF) :
    (((lo &&& 0xFFFF) <<< 16) % 2 ^ 32) ||| (hi >>> 15)
      = (lo % 2 ^ 16) * 2 ^ 16 + hi / 2 ^ 15 % 2 ^ 16 := by
  rw [and_mask16, Nat.shiftLeft_eq, Nat.shiftRight_eq_div_pow]
  have h2 : lo % 2 ^ 16 < 2 ^ 16 := Nat.mod_lt _ (by norm_num)
  have h3 : hi / 2 ^ 15 < 2 ^ 16 := by omega
  rw [Nat.mod_eq_of_lt (by omega), or_eq_add 16 _ _ (by omega) h3, Nat.mod_eq_of_lt h3]

/-! ## The fields of a loaded cell -/

theorem loadKeyIV16_cells_any (c0 c1 c2 c3 c4 c5 c6 c7 c8 c9 c10 c11 c12 c13 c14 c15 r1 r2
    k0 k1 k2 k3 k4 k5 k6 k7 k8 k9 k10 k11 k12 k13 k14 k15
    i0 i1 i2 i3 i4 i5 i6 i7 i8 i9 i10 i11 i12 i13 i14 i15 : Nat) :
    loadKeyIV16 ⟨[c0, c1, c2, c3, c4, c5, c6, c7, c8, c9, c10, c11, c12, c13, c14, c15], r1, r2⟩
      [k0, k1, k2, k3, k4, k5, k6, k7, k8, k9, k10, k11, k12, k13, k14, k15]
      [i0, i1, i2, i3, i4, i5, i6, i7, i8, i9, i10, i11, i12, i13, i14, i15]
      = .ok ⟨[makeFieldValue3 k0 17623 i0,
        makeFieldValue3 k1 9916 i1,
        makeFieldValue3 k2 25195 i2,
        makeFieldValue3 k3 4958 i3,
        makeFieldValue3 k4 22409 i4,
        makeFieldValue3 k5 13794 i5,
        makeFieldValue3 k6 28981 i6,
        makeFieldValue3 k7 2479 i7,
        makeFieldValue3 k8 19832 i8,
        makeFieldValue3 k9 12051 i9,
        makeFieldValue3 k10 27588 i10,
        makeFieldValue3 k11 6897 i11,
        makeFieldValue3 k12 24102 i12,
        makeFieldValue3 k13 15437 i13,
        makeFieldValue3 k14 30874 i14,
        makeFieldValue3 k15 18348 i15], r1, r2⟩ := by
  simp [loadKeyIV16, loadKeyIV16Loop, index_cons_zero, index_cons_succ, assign, kd, ok_bind]

/-- The three fields of `makeFieldValue3` can be read back from the value. -/
theorem makeFieldValue3_fields (k d v : Nat) (hk : k < 256) (hd : d < 2 ^ 15) (hv : v < 256) :
    makeFieldValue3 k d v = k * 2 ^ 23 + d * 2 ^ 8 + v ∧ makeFieldValue3 k d v < 2 ^ 31 ∧
      makeFieldValue3 k d v >>> 23 = k ∧ (makeFieldValue3 k d v >>> 8) &&& 0x7FFF = d ∧
      makeFieldValue3 k d v &&& 0xFF = v := by
  have hm : ∀ x : Nat, x &&& 0x7FFF = x % 2 ^ 15 := fun x => Nat.and_pow_two_sub_one_eq_mod x 15
  rw [makeFieldValue3_eq k d v hk hd hv, hm, and_mask8]
  simp only [Nat.shiftRight_eq_div_pow]
  refine ⟨trivial, ?_, ?_, ?_, ?_⟩ <;> omega

theorem or_eq_add_right (k a b : Nat) (ha : a < 2 ^ k) (hb : b % 2 ^ k = 0) :
    a ||| b = b + a := by
  rw [Nat.or_comm, or_eq_add k b a hb ha]

/-- The big-endian word of four bytes. -/
theorem bigEndian_bytes (a0 a1 a2 a3 : Nat) (h0 : a0 < 256) (h1 : a1 < 256) (h2 : a2 < 256)
    (h3 : a3 < 256) :
    a3 ||| ((a2 <<< 8) % 2 ^ 32) ||| ((a1 <<< 16) % 2 ^ 32) ||| ((a0 <<< 24) % 2 ^ 32)
      = a0 * 2 ^ 24 + a1 * 2 ^ 16 + a2 * 2 ^ 8 + a3 := by
  simp only [Nat.shiftLeft_eq]
  rw [Nat.mod_eq_of_lt (by omega), Nat.mod_eq_of_lt (by omega), Nat.mod_eq_of_lt (by omega),
    or_eq_add_right 8 a3 (a2 * 2 ^ 8) (by omega) (by omega),
    or_eq_add_right 16 (a2 * 2 ^ 8 + a3) (a1 * 2 ^ 16) (by omega) (by omega),
    or_eq_add_right 24 (a1 * 2 ^ 16 + (a2 * 2 ^ 8 + a3)) (a0 * 2 ^ 24) (by omega) (by omega)]
  omega

/-- The four table lookups on a 32-bit word succeed with bytes, and
`sboxWord` is their big-endian word. -/
theorem sboxWord_bytes (u : Nat) (hu : u < 2 ^ 32) :
    ∃ a0 a1 a2 a3, index sbox0 (u >>> 24) = .ok a0 ∧ index sbox1 ((u >>> 16) &&& 0xFF) = .ok a1 ∧
      index sbox0 ((u >>> 8) &&& 0xFF) = .ok a2 ∧ index sbox1 (u &&& 0xFF) = .ok a3 ∧
      a0 < 256 ∧ a1 < 256 ∧ a2 < 256 ∧ a3 < 256 ∧
      sboxWord u = .ok (a0 * 2 ^ 24 + a1 * 2 ^ 16 + a2 * 2 ^ 8 + a3) := by
  obtain ⟨a0, h0, b0⟩ := index_sbox0 (u >>> 24) (shiftRight_lt u 24 8 hu)
  obtain ⟨a1, h1, b1⟩ := index_sbox1 ((u >>> 16) &&& 0xFF)
    (by rw [and_mask8]; exact Nat.mod_lt _ (by norm_num))
  obtain ⟨a2, h2, b2⟩ := index_sbox0 ((u >>> 8) &&& 0xFF)
    (by rw [and_mask8]; exact Nat.mod_lt _ (by norm_num))
  obtain ⟨a3, h3, b3⟩ := index_sbox1 (u &&& 0xFF)
    (by rw [and_mask8]; exact Nat.mod_lt _ (by norm_num))
  refine ⟨a0, a1, a2, a3, h0, h1, h2, h3, b0, b1, b2, b3, ?_⟩
  unfold sboxWord
  rw [h0, ok_bind, h1, ok_bind, h2, ok_bind, h3, ok_bind, ← bigEndian_bytes a0 a1 a2 a3 b0 b1 b2 b3]
  rfl

/-- The arguments `f32` passes to `l1` and `l2` are 32-bit words. -/
theorem f32_args_lt (r1 r2 x1 x2 : Nat) (h2 : r2 < 2 ^ 32) (hx2 : x2 < 2 ^ 32) :
    ((((r1 + x1) % 2 ^ 32) <<< 16) % 2 ^ 32) ||| ((r2 ^^^ x2) >>> 16) < 2 ^ 32 ∧
    ((((r2 ^^^ x2) <<< 16) % 2 ^ 32) ||| (((r1 + x1) % 2 ^ 32) >>> 16)) < 2 ^ 32 := by
  have hw2 : r2 ^^^ x2 < 2 ^ 32 := Nat.xor_lt_two_pow h2 hx2
  have hw1 : (r1 + x1) % 2 ^ 32 < 2 ^ 32 := Nat.mod_lt _ (by norm_num)
  exact ⟨Nat.or_lt_two_pow (Nat.mod_lt _ (by norm_num))
      ((shiftRight_lt _ 16 16 hw2).trans (by norm_num)),
    Nat.or_lt_two_pow (Nat.mod_lt _ (by norm_num))
      ((shiftRight_lt _ 16 16 hw1).trans (by norm_num))⟩

/-- The whole effect of `f32`: both registers are `sboxWord` of the mixed
words. -/
theorem f32_sboxWord (s : zucState32) (x0 x1 x2 : Nat) (h2 : s.r2 < 2 ^ 32)
    (hx2 : x2 < 2 ^ 32) :
    ∃ a b,
      sboxWord (l1 (((((s.r1 + x1) % 2 ^ 32) <<< 16) % 2 ^ 32) ||| ((s.r2 ^^^ x2) >>> 16)))
        = .ok a ∧
      sboxWord (l2 ((((s.r2 ^^^ x2) <<< 16) % 2 ^ 32) ||| (((s.r1 + x1) % 2 ^ 32) >>> 16)))
        = .ok b ∧
      f32 s x0 x1 x2 = .ok (((s.r1 ^^^ x0) + s.r2) % 2 ^ 32, ⟨s.lfsr, a, b⟩) := by
  obtain ⟨hu, hv⟩ := f32_args_lt s.r1 s.r2 x1 x2 h2 hx2
  obtain ⟨a0, a1, a2, a3, ha0, ha1, ha2, ha3, -, -, -, -, ea⟩ := sboxWord_bytes _ (l1_lt _ hu)
  obtain ⟨b0, b1, b2, b3, hb0, hb1, hb2, hb3, -, -, -, -, eb⟩ := sboxWord_bytes _ (l2_lt _ hv)
  refine ⟨_, _, ea, eb, ?_⟩
  have ea' := ea
  have eb' := eb
  unfold sboxWord at ea' eb'
  rw [ha0, ok_bind, ha1, ok_bind, ha2, ok_bind, ha3, ok_bind] at ea'
  rw [hb0, ok_bind, hb1, ok_bind, hb2, ok_bind, hb3, ok_bind] at eb'
  simp only [f32, ha0, ha1, ha2, ha3, hb0, hb1, hb2, hb3, ea', eb', ok_bind]
  rfl

/-- The word `(hi << 16) | (lo >> 16)` holds the lower half of `hi` above the
upper half of `lo`. -/
theorem word_swap_halves (hi lo : Nat) (h : lo < 2 ^ 32) :
    ((hi <<< 16) % 2 ^ 32) ||| (lo >>> 16) = (hi % 2 ^ 16) * 2 ^ 16 + lo / 2 ^ 16 := by
  rw [Nat.shiftLeft_eq, Nat.shiftRight_eq_div_pow]
  have e : (2 : Nat) ^ 32 = 2 ^ 16 * 2 ^ 16 := by norm_num
  have h1 : hi * 2 ^ 16 % 2 ^ 32 = (hi % 2 ^ 16) * 2 ^ 16 := by
    rw [e, Nat.mul_mod_mul_right]
  rw [h1, or_eq_add 16 _ _ (by simp) (by omega)]

/-! ## `rotateLeft31` bit by bit -/

theorem rotateLeft31_lt (x k : Nat) : rotateLeft31 x k < 2 ^ 31 := by
  have := rotateLeft31_le x k
  omega

/-- On a field element, bit `j` moves to bit `(j + k) mod 31`. -/
theorem rotateLeft31_testBit (x k j : Nat) (hx : x < 2 ^ 31) (hk : k ≤ 31) (hj : j < 31) :
    (rotateLeft31 x k).testBit ((j + k) % 31) = x.testBit j := by
  have hhi : x / 2 ^ (31 - k) < 2 ^ k := by
    apply Nat.div_lt_of_lt_mul
    rw [← pow_add]
    have e : 31 - k + k = 31 := by omega
    rw [e]; exact hx
  rw [rotateLeft31_val x k hk hx, Nat.mul_comm, Nat.testBit_mul_pow_two_add _ hhi]
  by_cases h : j < 31 - k
  · have e1 : (j + k) % 31 = j + k := Nat.mod_eq_of_lt (by omega)
    have e2 : ¬ (j + k < k) := by omega
    have e3 : j + k - k = j := by omega
    rw [e1, if_neg e2, e3, Nat.testBit_mod_two_pow]
    simp [h]
  · have e1 : (j + k) % 31 = j + k - 31 := by omega
    have e2 : j + k - 31 < k := by omega
    have e3 : 31 - k + (j + k - 31) = j := by omega
    rw [e1, if_pos e2, ← Nat.shiftRight_eq_div_pow, Nat.testBit_shiftRight, e3]

theorem add31_eq_zero (x y : Nat) (hx : x ≤ 0x7FFFFFFF) (hy : y ≤ 0x7FFFFFFF)
    (h : add31 x y = 0) : x = 0 ∧ y = 0 := by
  rw [add31_cases x y hx hy] at h
  split at h <;> omega

theorem add31_ne_zero (x y : Nat) (hx : x ≤ 0x7FFFFFFF) (hy : y ≤ 0x7FFFFFFF) (h : x ≠ 0) :
    add31 x y ≠ 0 :=
  fun h0 => h (add31_eq_zero x y hx hy h0).1

theorem feedback_eq_sum (c0 c4 c10 c13 c15 w : Nat) :
    feedback c0 c4 c10 c13 c15 w
      = if feedbackSum c0 c4 c10 c13 c15 w = 0 then 0x7FFFFFFF
        else feedbackSum c0 c4 c10 c13 c15 w := rfl

theorem feedbackSum_ne_zero (c0 c4 c10 c13 c15 w : Nat) (h0 : c0 ≤ 0x7FFFFFFF) (hn : c0 ≠ 0)
    (hw : w ≤ 0x7FFFFFFF) : feedbackSum c0 c4 c10 c13 c15 w ≠ 0 := by
  have b1 := add31_le _ _ h0 (rotateLeft31_le c0 8)
  have b2 := add31_le _ _ b1 (rotateLeft31_le c4 20)
  have b3 := add31_le _ _ b2 (rotateLeft31_le c10 21)
  have b4 := add31_le _ _ b3 (rotateLeft31_le c13 17)
  have b5 := add31_le _ _ b4 (rotateLeft31_le c15 15)
  have n1 := add31_ne_zero _ _ h0 (rotateLeft31_le c0 8) hn
  have n2 := add31_ne_zero _ _ b1 (rotateLeft31_le c4 20) n1
  have n3 := add31_ne_zero _ _ b2 (rotateLeft31_le c10 21) n2
  have n4 := add31_ne_zero _ _ b3 (rotateLeft31_le c13 17) n3
  have n5 := add31_ne_zero _ _ b4 (rotateLeft31_le c15 15) n4
  exact add31_ne_zero _ _ b5 hw n5

theorem branchNotTaken_of_cells (s : zucState32) (hlen : s.lfsr.length = 16)
    (hf : cellsField s) (hz : cellsNonzero s) : branchNotTaken s := by
  obtain ⟨lfsr, r1, r2⟩ := s
  obtain ⟨c0, c1, c2, c3, c4, c5, c6, c7, c8, c9, c10, c11, c12, c13, c14, c15, rfl⟩ :=
    cells16 lfsr hlen
  intro q1 q2 w hw
  have hn := feedbackSum_ne_zero c0 c4 c10 c13 c15 w (hf c0 (List.mem_cons_self _ _))
    (hz c0 (List.mem_cons_self _ _)) hw
  refine ⟨hn, ?_⟩
  have e := enterInitMode_cells c0 c1 c2 c3 c4 c5 c6 c7 c8 c9 c10 c11 c12 c13 c14 c15 q1 q2 w
  rw [feedback_eq_sum, if_neg hn] at e
  exact e

/-! ## The substitution tables are permutations -/

set_option maxRecDepth 1000000 in
theorem sbox0_sorted : List.insertionSort (· ≤ ·) sbox0 = List.range 256 := by decide

set_option maxRecDepth 1000000 in
theorem sbox1_sorted : List.insertionSort (· ≤ ·) sbox1 = List.range 256 := by decide

/-- What a table that is a rearrangement of `0..255` satisfies: every byte
value occurs exactly once, distinct indices hold distinct bytes, and every
byte value is found at some index. -/
theorem table_of_perm (t : List Nat) (hp : t.Perm (List.range 256)) :
    (∀ b < 256, t.count b = 1) ∧
    (∀ i j, i < 256 → j < 256 → index t i = index t j → i = j) ∧
    (∀ b < 256, ∃ i < 256, index t i = .ok b) := by
  have hn : t.Nodup := hp.nodup_iff.2 (List.nodup_range 256)
  have hl : t.length = 256 := by rw [hp.length_eq, List.length_range]
  have hm : ∀ b < 256, b ∈ t := fun b hb => hp.mem_iff.2 (List.mem_range.2 hb)
  refine ⟨fun b hb => List.count_eq_one_of_mem hn (hm b hb), fun i j hi hj h => ?_,
    fun b hb => ?_⟩
  · have hi' : i < t.length := by omega
    have hj' : j < t.length := by omega
    rw [index_ok t i hi', index_ok t j hj'] at h
    exact (hn.getElem_inj_iff).1 (Except.ok.inj h)
  · obtain ⟨i, hi, e⟩ := List.getElem_of_mem (hm b hb)
    exact ⟨i, by omega, by rw [index_ok t i hi, e]⟩

/-! ## The layout of the cells of `loadKeyIV32` -/

theorem loadKeyIV32_cells_any (c0 c1 c2 c3 c4 c5 c6 c7 c8 c9 c10 c11 c12 c13 c14 c15 r1 r2
    k0 k1 k2 k3 k4 k5 k6 k7 k8 k9 k10 k11 k12 k13 k14 k15 k16 k17 k18 k19 k20 k21 k22 k23 k24 k25 k26 k27 k28 k29 k30 k31
    v0 v1 v2 v3 v4 v5 v6 v7 v8 v9 v10 v11 v12 v13 v14 v15 v16 v17 v18 v19 v20 v21 v22 : Nat) :
    loadKeyIV32 ⟨[c0, c1, c2, c3, c4, c5, c6, c7, c8, c9, c10, c11, c12, c13, c14, c15], r1, r2⟩
      [k0, k1, k2, k3, k4, k5, k6, k7, k8, k9, k10, k11, k12, k13, k14, k15, k16, k17, k18, k19, k20, k21, k22, k23, k24, k25, k26, k27, k28, k29, k30, k31]
      [v0, v1, v2, v3, v4, v5, v6, v7, v8, v9, v10, v11, v12, v13, v14, v15, v16, v17, v18, v19, v20, v21, v22] zuc256_d0
      = .ok ⟨[makeFieldValue4 k0 0x22 k21 k16,
        makeFieldValue4 k1 0x2f k22 k17,
        makeFieldValue4 k2 0x24 k23 k18,
        makeFieldValue4 k3 0x2a k24 k19,
        makeFieldValue4 k4 0x6d k25 k20,
        makeFieldValue4 v0 (0x40 ||| (v17 >>> 2)) k5 k26,
        makeFieldValue4 v1 (0x40 ||| ((((v17 &&& 0x3) <<< 4) % 256) ||| (v18 >>> 4))) k6 k27,
        makeFieldValue4 v10 (0x40 ||| ((((v18 &&& 0xf) <<< 2) % 256) ||| (v19 >>> 6))) k7 v2,
        makeFieldValue4 k8 (0x40 ||| (v19 &&& 0x3f)) v3 v11,
        makeFieldValue4 k9 (0x40 ||| (v20 >>> 2)) v12 v4,
        makeFieldValue4 v5 (0x40 ||| ((((v20 &&& 0x3) <<< 4) % 256) ||| (v21 >>> 4))) k10 k28,
        makeFieldValue4 k11 (0x40 ||| ((((v21 &&& 0xf) <<< 2) % 256) ||| (v22 >>> 6))) v6 v13,
        makeFieldValue4 k12 (0x40 ||| (v22 &&& 0x3f)) v7 v14,
        makeFieldValue4 k13 0x52 v15 v8,
        makeFieldValue4 k14 (0x10 ||| (k31 >>> 4)) v16 v9,
        makeFieldValue4 k15 (0x30 ||| (k31 &&& 0x0f)) k30 k29], r1, r2⟩ := by
  simp [loadKeyIV32, index_cons_zero, index_cons_succ, assign, zuc256_d0, ok_bind]

/-- A constant with its low six bits clear, or-ed with a six-bit slice, is
their sum. -/
theorem or_small (c x : Nat) (hc : c % 2 ^ 6 = 0) (hx : x < 2 ^ 6) : c ||| x = c + x :=
  or_eq_add 6 c x hc hx

theorem slice_shift2_val (v : Nat) : v >>> 2 = v / 4 := Nat.shiftRight_eq_div_pow v 2

theorem slice_low6_val (v : Nat) : v &&& 0x3f = v % 64 := Nat.and_pow_two_sub_one_eq_mod v 6

theorem slice_high4_val (v : Nat) : v >>> 4 = v / 16 := Nat.shiftRight_eq_div_pow v 4

theorem slice_low4_val (v : Nat) : v &&& 0x0f = v % 16 := Nat.and_pow_two_sub_one_eq_mod v 4

theorem slice_2_4_val (v w : Nat) (h : w < 256) :
    ((((v &&& 0x3) <<< 4) % 256) ||| (w >>> 4)) = v % 4 * 16 + w / 16 := by
  have e : v &&& 0x3 = v % 4 := Nat.and_pow_two_sub_one_eq_mod v 2
  rw [e, Nat.shiftLeft_eq, Nat.shiftRight_eq_div_pow, Nat.mod_eq_of_lt (by omega),
    or_eq_add 4 _ _ (by omega) (by omega)]

theorem slice_4_2_val (v w : Nat) (h : w < 256) :
    ((((v &&& 0xf) <<< 2) % 256) ||| (w >>> 6)) = v % 16 * 4 + w / 64 := by
  have e : v &&& 0xf = v % 16 := Nat.and_pow_two_sub_one_eq_mod v 4
  rw [e, Nat.shiftLeft_eq, Nat.shiftRight_eq_div_pow, Nat.mod_eq_of_lt (by omega),
    or_eq_add 2 _ _ (by omega) (by omega)]

theorem loadKeyIV32_sums (c0 c1 c2 c3 c4 c5 c6 c7 c8 c9 c10 c11 c12 c13 c14 c15 r1 r2
    k0 k1 k2 k3 k4 k5 k6 k7 k8 k9 k10 k11 k12 k13 k14 k15 k16 k17 k18 k19 k20 k21 k22 k23 k24 k25 k26 k27 k28 k29 k30 k31
    v0 v1 v2 v3 v4 v5 v6 v7 v8 v9 v10 v11 v12 v13 v14 v15 v16 v17 v18 v19 v20 v21 v22 : Nat)
    (bk : isBytes [k0, k1, k2, k3, k4, k5, k6, k7, k8, k9, k10, k11, k12, k13, k14, k15, k16, k17, k18, k19, k20, k21, k22, k23, k24, k25, k26, k27, k28, k29, k30, k31])
    (bv : isBytes [v0, v1, v2, v3, v4, v5, v6, v7, v8, v9, v10, v11, v12, v13, v14, v15, v16, v17, v18, v19, v20, v21, v22]) :
    loadKeyIV32 ⟨[c0, c1, c2, c3, c4, c5, c6, c7, c8, c9, c10, c11, c12, c13, c14, c15], r1, r2⟩
      [k0, k1, k2, k3, k4, k5, k6, k7, k8, k9, k10, k11, k12, k13, k14, k15, k16, k17, k18, k19, k20, k21, k22, k23, k24, k25, k26, k27, k28, k29, k30, k31]
      [v0, v1, v2, v3, v4, v5, v6, v7, v8, v9, v10, v11, v12, v13, v14, v15, v16, v17, v18, v19, v20, v21, v22] zuc256_d0
      = .ok ⟨[k0 * 2 ^ 23 + 34 * 2 ^ 16 + k21 * 2 ^ 8 + k16,
        k1 * 2 ^ 23 + 47 * 2 ^ 16 + k22 * 2 ^ 8 + k17,
        k2 * 2 ^ 23 + 36 * 2 ^ 16 + k23 * 2 ^ 8 + k18,
        k3 * 2 ^ 23 + 42 * 2 ^ 16 + k24 * 2 ^ 8 + k19,
        k4 * 2 ^ 23 + 109 * 2 ^ 16 + k25 * 2 ^ 8 + k20,
        v0 * 2 ^ 23 + (64 + v17 / 4) * 2 ^ 16 + k5 * 2 ^ 8 + k26,
        v1 * 2 ^ 23 + (64 + (v17 % 4 * 16 + v18 / 16)) * 2 ^ 16 + k6 * 2 ^ 8 + k27,
        v10 * 2 ^ 23 + (64 + (v18 % 16 * 4 + v19 / 64)) * 2 ^ 16 + k7 * 2 ^ 8 + v2,
        k8 * 2 ^ 23 + (64 + v19 % 64) * 2 ^ 16 + v3 * 2 ^ 8 + v11,
        k9 * 2 ^ 23 + (64 + v20 / 4) * 2 ^ 16 + v12 * 2 ^ 8 + v4,
        v5 * 2 ^ 23 + (64 + (v20 % 4 * 16 + v21 / 16)) * 2 ^ 16 + k10 * 2 ^ 8 + k28,
        k11 * 2 ^ 23 + (64 + (v21 % 16 * 4 + v22 / 64)) * 2 ^ 16 + v6 * 2 ^ 8 + v13,
        k12 * 2 ^ 23 + (64 + v22 % 64) * 2 ^ 16 + v7 * 2 ^ 8 + v14,
        k13 * 2 ^ 23 + 82 * 2 ^ 16 + v15 * 2 ^ 8 + v8,
        k14 * 2 ^ 23 + (16 + k31 / 16) * 2 ^ 16 + v16 * 2 ^ 8 + v9,
        k15 * 2 ^ 23 + (48 + k31 % 16) * 2 ^ 16 + k30 * 2 ^ 8 + k29], r1, r2⟩ := by
  simp only [isBytes, List.mem_cons, List.mem_singleton, forall_eq_or_imp, forall_eq,
    List.not_mem_nil, false_implies, implies_true, and_true] at bk bv
  obtain ⟨hk0, hk1, hk2, hk3, hk4, hk5, hk6, hk7, hk8, hk9, hk10, hk11, hk12, hk13, hk14, hk15, hk16, hk17, hk18, hk19, hk20, hk21, hk22, hk23, hk24, hk25, hk26, hk27, hk28, hk29, hk30, hk31⟩ := bk
  obtain ⟨hv0, hv1, hv2, hv3, hv4, hv5, hv6, hv7, hv8, hv9, hv10, hv11, hv12, hv13, hv14, hv15, hv16, hv17, hv18, hv19, hv20, hv21, hv22⟩ := bv
  have h0 : makeFieldValue4 k0 0x22 k21 k16 = k0 * 2 ^ 23 + 34 * 2 ^ 16 + k21 * 2 ^ 8 + k16 :=
    makeFieldValue4_eq _ _ _ _ hk0 (by norm_num) hk21 hk16
  have h1 : makeFieldValue4 k1 0x2f k22 k17 = k1 * 2 ^ 23 + 47 * 2 ^ 16 + k22 * 2 ^ 8 + k17 :=
    makeFieldValue4_eq _ _ _ _ hk1 (by norm_num) hk22 hk17
  have h2 : makeFieldValue4 k2 0x24 k23 k18 = k2 * 2 ^ 23 + 36 * 2 ^ 16 + k23 * 2 ^ 8 + k18 :=
    makeFieldValue4_eq _ _ _ _ hk2 (by norm_num) hk23 hk18
  have h3 : makeFieldValue4 k3 0x2a k24 k19 = k3 * 2 ^ 23 + 42 * 2 ^ 16 + k24 * 2 ^ 8 + k19 :=
    makeFieldValue4_eq _ _ _ _ hk3 (by norm_num) hk24 hk19
  have h4 : makeFieldValue4 k4 0x6d k25 k20 = k4 * 2 ^ 23 + 109 * 2 ^ 16 + k25 * 2 ^ 8 + k20 :=
    makeFieldValue4_eq _ _ _ _ hk4 (by norm_num) hk25 hk20
  have h5 : makeFieldValue4 v0 (0x40 ||| (v17 >>> 2)) k5 k26 = v0 * 2 ^ 23 + (64 + v17 / 4) * 2 ^ 16 + k5 * 2 ^ 8 + k26 := by
    rw [slice_shift2_val v17, or_small 64 _ (by norm_num) (by omega)]
    exact makeFieldValue4_eq _ _ _ _ hv0 (by omega) hk5 hk26
  have h6 : makeFieldValue4 v1 (0x40 ||| ((((v17 &&& 0x3) <<< 4) % 256) ||| (v18 >>> 4))) k6 k27 = v1 * 2 ^ 23 + (64 + (v17 % 4 * 16 + v18 / 16)) * 2 ^ 16 + k6 * 2 ^ 8 + k27 := by
    rw [slice_2_4_val v17 v18 hv18, or_small 64 _ (by norm_num) (by omega)]
    exact makeFieldValue4_eq _ _ _ _ hv1 (by omega) hk6 hk27
  have h7 : makeFieldValue4 v10 (0x40 ||| ((((v18 &&& 0xf) <<< 2) % 256) ||| (v19 >>> 6))) k7 v2 = v10 * 2 ^ 23 + (64 + (v18 % 16 * 4 + v19 / 64)) * 2 ^ 16 + k7 * 2 ^ 8 + v2 := by
    rw [slice_4_2_val v18 v19 hv19, or_small 64 _ (by norm_num) (by omega)]
    exact makeFieldValue4_eq _ _ _ _ hv10 (by omega) hk7 hv2
  have h8 : makeFieldValue4 k8 (0x40 ||| (v19 &&& 0x3f)) v3 v11 = k8 * 2 ^ 23 + (64 + v19 % 64) * 2 ^ 16 + v3 * 2 ^ 8 + v11 := by
    rw [slice_low6_val v19, or_small 64 _ (by norm_num) (by omega)]
    exact makeFieldValue4_eq _ _ _ _ hk8 (by omega) hv3 hv11
  have h9 : makeFieldValue4 k9 (0x40 ||| (v20 >>> 2)) v12 v4 = k9 * 2 ^ 23 + (64 + v20 / 4) * 2 ^ 16 + v12 * 2 ^ 8 + v4 := by
    rw [slice_shift2_val v20, or_small 64 _ (by norm_num) (by omega)]
    exact makeFieldValue4_eq _ _ _ _ hk9 (by omega) hv12 hv4
  have h10 : makeFieldValue4 v5 (0x40 ||| ((((v20 &&& 0x3) <<< 4) % 256) ||| (v21 >>> 4))) k10 k28 = v5 * 2 ^ 23 + (64 + (v20 % 4 * 16 + v21 / 16)) * 2 ^ 16 + k10 * 2 ^ 8 + k28 := by
    rw [slice_2_4_val v20 v21 hv21, or_small 64 _ (by norm_num) (by omega)]
    exact makeFieldValue4_eq _ _ _ _ hv5 (by omega) hk10 hk28
  have h11 : makeFieldValue4 k11 (0x40 ||| ((((v21 &&& 0xf) <<< 2) % 256) ||| (v22 >>> 6))) v6 v13 = k11 * 2 ^ 23 + (64 + (v21 % 16 * 4 + v22 / 64)) * 2 ^ 16 + v6 * 2 ^ 8 + v13 := by
    rw [slice_4_2_val v21 v22 hv22, or_small 64 _ (by norm_num) (by omega)]
    exact makeFieldValue4_eq _ _ _ _ hk11 (by omega) hv6 hv13
  have h12 : makeFieldValue4 k12 (0x40 ||| (v22 &&& 0x3f)) v7 v14 = k12 * 2 ^ 23 + (64 + v22 % 64) * 2 ^ 16 + v7 * 2 ^ 8 + v14 := by
    rw [slice_low6_val v22, or_small 64 _ (by norm_num) (by omega)]
    exact makeFieldValue4_eq _ _ _ _ hk12 (by omega) hv7 hv14
  have h13 : makeFieldValue4 k13 0x52 v15 v8 = k13 * 2 ^ 23 + 82 * 2 ^ 16 + v15 * 2 ^ 8 + v8 :=
    makeFieldValue4_eq _ _ _ _ hk13 (by norm_num) hv15 hv8
  have h14 : makeFieldValue4 k14 (0x10 ||| (k31 >>> 4)) v16 v9 = k14 * 2 ^ 23 + (16 + k31 / 16) * 2 ^ 16 + v16 * 2 ^ 8 + v9 := by
    rw [slice_high4_val k31, or_eq_add 4 16 _ (by norm_num) (by omega)]
    exact makeFieldValue4_eq _ _ _ _ hk14 (by omega) hv16 hv9
  have h15 : makeFieldValue4 k15 (0x30 ||| (k31 &&& 0x0f)) k30 k29 = k15 * 2 ^ 23 + (48 + k31 % 16) * 2 ^ 16 + k30 * 2 ^ 8 + k29 := by
    rw [slice_low4_val k31, or_eq_add 4 48 _ (by norm_num) (by omega)]
    exact makeFieldValue4_eq _ _ _ _ hk15 (by omega) hk30 hk29
  rw [loadKeyIV32_cells_any, h0, h1, h2, h3, h4, h5, h6, h7, h8, h9, h10, h11, h12, h13, h14, h15]

theorem loadedCells32_cons (k0 k1 k2 k3 k4 k5 k6 k7 k8 k9 k10 k11 k12 k13 k14 k15 k16 k17 k18 k19 k20 k21 k22 k23 k24 k25 k26 k27 k28 k29 k30 k31
    v0 v1 v2 v3 v4 v5 v6 v7 v8 v9 v10 v11 v12 v13 v14 v15 v16 v17 v18 v19 v20 v21 v22 : Nat) :
    loadedCells32 [k0, k1, k2, k3, k4, k5, k6, k7, k8, k9, k10, k11, k12, k13, k14, k15, k16, k17, k18, k19, k20, k21, k22, k23, k24, k25, k26, k27, k28, k29, k30, k31]
      [v0, v1, v2, v3, v4, v5, v6, v7, v8, v9, v10, v11, v12, v13, v14, v15, v16, v17, v18, v19, v20, v21, v22]
      = [k0 * 2 ^ 23 + 34 * 2 ^ 16 + k21 * 2 ^ 8 + k16,
        k1 * 2 ^ 23 + 47 * 2 ^ 16 + k22 * 2 ^ 8 + k17,
        k2 * 2 ^ 23 + 36 * 2 ^ 16 + k23 * 2 ^ 8 + k18,
        k3 * 2 ^ 23 + 42 * 2 ^ 16 + k24 * 2 ^ 8 + k19,
        k4 * 2 ^ 23 + 109 * 2 ^ 16 + k25 * 2 ^ 8 + k20,
        v0 * 2 ^ 23 + (64 + v17 / 4) * 2 ^ 16 + k5 * 2 ^ 8 + k26,
        v1 * 2 ^ 23 + (64 + (v17 % 4 * 16 + v18 / 16)) * 2 ^ 16 + k6 * 2 ^ 8 + k27,
        v10 * 2 ^ 23 + (64 + (v18 % 16 * 4 + v19 / 64)) * 2 ^ 16 + k7 * 2 ^ 8 + v2,
        k8 * 2 ^ 23 + (64 + v19 % 64) * 2 ^ 16 + v3 * 2 ^ 8 + v11,
        k9 * 2 ^ 23 + (64 + v20 / 4) * 2 ^ 16 + v12 * 2 ^ 8 + v4,
        v5 * 2 ^ 23 + (64 + (v20 % 4 * 16 + v21 / 16)) * 2 ^ 16 + k10 * 2 ^ 8 + k28,
        k11 * 2 ^ 23 + (64 + (v21 % 16 * 4 + v22 / 64)) * 2 ^ 16 + v6 * 2 ^ 8 + v13,
        k12 * 2 ^ 23 + (64 + v22 % 64) * 2 ^ 16 + v7 * 2 ^ 8 + v14,
        k13 * 2 ^ 23 + 82 * 2 ^ 16 + v15 * 2 ^ 8 + v8,
        k14 * 2 ^ 23 + (16 + k31 / 16) * 2 ^ 16 + v16 * 2 ^ 8 + v9,
        k15 * 2 ^ 23 + (48 + k31 % 16) * 2 ^ 16 + k30 * 2 ^ 8 + k29] := by
  simp [loadedCells32]

theorem fields4_inj (a b c d a' b' c' d' : Nat) (hb : b < 128) (hc : c < 256)
    (hd : d < 256) (hb' : b' < 128) (hc' : c' < 256) (hd' : d' < 256)
    (e : a * 2 ^ 23 + b * 2 ^ 16 + c * 2 ^ 8 + d = a' * 2 ^ 23 + b' * 2 ^ 16 + c' * 2 ^ 8 + d') :
    a = a' ∧ b = b' ∧ c = c' ∧ d = d' := by
  omega

theorem bfield_shift2 (v : Nat) (h : v < 256) : 64 + v / 4 < 128 := by omega

theorem bfield_2_4 (v w : Nat) (h : w < 256) : 64 + (v % 4 * 16 + w / 16) < 128 := by omega

theorem bfield_4_2 (v w : Nat) (h : w < 256) : 64 + (v % 16 * 4 + w / 64) < 128 := by omega

theorem bfield_low6 (v : Nat) : 64 + v % 64 < 128 := by omega

theorem bfield_high4 (v : Nat) (h : v < 256) : 16 + v / 16 < 128 := by omega

theorem bfield_low4 (v : Nat) : 48 + v % 16 < 128 := by omega

/-- Three bytes are determined by their four six-bit slices. -/
theorem slices_inj (a b c a' b' c' : Nat) (hb : b < 256) (hc : c < 256)
    (hb' : b' < 256) (hc' : c' < 256)
    (h1 : 64 + a / 4 = 64 + a' / 4)
    (h2 : 64 + (a % 4 * 16 + b / 16) = 64 + (a' % 4 * 16 + b' / 16))
    (h3 : 64 + (b % 16 * 4 + c / 64) = 64 + (b' % 16 * 4 + c' / 64))
    (h4 : 64 + c % 64 = 64 + c' % 64) : a = a' ∧ b = b' ∧ c = c' := by
  omega

theorem halves_inj (k k' : Nat) (h1 : 16 + k / 16 = 16 + k' / 16)
    (h2 : 48 + k % 16 = 48 + k' % 16) : k = k' := by
  omega

/-! ## 32-bit rotations and the linear mixers -/

theorem testBit_of_lt32 (x j : Nat) (hx : x < 2 ^ 32) (hj : 32 ≤ j) : x.testBit j = false :=
  Nat.testBit_lt_two_pow (lt_of_lt_of_le hx (Nat.pow_le_pow_right (by norm_num) hj))

/-- Bit `i` of a rotated 32-bit word is bit `i - k` (modulo 32) of the word. -/
theorem rotateLeft32_testBit (x k i : Nat) (hx : x < 2 ^ 32) :
    (rotateLeft32 x k).testBit i = (decide (i < 32) && x.testBit ((i + 32 - k % 32) % 32)) := by
  unfold rotateLeft32
  dsimp only
  have hs : k % 32 < 32 := Nat.mod_lt _ (by norm_num)
  generalize k % 32 = s at hs
  rw [Nat.testBit_or, Nat.testBit_mod_two_pow, Nat.testBit_shiftLeft, Nat.testBit_shiftRight]
  by_cases hi : i < 32
  · by_cases his : s ≤ i
    · have e1 : (i + 32 - s) % 32 = i - s := by omega
      have e2 : x.testBit (32 - s + i) = false := testBit_of_lt32 x _ hx (by omega)
      simp [hi, his, e1, e2]
    · have e1 : (i + 32 - s) % 32 = 32 - s + i := by omega
      have e3 : ¬ (i ≥ s) := his
      simp [hi, e1, e3]
  · have e2 : x.testBit (32 - s + i) = false := testBit_of_lt32 x _ hx (by omega)
    simp [hi, e2]

theorem rotateLeft32_xor (x y k : Nat) (hx : x < 2 ^ 32) (hy : y < 2 ^ 32) :
    rotateLeft32 (x ^^^ y) k = rotateLeft32 x k ^^^ rotateLeft32 y k := by
  apply Nat.eq_of_testBit_eq
  intro i
  rw [rotateLeft32_testBit _ _ _ (Nat.xor_lt_two_pow hx hy), Nat.testBit_xor, Nat.testBit_xor,
    rotateLeft32_testBit _ _ _ hx, rotateLeft32_testBit _ _ _ hy]
  cases decide (i < 32) <;> simp

theorem rotateLeft32_rotateLeft32 (x a b : Nat) (hx : x < 2 ^ 32) :
    rotateLeft32 (rotateLeft32 x a) b = rotateLeft32 x (a + b) := by
  apply Nat.eq_of_testBit_eq
  intro i
  rw [rotateLeft32_testBit _ _ _ (rotateLeft32_lt x a hx), rotateLeft32_testBit _ _ _ hx,
    rotateLeft32_testBit _ _ _ hx]
  have hlt : (i + 32 - b % 32) % 32 < 32 := Nat.mod_lt _ (by norm_num)
  have e : ((i + 32 - b % 32) % 32 + 32 - a % 32) % 32 = (i + 32 - (a + b) % 32) % 32 := by
    omega
  simp [hlt, e]

theorem rotateLeft32_add_32 (x k : Nat) : rotateLeft32 x (k + 32) = rotateLeft32 x k := by
  simp [rotateLeft32]

theorem rotateLeft32_zero (x : Nat) (hx : x < 2 ^ 32) : rotateLeft32 x 0 = x := by
  apply Nat.eq_of_testBit_eq
  intro i
  rw [rotateLeft32_testBit _ _ _ hx]
  by_cases hi : i < 32
  · have e : (i + 32 - 0 % 32) % 32 = i := by omega
    rw [e]
    simp [hi]
  · simp [hi, testBit_of_lt32 x i hx (by omega)]

theorem xor_left_comm (a b c : Nat) : a ^^^ (b ^^^ c) = b ^^^ (a ^^^ c) := by
  rw [← Nat.xor_assoc, ← Nat.xor_assoc, Nat.xor_comm a b]

/-- Rotating `l1 x` rotates each of its five terms. -/
theorem rotateLeft32_l1 (x j : Nat) (hx : x < 2 ^ 32) :
    rotateLeft32 (l1 x) j = rotateLeft32 x j ^^^ rotateLeft32 x (2 + j) ^^^
      rotateLeft32 x (10 + j) ^^^ rotateLeft32 x (18 + j) ^^^ rotateLeft32 x (24 + j) := by
  have h2 := rotateLeft32_lt x 2 hx
  have h10 := rotateLeft32_lt x 10 hx
  have h18 := rotateLeft32_lt x 18 hx
  have h24 := rotateLeft32_lt x 24 hx
  have a1 := Nat.xor_lt_two_pow hx h2
  have a2 := Nat.xor_lt_two_pow a1 h10
  have a3 := Nat.xor_lt_two_pow a2 h18
  unfold l1
  rw [rotateLeft32_xor _ _ j a3 h24, rotateLeft32_xor _ _ j a2 h18,
    rotateLeft32_xor _ _ j a1 h10, rotateLeft32_xor _ _ j hx h2,
    rotateLeft32_rotateLeft32 x 2 j hx, rotateLeft32_rotateLeft32 x 10 j hx,
    rotateLeft32_rotateLeft32 x 18 j hx, rotateLeft32_rotateLeft32 x 24 j hx]

/-- Twice `l1` is `x ^ (x <<< 16) ^ (x <<< 20)`. -/
theorem l1_l1 (x : Nat) (hx : x < 2 ^ 32) :
    l1 (l1 x) = x ^^^ rotateLeft32 x 16 ^^^ rotateLeft32 x 20 := by
  have e : l1 (l1 x) = l1 x ^^^ rotateLeft32 (l1 x) 2 ^^^ rotateLeft32 (l1 x) 10 ^^^
      rotateLeft32 (l1 x) 18 ^^^ rotateLeft32 (l1 x) 24 := rfl
  rw [e, rotateLeft32_l1 x 2 hx, rotateLeft32_l1 x 10 hx, rotateLeft32_l1 x 18 hx,
    rotateLeft32_l1 x 24 hx]
  unfold l1
  simp only [Nat.reduceAdd, rotateLeft32_add_32]
  generalize rotateLeft32 x 2 = y2
  generalize rotateLeft32 x 4 = y4
  generalize rotateLeft32 x 10 = y10
  generalize rotateLeft32 x 12 = y12
  generalize rotateLeft32 x 16 = y16
  generalize rotateLeft32 x 18 = y18
  generalize rotateLeft32 x 20 = y20
  generalize rotateLeft32 x 24 = y24
  generalize rotateLeft32 x 26 = y26
  generalize rotateLeft32 x 28 = y28
  simp only [Nat.xor_assoc, Nat.xor_comm, xor_left_comm, Nat.xor_self, Nat.xor_zero,
    Nat.zero_xor, Nat.xor_cancel_left]

/-- Rotating a three-term mix rotates each of its terms. -/
theorem rotateLeft32_mix3 (x a b j : Nat) (hx : x < 2 ^ 32) :
    rotateLeft32 (x ^^^ rotateLeft32 x a ^^^ rotateLeft32 x b) j
      = rotateLeft32 x j ^^^ rotateLeft32 x (a + j) ^^^ rotateLeft32 x (b + j) := by
  have ha := rotateLeft32_lt x a hx
  have hb := rotateLeft32_lt x b hx
  rw [rotateLeft32_xor _ _ j (Nat.xor_lt_two_pow hx ha) hb, rotateLeft32_xor _ _ j hx ha,
    rotateLeft32_rotateLeft32 x a j hx, rotateLeft32_rotateLeft32 x b j hx]

theorem mix3_lt (x a b : Nat) (hx : x < 2 ^ 32) :
    x ^^^ rotateLeft32 x a ^^^ rotateLeft32 x b < 2 ^ 32 :=
  Nat.xor_lt_two_pow (Nat.xor_lt_two_pow hx (rotateLeft32_lt x a hx)) (rotateLeft32_lt x b hx)

/-- Four times `l1` is the rotation by 8. -/
theorem l1_four (x : Nat) (hx : x < 2 ^ 32) : l1 (l1 (l1 (l1 x))) = rotateLeft32 x 8 := by
  rw [l1_l1 (l1 (l1 x)) (l1_lt _ (l1_lt _ hx)), l1_l1 x hx, rotateLeft32_mix3 x 16 20 16 hx,
    rotateLeft32_mix3 x 16 20 20 hx]
  simp only [Nat.reduceAdd, rotateLeft32_add_32]
  rw [rotateLeft32_zero x hx]
  generalize rotateLeft32 x 4 = y4
  generalize rotateLeft32 x 8 = y8
  generalize rotateLeft32 x 16 = y16
  generalize rotateLeft32 x 20 = y20
  simp only [Nat.xor_assoc, Nat.xor_comm, xor_left_comm, Nat.xor_self, Nat.xor_zero,
    Nat.zero_xor, Nat.xor_cancel_left]

/-- Rotating `l2 x` rotates each of its five terms. -/
theorem rotateLeft32_l2 (x j : Nat) (hx : x < 2 ^ 32) :
    rotateLeft32 (l2 x) j = rotateLeft32 x j ^^^ rotateLeft32 x (8 + j) ^^^
      rotateLeft32 x (14 + j) ^^^ rotateLeft32 x (22 + j) ^^^ rotateLeft32 x (30 + j) := by
  have h8 := rotateLeft32_lt x 8 hx
  have h14 := rotateLeft32_lt x 14 hx
  have h22 := rotateLeft32_lt x 22 hx
  have h30 := rotateLeft32_lt x 30 hx
  have a1 := Nat.xor_lt_two_pow hx h8
  have a2 := Nat.xor_lt_two_pow a1 h14
  have a3 := Nat.xor_lt_two_pow a2 h22
  unfold l2
  rw [rotateLeft32_xor _ _ j a3 h30, rotateLeft32_xor _ _ j a2 h22,
    rotateLeft32_xor _ _ j a1 h14, rotateLeft32_xor _ _ j hx h8,
    rotateLeft32_rotateLeft32 x 8 j hx, rotateLeft32_rotateLeft32 x 14 j hx,
    rotateLeft32_rotateLeft32 x 22 j hx, rotateLeft32_rotateLeft32 x 30 j hx]

/-- Twice `l2` is `x ^ (x <<< 12) ^ (x <<< 16)`. -/
theorem l2_l2 (x : Nat) (hx : x < 2 ^ 32) :
    l2 (l2 x) = x ^^^ rotateLeft32 x 12 ^^^ rotateLeft32 x 16 := by
  have e : l2 (l2 x) = l2 x ^^^ rotateLeft32 (l2 x) 8 ^^^ rotateLeft32 (l2 x) 14 ^^^
      rotateLeft32 (l2 x) 22 ^^^ rotateLeft32 (l2 x) 30 := rfl
  rw [e, rotateLeft32_l2 x 8 hx, rotateLeft32_l2 x 14 hx, rotateLeft32_l2 x 22 hx,
    rotateLeft32_l2 x 30 hx]
  unfold l2
  simp only [Nat.reduceAdd, rotateLeft32_add_32]
  generalize rotateLeft32 x 4 = y4
  generalize rotateLeft32 x 6 = y6
  generalize rotateLeft32 x 8 = y8
  generalize rotateLeft32 x 12 = y12
  generalize rotateLeft32 x 14 = y14
  generalize rotateLeft32 x 16 = y16
  generalize rotateLeft32 x 20 = y20
  generalize rotateLeft32 x 22 = y22
  generalize rotateLeft32 x 28 = y28
  generalize rotateLeft32 x 30 = y30
  simp only [Nat.xor_assoc, Nat.xor_comm, xor_left_comm, Nat.xor_self, Nat.xor_zero,
    Nat.zero_xor, Nat.xor_cancel_left]

/-- Four times `l2` is the rotation by 24. -/
theorem l2_four (x : Nat) (hx : x < 2 ^ 32) : l2 (l2 (l2 (l2 x))) = rotateLeft32 x 24 := by
  rw [l2_l2 (l2 (l2 x)) (l2_lt _ (l2_lt _ hx)), l2_l2 x hx, rotateLeft32_mix3 x 12 16 12 hx,
    rotateLeft32_mix3 x 12 16 16 hx]
  simp only [Nat.reduceAdd, rotateLeft32_add_32]
  rw [rotateLeft32_zero x hx]
  generalize rotateLeft32 x 12 = y12
  generalize rotateLeft32 x 16 = y16
  generalize rotateLeft32 x 24 = y24
  generalize rotateLeft32 x 28 = y28
  simp only [Nat.xor_assoc, Nat.xor_comm, xor_left_comm, Nat.xor_self, Nat.xor_zero,
    Nat.zero_xor, Nat.xor_cancel_left]

/-- A rotation is undone by the complementary rotation. -/
theorem rotateLeft32_undo (x a b : Nat) (hx : x < 2 ^ 32) (h : a + b = 32) :
    rotateLeft32 (rotateLeft32 x a) b = x := by
  rw [rotateLeft32_rotateLeft32 x a b hx, h]
  exact (rotateLeft32_add_32 x 0).trans (rotateLeft32_zero x hx)

/-! # The properties -/

/-! ## Known-answer vectors -/

set_option maxRecDepth 100000 in
/-- C1: with a key of sixteen `0x00` bytes and an IV of sixteen `0x00` bytes
`newZUCState` succeeds, and two successive `genKeyword` calls on the returned
state return `0x27BEDE74` and then `0x018082DA`. -/
theorem newZUCState_zero_vector :
    ∃ s s1 s2 : zucState32,
      newZUCState (List.replicate 16 0x00) (List.replicate 16 0x00) = .ok s ∧
      genKeyword s = .ok (0x27BEDE74, s1) ∧
      genKeyword s1 = .ok (0x018082DA, s2) :=
  ⟨⟨[1954324676, 1650056459, 1202277419, 982108206, 850670588, 589209919, 829496898,
      1288497493, 1068893982, 371012882, 1897181494, 1364513874, 2026281588, 1327938155,
      1041993066, 2131288385], 890421072, 2693923923⟩,
   ⟨[1650056459, 1202277419, 982108206, 850670588, 589209919, 829496898, 1288497493,
      1068893982, 371012882, 1897181494, 1364513874, 2026281588, 1327938155, 1041993066,
      2131288385, 1027095812], 3354296083, 202352663⟩,
   ⟨[1202277419, 982108206, 850670588, 589209919, 829496898, 1288497493, 1068893982,
      371012882, 1897181494, 1364513874, 2026281588, 1327938155, 1041993066, 2131288385,
      1027095812, 332846976], 3722853799, 3118295617⟩,
   rfl, rfl, rfl⟩

set_option maxRecDepth 100000 in
/-- C2: with a key of sixteen `0xFF` bytes and an IV of sixteen `0xFF` bytes
`newZUCState` succeeds, and two successive `genKeyword` calls on the returned
state return `0x0657CFA0` and then `0x7096398B`. -/
theorem newZUCState_ones_vector :
    ∃ s s1 s2 : zucState32,
      newZUCState (List.replicate 16 0xFF) (List.replicate 16 0xFF) = .ok s ∧
      genKeyword s = .ok (0x0657CFA0, s1) ∧
      genKeyword s1 = .ok (0x7096398B, s2) :=
  ⟨⟨[311546256, 626344487, 918589831, 110589755, 1144846797, 1783421081, 1239632848,
      1444088596, 552137292, 2052791756, 205308625, 482378440, 2136540322, 1437998312,
      535060742, 334851519], 2853378833, 165113964⟩,
   ⟨[626344487, 918589831, 110589755, 1144846797, 1783421081, 1239632848, 1444088596,
      552137292, 2052791756, 205308625, 482378440, 2136540322, 1437998312, 535060742,
      334851519, 202367827], 622753796, 3400293734⟩,
   ⟨[918589831, 110589755, 1144846797, 1783421081, 1239632848, 1444088596, 552137292,
      2052791756, 205308625, 482378440, 2136540322, 1437998312, 535060742, 334851519,
      202367827, 284290767], 3645805096, 2446888890⟩,
   rfl, rfl, rfl⟩

/-- C3: for byte sequences `key` and `iv`, `newZUCState` fails with the
invalid-key-size error iff `len(key)` is neither 16 nor 32; fails with the
invalid-IV-size error iff `len(key) = 16` and `len(iv) ≠ 16`, or
`len(key) = 32` and `len(iv) ≠ 23`; and returns a state iff the lengths are
`(16, 16)` or `(32, 23)`. -/
theorem newZUCState_result (key iv : List Nat) (bk : isBytes key) (bi : isBytes iv) :
    ((∃ k, newZUCState key iv = .error (.invalidKeySize k)) ↔
      (key.length ≠ 16 ∧ key.length ≠ 32)) ∧
    ((∃ n e, newZUCState key iv = .error (.invalidIVSize n e)) ↔
      ((key.length = 16 ∧ iv.length ≠ 16) ∨ (key.length = 32 ∧ iv.length ≠ 23))) ∧
    ((∃ s, newZUCState key iv = .ok s) ↔
      ((key.length = 16 ∧ iv.length = 16) ∨ (key.length = 32 ∧ iv.length = 23))) := by
  by_cases h16 : key.length = 16
  · by_cases hi : iv.length = 16
    · obtain ⟨s0, s, -, -, -, -, -, -, e, -⟩ := newZUCState_ok key iv bk bi (Or.inl ⟨h16, hi⟩)
      simp [e, h16, hi]
    · simp [newZUCState_badIV16 key iv h16 hi, h16, hi]
  · by_cases h32 : key.length = 32
    · by_cases hi : iv.length = 23
      · obtain ⟨s0, s, -, -, -, -, -, -, e, -⟩ := newZUCState_ok key iv bk bi (Or.inr ⟨h32, hi⟩)
        simp [e, h32, hi]
      · simp [newZUCState_badIV32 key iv h32 hi, h32, hi]
    · simp [newZUCState_badKey key iv h16 h32, h16, h32]

theorem newZUCState_result_witness :
    (isBytes (List.replicate 16 0xFF) ∧ isBytes (List.replicate 15 0x00)) ∧
    (((∃ k, newZUCState (List.replicate 16 0xFF) (List.replicate 15 0x00)
        = .error (.invalidKeySize k)) ↔
      ((List.replicate 16 0xFF).length ≠ 16 ∧ (List.replicate 16 0xFF).length ≠ 32)) ∧
    ((∃ n e, newZUCState (List.replicate 16 0xFF) (List.replicate 15 0x00)
        = .error (.invalidIVSize n e)) ↔
      (((List.replicate 16 0xFF).length = 16 ∧ (List.replicate 15 0x00).length ≠ 16) ∨
        ((List.replicate 16 0xFF).length = 32 ∧ (List.replicate 15 0x00).length ≠ 23))) ∧
    ((∃ s, newZUCState (List.replicate 16 0xFF) (List.replicate 15 0x00) = .ok s) ↔
      (((List.replicate 16 0xFF).length = 16 ∧ (List.replicate 15 0x00).length = 16) ∨
        ((List.replicate 16 0xFF).length = 32 ∧ (List.replicate 15 0x00).length = 23)))) :=
  ⟨⟨by decide, by decide⟩,
    newZUCState_result (List.replicate 16 0xFF) (List.replicate 15 0x00) (by decide) (by decide)⟩

/-- C4: `genKeywords` on a buffer of length `N` returns the state left by `N`
successive `genKeyword` calls started from `s`, and a buffer whose position
`i` holds the word returned by call `i + 1` (the list of `genKeywordCalls`,
in call order); when a call fails, both fail with the same error.  On the
empty buffer the state and the buffer are returned unchanged. -/
theorem genKeywords_eq_genKeywordCalls :
    (∀ (s : zucState32) (words : List Nat),
        genKeywords s words = genKeywordCalls words.length s) ∧
      ∀ s : zucState32, genKeywords s [] = .ok (s, []) :=
  ⟨genKeywords_eq, fun _ => rfl⟩

/-- C5: for every key and IV of valid lengths `newZUCState` returns a state
whose sixteen LFSR cells are all nonzero, and after any number `n` of
subsequent `genKeyword` calls all sixteen cells are still nonzero. -/
theorem newZUCState_cells_nonzero (key iv : List Nat) (bk : isBytes key) (bi : isBytes iv)
    (hlen : (key.length = 16 ∧ iv.length = 16) ∨ (key.length = 32 ∧ iv.length = 23)) :
    ∃ s, newZUCState key iv = .ok s ∧ s.lfsr.length = 16 ∧ (∀ c ∈ s.lfsr, c ≠ 0) ∧
      ∀ n, ∃ s' zs, genKeywordCalls n s = .ok (s', zs) ∧ s'.lfsr.length = 16 ∧
        ∀ c ∈ s'.lfsr, c ≠ 0 := by
  obtain ⟨s0, s, -, -, -, -, -, -, e, w, -, z⟩ := newZUCState_ok key iv bk bi hlen
  refine ⟨s, e, w.1, z, fun n => ?_⟩
  obtain ⟨s', zs, e', -, -, w', -, z'⟩ := genKeywordCalls_inv n s w
  exact ⟨s', zs, e', w'.1, z' z⟩

theorem newZUCState_cells_nonzero_witness :
    (isBytes (List.replicate 32 0x00) ∧ isBytes (List.replicate 23 0x00) ∧
      (((List.replicate 32 0x00).length = 16 ∧ (List.replicate 23 0x00).length = 16) ∨
        ((List.replicate 32 0x00).length = 32 ∧ (List.replicate 23 0x00).length = 23))) ∧
    ∃ s, newZUCState (List.replicate 32 0x00) (List.replicate 23 0x00) = .ok s ∧
      s.lfsr.length = 16 ∧ (∀ c ∈ s.lfsr, c ≠ 0) ∧
      ∀ n, ∃ s' zs, genKeywordCalls n s = .ok (s', zs) ∧ s'.lfsr.length = 16 ∧
        ∀ c ∈ s'.lfsr, c ≠ 0 :=
  ⟨⟨by decide, by decide, by decide⟩,
    newZUCState_cells_nonzero (List.replicate 32 0x00) (List.replicate 23 0x00) (by decide)
      (by decide) (by decide)⟩

/-- C6: for every key and IV of valid lengths every LFSR cell is at most
`2 ^ 31 - 1` in the state `s0` left by key loading (`loadKeyIV16`, or
`loadKeyIV32` with `zuc256_d0`), in the state `sk` after each of the first
`k ≤ 32` advances (the `k` initialization rounds, from which the remaining
`32 - k` rounds continue), in the state after the 33rd advance, which is the
state `newZUCState` returns, and after any number of `genKeyword` calls. -/
theorem newZUCState_cells_field (key iv : List Nat) (bk : isBytes key) (bi : isBytes iv)
    (hlen : (key.length = 16 ∧ iv.length = 16) ∨ (key.length = 32 ∧ iv.length = 23)) :
    ∃ s0 s, (key.length = 16 → loadKeyIV16 zeroState key iv = .ok s0) ∧
      (key.length = 32 → loadKeyIV32 zeroState key iv zuc256_d0 = .ok s0) ∧
      (∀ c ∈ s0.lfsr, c ≤ 2 ^ 31 - 1) ∧
      (∀ k ≤ 32, ∃ sk, initLoop k s0 = .ok sk ∧ initLoop (32 - k) sk = initLoop 32 s0 ∧
        ∀ c ∈ sk.lfsr, c ≤ 2 ^ 31 - 1) ∧
      (∃ s32, initLoop 32 s0 = .ok s32 ∧ workState s32 = .ok s) ∧
      newZUCState key iv = .ok s ∧ (∀ c ∈ s.lfsr, c ≤ 2 ^ 31 - 1) ∧
      ∀ n, ∃ s' zs, genKeywordCalls n s = .ok (s', zs) ∧ ∀ c ∈ s'.lfsr, c ≤ 2 ^ 31 - 1 := by
  obtain ⟨s0, s, l16, l32, w0, f0, -, er, e, w, f, -⟩ := newZUCState_ok key iv bk bi hlen
  refine ⟨s0, s, l16, l32, f0, fun k hk => ?_, ?_, e, f, fun n => ?_⟩
  · obtain ⟨sk, ek, -, fk, -⟩ := initLoop_inv k s0 w0
    refine ⟨sk, ek, ?_, fk f0⟩
    have h := initLoop_add k (32 - k) s0
    rw [ek, ok_bind, Nat.add_sub_cancel' hk] at h
    exact h.symm
  · obtain ⟨s32, e32, -, -, -⟩ := initLoop_inv 32 s0 w0
    refine ⟨s32, e32, ?_⟩
    rw [runInit, e32, ok_bind] at er
    exact er
  · obtain ⟨s', zs, e', -, -, -, f', -⟩ := genKeywordCalls_inv n s w
    exact ⟨s', zs, e', f' f⟩

theorem newZUCState_cells_field_witness :
    (isBytes (List.replicate 16 0xFF) ∧ isBytes (List.replicate 16 0xFF) ∧
      (((List.replicate 16 0xFF).length = 16 ∧ (List.replicate 16 0xFF).length = 16) ∨
        ((List.replicate 16 0xFF).length = 32 ∧ (List.replicate 16 0xFF).length = 23))) ∧
    ∃ s0 s,
      ((List.replicate 16 0xFF).length = 16 →
        loadKeyIV16 zeroState (List.replicate 16 0xFF) (List.replicate 16 0xFF) = .ok s0) ∧
      ((List.replicate 16 0xFF).length = 32 →
        loadKeyIV32 zeroState (List.replicate 16 0xFF) (List.replicate 16 0xFF) zuc256_d0
          = .ok s0) ∧
      (∀ c ∈ s0.lfsr, c ≤ 2 ^ 31 - 1) ∧
      (∀ k ≤ 32, ∃ sk, initLoop k s0 = .ok sk ∧ initLoop (32 - k) sk = initLoop 32 s0 ∧
        ∀ c ∈ sk.lfsr, c ≤ 2 ^ 31 - 1) ∧
      (∃ s32, initLoop 32 s0 = .ok s32 ∧ workState s32 = .ok s) ∧
      newZUCState (List.replicate 16 0xFF) (List.replicate 16 0xFF) = .ok s ∧
      (∀ c ∈ s.lfsr, c ≤ 2 ^ 31 - 1) ∧
      ∀ n, ∃ s' zs, genKeywordCalls n s = .ok (s', zs) ∧ ∀ c ∈ s'.lfsr, c ≤ 2 ^ 31 - 1 :=
  ⟨⟨by decide, by decide, by decide⟩,
    newZUCState_cells_field (List.replicate 16 0xFF) (List.replicate 16 0xFF) (by decide)
      (by decide) (by decide)⟩
/-- C7: on every state of the Go type (sixteen cells, all words below
`2 ^ 32`, reachable or not) no lookup fails: `f32` succeeds on all 32-bit
arguments, `genKeyword` succeeds and leaves a state of the Go type, and
`genKeywords` succeeds on every buffer, filling all of it. -/
theorem genKeyword_never_fails (s : zucState32) (h : wellTyped s) :
    (∀ x0 x1 x2 : Nat, x1 < 2 ^ 32 → x2 < 2 ^ 32 → ∃ w s', f32 s x0 x1 x2 = .ok (w, s')) ∧
    (∃ z s', genKeyword s = .ok (z, s') ∧ z < 2 ^ 32 ∧ wellTyped s') ∧
    ∀ words : List Nat, ∃ s' out, genKeywords s words = .ok (s', out) ∧
      out.length = words.length ∧ wellTyped s' := by
  refine ⟨fun x0 x1 x2 _ hx2 => ?_, ?_, fun words => ?_⟩
  · obtain ⟨r1, r2, hf, -, -⟩ := f32_ok s x0 x1 x2 h.2.2.2 hx2
    exact ⟨_, _, hf⟩
  · obtain ⟨z, s', e, hz, hw, -⟩ := genKeyword_step s h
    exact ⟨z, s', e, hz, hw⟩
  · obtain ⟨s', zs, e, hl, -, hw, -, -⟩ := genKeywordCalls_inv words.length s h
    exact ⟨s', zs, by rw [genKeywords_eq, e], hl, hw⟩

theorem genKeyword_never_fails_witness :
    wellTyped zeroState ∧
    ((∀ x0 x1 x2 : Nat, x1 < 2 ^ 32 → x2 < 2 ^ 32 →
        ∃ w s', f32 zeroState x0 x1 x2 = .ok (w, s')) ∧
    (∃ z s', genKeyword zeroState = .ok (z, s') ∧ z < 2 ^ 32 ∧ wellTyped s') ∧
    ∀ words : List Nat, ∃ s' out, genKeywords zeroState words = .ok (s', out) ∧
      out.length = words.length ∧ wellTyped s') :=
  ⟨wellTyped_zeroState, genKeyword_never_fails zeroState wellTyped_zeroState⟩

/-- C8: on a state with sixteen cells `s0..s15`, all at most `2 ^ 31 - 1`,
and an injected `w ≤ 2 ^ 31 - 1`, `enterInitMode` succeeds and the new cell 15
lies in `[1, 2 ^ 31 - 1]` and is congruent modulo `2 ^ 31 - 1` to
`s0 + 2^8 s0 + 2^20 s4 + 2^21 s10 + 2^17 s13 + 2^15 s15 + w`. -/
theorem enterInitMode_feedback (s : zucState32) (w : Nat) (hlen : s.lfsr.length = 16)
    (hc : ∀ c ∈ s.lfsr, c ≤ 2 ^ 31 - 1) (hw : w ≤ 2 ^ 31 - 1) :
    ∃ s' v, enterInitMode s w = .ok s' ∧ s'.lfsr[15]? = some v ∧ 1 ≤ v ∧ v ≤ 2 ^ 31 - 1 ∧
      v ≡ s.lfsr.getD 0 0 + 2 ^ 8 * s.lfsr.getD 0 0 + 2 ^ 20 * s.lfsr.getD 4 0
        + 2 ^ 21 * s.lfsr.getD 10 0 + 2 ^ 17 * s.lfsr.getD 13 0 + 2 ^ 15 * s.lfsr.getD 15 0 + w
        [MOD 2 ^ 31 - 1] := by
  obtain ⟨lfsr, r1, r2⟩ := s
  obtain ⟨c0, c1, c2, c3, c4, c5, c6, c7, c8, c9, c10, c11, c12, c13, c14, c15, rfl⟩ :=
    cells16 lfsr hlen
  simp only [List.mem_cons, List.mem_singleton, forall_eq_or_imp, forall_eq, List.not_mem_nil,
    false_implies, implies_true, and_true] at hc
  obtain ⟨h0, -, -, -, h4, -, -, -, -, -, h10, -, -, h13, -, h15⟩ := hc
  refine ⟨_, feedback c0 c4 c10 c13 c15 w, enterInitMode_cells _ _ _ _ _ _ _ _ _ _ _ _ _ _ _ _ _ _
      _,
    rfl, ?_, feedback_le _ _ _ _ _ _ h0 hw, ?_⟩
  · have := feedback_ne_zero c0 c4 c10 c13 c15 w
    omega
  · exact feedback_mod c0 c4 c10 c13 c15 w h0 h4 h10 h13 h15 hw

theorem enterInitMode_feedback_witness :
    ((List.replicate 16 0x7FFFFFFF).length = 16 ∧
      (∀ c ∈ List.replicate 16 0x7FFFFFFF, c ≤ 2 ^ 31 - 1) ∧ 0x7FFFFFFF ≤ 2 ^ 31 - 1) ∧
    ∃ s' v, enterInitMode ⟨List.replicate 16 0x7FFFFFFF, 0, 0⟩ 0x7FFFFFFF = .ok s' ∧
      s'.lfsr[15]? = some v ∧ 1 ≤ v ∧ v ≤ 2 ^ 31 - 1 ∧
      v ≡ 0x7FFFFFFF + 2 ^ 8 * 0x7FFFFFFF + 2 ^ 20 * 0x7FFFFFFF + 2 ^ 21 * 0x7FFFFFFF
        + 2 ^ 17 * 0x7FFFFFFF + 2 ^ 15 * 0x7FFFFFFF + 0x7FFFFFFF [MOD 2 ^ 31 - 1] :=
  ⟨⟨rfl, by decide, by decide⟩,
    enterInitMode_feedback ⟨List.replicate 16 0x7FFFFFFF, 0, 0⟩ 0x7FFFFFFF rfl (by decide)
      (by decide)⟩

/-- C9: for field elements `x, y ≤ 2 ^ 31 - 1` neither addition inside `add31`
leaves the 32-bit range (so `add31` is the unwrapped formula), the result is
at most `2 ^ 31 - 1`, and it is congruent to `x + y` modulo `2 ^ 31 - 1`: one
carry fold is enough. -/
theorem add31_field (x y : Nat) (hx : x ≤ 2 ^ 31 - 1) (hy : y ≤ 2 ^ 31 - 1) :
    x + y < 2 ^ 32 ∧
    ((x + y) &&& 0x7FFFFFFF) + ((x + y) >>> 31) < 2 ^ 32 ∧
    add31 x y = ((x + y) &&& 0x7FFFFFFF) + ((x + y) >>> 31) ∧
    add31 x y ≤ 2 ^ 31 - 1 ∧
    add31 x y ≡ x + y [MOD 2 ^ 31 - 1] := by
  have h1 : x + y < 2 ^ 32 := by omega
  have h2 : ((x + y) &&& 0x7FFFFFFF) + ((x + y) >>> 31) < 2 ^ 32 := by
    rw [and_mask31, Nat.shiftRight_eq_div_pow]; omega
  refine ⟨h1, h2, ?_, add31_le x y hx hy, add31_mod x y hx hy⟩
  unfold add31
  dsimp only
  rw [Nat.mod_eq_of_lt h1, Nat.mod_eq_of_lt h2]

theorem add31_field_witness :
    (0x7FFFFFFF ≤ 2 ^ 31 - 1 ∧ 0x7FFFFFFF ≤ 2 ^ 31 - 1) ∧
    0x7FFFFFFF + 0x7FFFFFFF < 2 ^ 32 ∧
    ((0x7FFFFFFF + 0x7FFFFFFF) &&& 0x7FFFFFFF) + ((0x7FFFFFFF + 0x7FFFFFFF) >>> 31) < 2 ^ 32 ∧
    add31 0x7FFFFFFF 0x7FFFFFFF
      = ((0x7FFFFFFF + 0x7FFFFFFF) &&& 0x7FFFFFFF) + ((0x7FFFFFFF + 0x7FFFFFFF) >>> 31) ∧
    add31 0x7FFFFFFF 0x7FFFFFFF ≤ 2 ^ 31 - 1 ∧
    add31 0x7FFFFFFF 0x7FFFFFFF ≡ 0x7FFFFFFF + 0x7FFFFFFF [MOD 2 ^ 31 - 1] :=
  ⟨⟨by decide, by decide⟩, add31_field 0x7FFFFFFF 0x7FFFFFFF (by decide) (by decide)⟩

/-- C10: `f32` returns `((r1 XOR x0) + r2) mod 2 ^ 32`, the exclusive or first
and then the wrapping addition, computed from the `r1` and `r2` held before
the call: the value mentions neither `x1`, `x2` nor the new registers.  The
call succeeds as soon as `r2` and `x2` are 32-bit words. -/
theorem f32_returns (s : zucState32) (x0 x1 x2 : Nat) (h2 : s.r2 < 2 ^ 32)
    (hx2 : x2 < 2 ^ 32) :
    ∃ s', f32 s x0 x1 x2 = .ok (((s.r1 ^^^ x0) + s.r2) % 2 ^ 32, s') := by
  obtain ⟨r1, r2, hf, -, -⟩ := f32_ok s x0 x1 x2 h2 hx2
  exact ⟨_, hf⟩

theorem f32_returns_witness :
    ((0xFFFFFFFF : Nat) < 2 ^ 32 ∧ (2 : Nat) < 2 ^ 32) ∧
    ∃ s', f32 ⟨List.replicate 16 0, 0xFFFFFFFF, 0xFFFFFFFF⟩ 0x0F0F0F0F 1 2
      = .ok (((0xFFFFFFFF ^^^ 0x0F0F0F0F) + 0xFFFFFFFF) % 2 ^ 32, s') :=
  ⟨⟨by decide, by decide⟩,
    f32_returns ⟨List.replicate 16 0, 0xFFFFFFFF, 0xFFFFFFFF⟩ 0x0F0F0F0F 1 2 (by decide)
      (by decide)⟩

set_option maxRecDepth 100000 in
/-- C11, counterexample: with `r1 = r2 = 0`, `x1 = 1`, `x2 = 0` (so `w1 = 1`,
`w2 = 0`) `f32` leaves `r1 = 0xCAC8723B`, while the S-box assembly of
`l1(high16(w1) ‖ low16(w2))` is `0x3E553E55`. -/
theorem f32_u_not_high_low :
    f32 ⟨List.replicate 16 0, 0, 0⟩ 0 1 0
      = .ok (0, ⟨List.replicate 16 0, 0xCAC8723B, 0x3E553E55⟩) ∧
    sboxWord (l1 ((((0 + 1) % 2 ^ 32) / 2 ^ 16) * 2 ^ 16 + (0 ^^^ 0) % 2 ^ 16))
      = .ok 0x3E553E55 ∧
    (0xCAC8723B : Nat) ≠ 0x3E553E55 :=
  ⟨rfl, rfl, by decide⟩

/-- C11, amended: with `w1 = (r1 + x1) mod 2 ^ 32` and `w2 = r2 XOR x2`, `f32`
computes `u = l1(low16(w1) ‖ high16(w2))`, the word whose upper 16 bits are
the lower 16 bits of `w1` and whose lower 16 bits are the upper 16 bits of
`w2`, and `v = l2(low16(w2) ‖ high16(w1))`; the new `r1` and `r2` are the
S-box assemblies `sboxWord u` and `sboxWord v`. -/
theorem f32_mixed_words (s : zucState32) (x0 x1 x2 : Nat) (h2 : s.r2 < 2 ^ 32)
    (hx2 : x2 < 2 ^ 32) :
    ∃ a b,
      sboxWord (l1 ((((s.r1 + x1) % 2 ^ 32) % 2 ^ 16) * 2 ^ 16 + (s.r2 ^^^ x2) / 2 ^ 16))
        = .ok a ∧
      sboxWord (l2 (((s.r2 ^^^ x2) % 2 ^ 16) * 2 ^ 16 + ((s.r1 + x1) % 2 ^ 32) / 2 ^ 16))
        = .ok b ∧
      f32 s x0 x1 x2 = .ok (((s.r1 ^^^ x0) + s.r2) % 2 ^ 32, ⟨s.lfsr, a, b⟩) := by
  have hw2 : s.r2 ^^^ x2 < 2 ^ 32 := Nat.xor_lt_two_pow h2 hx2
  have hw1 : (s.r1 + x1) % 2 ^ 32 < 2 ^ 32 := Nat.mod_lt _ (by norm_num)
  obtain ⟨a, b, ea, eb, e⟩ := f32_sboxWord s x0 x1 x2 h2 hx2
  rw [word_swap_halves _ _ hw2] at ea
  rw [word_swap_halves _ _ hw1] at eb
  exact ⟨a, b, ea, eb, e⟩

theorem f32_mixed_words_witness :
    ((0x89ABCDEF : Nat) < 2 ^ 32 ∧ (0x0F1E2D3C : Nat) < 2 ^ 32) ∧
    ∃ a b,
      sboxWord (l1 ((((0x01234567 + 0xFEDCBA98) % 2 ^ 32) % 2 ^ 16) * 2 ^ 16
        + (0x89ABCDEF ^^^ 0x0F1E2D3C) / 2 ^ 16)) = .ok a ∧
      sboxWord (l2 (((0x89ABCDEF ^^^ 0x0F1E2D3C) % 2 ^ 16) * 2 ^ 16
        + ((0x01234567 + 0xFEDCBA98) % 2 ^ 32) / 2 ^ 16)) = .ok b ∧
      f32 ⟨List.replicate 16 0, 0x01234567, 0x89ABCDEF⟩ 0x55AA55AA 0xFEDCBA98 0x0F1E2D3C
        = .ok (((0x01234567 ^^^ 0x55AA55AA) + 0x89ABCDEF) % 2 ^ 32,
            ⟨List.replicate 16 0, a, b⟩) :=
  ⟨⟨by decide, by decide⟩,
    f32_mixed_words ⟨List.replicate 16 0, 0x01234567, 0x89ABCDEF⟩ 0x55AA55AA 0xFEDCBA98
      0x0F1E2D3C (by decide) (by decide)⟩

set_option maxRecDepth 100000 in
/-- C12, counterexample: on the zero state with `x0 = x1 = x2 = 0` (so
`v = 0`) `f32` leaves `r2 = 0x3E553E55`, the bytes `sbox0[0] sbox1[0] sbox0[0]
sbox1[0]`, while the assembly through table 1, table 0, table 1, table 0 is
`0x553E553E`. -/
theorem f32_r2_not_mirrored :
    f32 zeroState 0 0 0 = .ok (0, ⟨List.replicate 16 0, 0x3E553E55, 0x3E553E55⟩) ∧
    sboxWordMirrored (l2 ((((0 ^^^ 0) <<< 16) % 2 ^ 32) ||| (((0 + 0) % 2 ^ 32) >>> 16)))
      = .ok 0x553E553E ∧
    (0x3E553E55 : Nat) ≠ 0x553E553E :=
  ⟨rfl, rfl, by decide⟩

/-- C12, amended: the new `r2` left by `f32` is the big-endian word of the
four bytes of `v`, most significant first, substituted through table 0
(`sbox0`), table 1 (`sbox1`), table 0, table 1, the same alternation as for
the new `r1`, whose bytes are those of `u` through table 0, table 1, table 0,
table 1. -/
theorem f32_tables (s : zucState32) (x0 x1 x2 : Nat) (h2 : s.r2 < 2 ^ 32)
    (hx2 : x2 < 2 ^ 32) :
    ∃ u v a0 a1 a2 a3 b0 b1 b2 b3,
      u = l1 (((((s.r1 + x1) % 2 ^ 32) <<< 16) % 2 ^ 32) ||| ((s.r2 ^^^ x2) >>> 16)) ∧
      v = l2 ((((s.r2 ^^^ x2) <<< 16) % 2 ^ 32) ||| (((s.r1 + x1) % 2 ^ 32) >>> 16)) ∧
      u < 2 ^ 32 ∧ v < 2 ^ 32 ∧
      index sbox0 (u >>> 24) = .ok a0 ∧ index sbox1 ((u >>> 16) &&& 0xFF) = .ok a1 ∧
      index sbox0 ((u >>> 8) &&& 0xFF) = .ok a2 ∧ index sbox1 (u &&& 0xFF) = .ok a3 ∧
      index sbox0 (v >>> 24) = .ok b0 ∧ index sbox1 ((v >>> 16) &&& 0xFF) = .ok b1 ∧
      index sbox0 ((v >>> 8) &&& 0xFF) = .ok b2 ∧ index sbox1 (v &&& 0xFF) = .ok b3 ∧
      f32 s x0 x1 x2 = .ok (((s.r1 ^^^ x0) + s.r2) % 2 ^ 32,
        ⟨s.lfsr, a0 * 2 ^ 24 + a1 * 2 ^ 16 + a2 * 2 ^ 8 + a3,
          b0 * 2 ^ 24 + b1 * 2 ^ 16 + b2 * 2 ^ 8 + b3⟩) := by
  obtain ⟨hu, hv⟩ := f32_args_lt s.r1 s.r2 x1 x2 h2 hx2
  obtain ⟨a0, a1, a2, a3, ha0, ha1, ha2, ha3, -, -, -, -, ea⟩ := sboxWord_bytes _ (l1_lt _ hu)
  obtain ⟨b0, b1, b2, b3, hb0, hb1, hb2, hb3, -, -, -, -, eb⟩ := sboxWord_bytes _ (l2_lt _ hv)
  obtain ⟨a, b, ea', eb', e⟩ := f32_sboxWord s x0 x1 x2 h2 hx2
  rw [ea] at ea'
  rw [eb] at eb'
  cases ea'
  cases eb'
  exact ⟨_, _, a0, a1, a2, a3, b0, b1, b2, b3, rfl, rfl, l1_lt _ hu, l2_lt _ hv, ha0, ha1, ha2,
    ha3, hb0, hb1, hb2, hb3, e⟩

theorem f32_tables_witness :
    ((0 : Nat) < 2 ^ 32 ∧ (0 : Nat) < 2 ^ 32) ∧
    ∃ u v a0 a1 a2 a3 b0 b1 b2 b3,
      u = l1 (((((0 + 0) % 2 ^ 32) <<< 16) % 2 ^ 32) ||| ((0 ^^^ 0) >>> 16)) ∧
      v = l2 ((((0 ^^^ 0) <<< 16) % 2 ^ 32) ||| (((0 + 0) % 2 ^ 32) >>> 16)) ∧
      u < 2 ^ 32 ∧ v < 2 ^ 32 ∧
      index sbox0 (u >>> 24) = .ok a0 ∧ index sbox1 ((u >>> 16) &&& 0xFF) = .ok a1 ∧
      index sbox0 ((u >>> 8) &&& 0xFF) = .ok a2 ∧ index sbox1 (u &&& 0xFF) = .ok a3 ∧
      index sbox0 (v >>> 24) = .ok b0 ∧ index sbox1 ((v >>> 16) &&& 0xFF) = .ok b1 ∧
      index sbox0 ((v >>> 8) &&& 0xFF) = .ok b2 ∧ index sbox1 (v &&& 0xFF) = .ok b3 ∧
      f32 zeroState 0 0 0 = .ok (((0 ^^^ 0) + 0) % 2 ^ 32,
        ⟨zeroState.lfsr, a0 * 2 ^ 24 + a1 * 2 ^ 16 + a2 * 2 ^ 8 + a3,
          b0 * 2 ^ 24 + b1 * 2 ^ 16 + b2 * 2 ^ 8 + b3⟩) :=
  ⟨⟨by decide, by decide⟩, f32_tables zeroState 0 0 0 (by decide) (by decide)⟩

/-- C13: for a 16-byte key and a 16-byte IV `loadKeyIV16` succeeds, keeps
`r1`, `r2`, and for every `i` in `0..15` sets cell `i` to
`key[i] * 2 ^ 23 + kd[i] * 2 ^ 8 + iv[i]`; `kd[i]` is below `2 ^ 15`, so the
three fields lie in the bit ranges 30..23, 22..8 and 7..0: the cell is below
`2 ^ 31` and `key[i]`, `kd[i]`, `iv[i]` are read back as `cell >> 23`,
`(cell >> 8) & 0x7FFF` and `cell & 0xFF`. -/
theorem loadKeyIV16_fields (s : zucState32) (key iv : List Nat) (hs : s.lfsr.length = 16)
    (hk : key.length = 16) (hi : iv.length = 16) (bk : isBytes key) (bi : isBytes iv) :
    ∃ s', loadKeyIV16 s key iv = .ok s' ∧ s'.r1 = s.r1 ∧ s'.r2 = s.r2 ∧ s'.lfsr.length = 16 ∧
      ∀ i < 16, ∃ k d v c, key[i]? = some k ∧ kd[i]? = some d ∧ iv[i]? = some v ∧
        s'.lfsr[i]? = some c ∧ d < 2 ^ 15 ∧ c = k * 2 ^ 23 + d * 2 ^ 8 + v ∧ c < 2 ^ 31 ∧
        c >>> 23 = k ∧ (c >>> 8) &&& 0x7FFF = d ∧ c &&& 0xFF = v := by
  obtain ⟨lfsr, r1, r2⟩ := s
  obtain ⟨c0, c1, c2, c3, c4, c5, c6, c7, c8, c9, c10, c11, c12, c13, c14, c15, rfl⟩ :=
    cells16 lfsr hs
  obtain ⟨k0, k1, k2, k3, k4, k5, k6, k7, k8, k9, k10, k11, k12, k13, k14, k15, rfl⟩ :=
    cells16 key hk
  obtain ⟨i0, i1, i2, i3, i4, i5, i6, i7, i8, i9, i10, i11, i12, i13, i14, i15, rfl⟩ :=
    cells16 iv hi
  simp only [isBytes, List.mem_cons, List.mem_singleton, forall_eq_or_imp, forall_eq,
    List.not_mem_nil, false_implies, implies_true, and_true] at bk bi
  obtain ⟨hk0, hk1, hk2, hk3, hk4, hk5, hk6, hk7, hk8, hk9, hk10, hk11, hk12, hk13, hk14, hk15⟩ := bk
  obtain ⟨hi0, hi1, hi2, hi3, hi4, hi5, hi6, hi7, hi8, hi9, hi10, hi11, hi12, hi13, hi14, hi15⟩ := bi
  refine ⟨_, loadKeyIV16_cells_any _ _ _ _ _ _ _ _ _ _ _ _ _ _ _ _ _ _ _ _ _ _ _ _ _ _ _ _ _ _ _ _ _ _ _ _ _ _ _ _ _ _ _ _ _ _ _ _ _ _, rfl, rfl, rfl, ?_⟩
  intro i hlt
  interval_cases i <;> refine ⟨_, _, _, _, rfl, rfl, rfl, rfl, by decide, ?_⟩ <;>
    exact makeFieldValue3_fields _ _ _ (by assumption) (by decide) (by assumption)

theorem loadKeyIV16_fields_witness :
    (zeroState.lfsr.length = 16 ∧ (List.replicate 16 0xAB).length = 16 ∧
      (List.replicate 16 0xCD).length = 16 ∧ isBytes (List.replicate 16 0xAB) ∧
      isBytes (List.replicate 16 0xCD)) ∧
    ∃ s', loadKeyIV16 zeroState (List.replicate 16 0xAB) (List.replicate 16 0xCD) = .ok s' ∧
      s'.r1 = zeroState.r1 ∧ s'.r2 = zeroState.r2 ∧ s'.lfsr.length = 16 ∧
      ∀ i < 16, ∃ k d v c, (List.replicate 16 0xAB)[i]? = some k ∧ kd[i]? = some d ∧
        (List.replicate 16 0xCD)[i]? = some v ∧
        s'.lfsr[i]? = some c ∧ d < 2 ^ 15 ∧ c = k * 2 ^ 23 + d * 2 ^ 8 + v ∧ c < 2 ^ 31 ∧
        c >>> 23 = k ∧ (c >>> 8) &&& 0x7FFF = d ∧ c &&& 0xFF = v :=
  ⟨⟨rfl, rfl, rfl, by decide, by decide⟩,
    loadKeyIV16_fields zeroState (List.replicate 16 0xAB) (List.replicate 16 0xCD) rfl rfl rfl
      (by decide) (by decide)⟩

/-- C14, counterexample: for `x = 0x80000000` (only bit 31 set, so
`x mod 2 ^ 31 = 0`) and `k = 8`, `rotateLeft31` returns `0x100`, not the
rotation `0` of the low 31 bits: bit 31 of `x` reaches bit 8 of the result. -/
theorem rotateLeft31_bit31 :
    rotateLeft31 0x80000000 8 = 0x100 ∧
    rotateLeft31 0x80000000 8 ≠ rotateLeft31 (0x80000000 % 2 ^ 31) 8 ∧
    ¬ ∀ j < 31, (rotateLeft31 0x80000000 8).testBit ((j + 8) % 31)
        = (0x80000000 % 2 ^ 31).testBit j := by
  refine ⟨by decide, by decide, ?_⟩
  intro h
  exact absurd (h 0 (by decide)) (by decide)

/-- C14, amended: for every `x` and every `k` the result of `rotateLeft31` is
below `2 ^ 31`; when `x` is below `2 ^ 31` (bit 31 clear, as in every LFSR
cell) and `1 ≤ k ≤ 30`, it is the 31-bit left rotation of `x` by `k`:
bit `j` of `x` moves to bit `(j + k) mod 31`. -/
theorem rotateLeft31_rotates (x k : Nat) (hx : x < 2 ^ 31) (hk1 : 1 ≤ k) (hk30 : k ≤ 30) :
    (∀ y : Nat, rotateLeft31 y k < 2 ^ 31) ∧
    rotateLeft31 x k = (x % 2 ^ (31 - k)) * 2 ^ k + x / 2 ^ (31 - k) ∧
    ∀ j < 31, (rotateLeft31 x k).testBit ((j + k) % 31) = x.testBit j :=
  ⟨fun y => rotateLeft31_lt y k, rotateLeft31_val x k (by omega) hx,
    fun j hj => rotateLeft31_testBit x k j hx (by omega) hj⟩

theorem rotateLeft31_rotates_witness :
    ((0x40000001 : Nat) < 2 ^ 31 ∧ 1 ≤ 8 ∧ 8 ≤ 30) ∧
    (∀ y : Nat, rotateLeft31 y 8 < 2 ^ 31) ∧
    rotateLeft31 0x40000001 8
      = (0x40000001 % 2 ^ (31 - 8)) * 2 ^ 8 + 0x40000001 / 2 ^ (31 - 8) ∧
    ∀ j < 31, (rotateLeft31 0x40000001 8).testBit ((j + 8) % 31) = (0x40000001).testBit j :=
  ⟨⟨by decide, by decide, by decide⟩,
    rotateLeft31_rotates 0x40000001 8 (by decide) (by decide) (by decide)⟩

/-- C15: on a state whose sixteen cells are at most `2 ^ 31 - 1`,
`bitReconstruction` returns exactly the four words
`X0 = bits 30..15 of cell 15 ‖ bits 15..0 of cell 14`,
`X1 = bits 15..0 of cell 11 ‖ bits 30..15 of cell 9`,
`X2 = bits 15..0 of cell 7 ‖ bits 30..15 of cell 5`,
`X3 = bits 15..0 of cell 2 ‖ bits 30..15 of cell 0`, where `a ‖ b` is
`a * 2 ^ 16 + b`, bits 30..15 of `c` are `c / 2 ^ 15 % 2 ^ 16` and bits 15..0 are
`c % 2 ^ 16`.  The method only reads the state: its sole result is the slice. -/
theorem bitReconstruction_words (s : zucState32) (hlen : s.lfsr.length = 16)
    (hc : ∀ c ∈ s.lfsr, c ≤ 2 ^ 31 - 1) :
    bitReconstruction s = .ok
      [(s.lfsr.getD 15 0 / 2 ^ 15 % 2 ^ 16) * 2 ^ 16 + s.lfsr.getD 14 0 % 2 ^ 16,
       (s.lfsr.getD 11 0 % 2 ^ 16) * 2 ^ 16 + s.lfsr.getD 9 0 / 2 ^ 15 % 2 ^ 16,
       (s.lfsr.getD 7 0 % 2 ^ 16) * 2 ^ 16 + s.lfsr.getD 5 0 / 2 ^ 15 % 2 ^ 16,
       (s.lfsr.getD 2 0 % 2 ^ 16) * 2 ^ 16 + s.lfsr.getD 0 0 / 2 ^ 15 % 2 ^ 16] := by
  obtain ⟨lfsr, r1, r2⟩ := s
  obtain ⟨c0, c1, c2, c3, c4, c5, c6, c7, c8, c9, c10, c11, c12, c13, c14, c15, rfl⟩ :=
    cells16 lfsr hlen
  simp only [List.mem_cons, List.mem_singleton, forall_eq_or_imp, forall_eq, List.not_mem_nil,
    false_implies, implies_true, and_true] at hc
  obtain ⟨h0, -, -, -, -, h5, -, -, -, h9, -, -, -, -, -, -⟩ := hc
  rw [bitReconstruction_cells, word_high_low, word_low_high _ _ h9, word_low_high _ _ h5,
    word_low_high _ _ h0]
  rfl

theorem bitReconstruction_words_witness :
    ((List.replicate 16 0x7FFFFFFF).length = 16 ∧
      ∀ c ∈ List.replicate 16 0x7FFFFFFF, c ≤ 2 ^ 31 - 1) ∧
    bitReconstruction ⟨List.replicate 16 0x7FFFFFFF, 0, 0⟩ = .ok
      [(0x7FFFFFFF / 2 ^ 15 % 2 ^ 16) * 2 ^ 16 + 0x7FFFFFFF % 2 ^ 16,
       (0x7FFFFFFF % 2 ^ 16) * 2 ^ 16 + 0x7FFFFFFF / 2 ^ 15 % 2 ^ 16,
       (0x7FFFFFFF % 2 ^ 16) * 2 ^ 16 + 0x7FFFFFFF / 2 ^ 15 % 2 ^ 16,
       (0x7FFFFFFF % 2 ^ 16) * 2 ^ 16 + 0x7FFFFFFF / 2 ^ 15 % 2 ^ 16] :=
  ⟨⟨rfl, by decide⟩,
    bitReconstruction_words ⟨List.replicate 16 0x7FFFFFFF, 0, 0⟩ rfl (by decide)⟩

/-- C16: on a state with sixteen cells `enterInitMode w` succeeds; the new
cell `i` is the old cell `i + 1` for every `i` in `0..14`, the new cell 15 is
the feedback value `v` computed from the old cells 0, 4, 10, 13, 15 and `w`
(the `add31` sum, replaced by `0x7FFFFFFF` when it is 0), so the new register
is the old one without its cell 0 followed by `v`: the old cell 0 is dropped
and only cell 15 receives the feedback value.  The register still has
sixteen cells and `r1`, `r2` are unchanged; `enterWorkMode` is
`enterInitMode 0` on every state. -/
theorem enterInitMode_shift (s : zucState32) (w : Nat) (hlen : s.lfsr.length = 16) :
    (∃ s', enterInitMode s w = .ok s' ∧ (∀ i < 15, s'.lfsr[i]? = s.lfsr[i + 1]?) ∧
      s'.lfsr[15]? = some (feedback (s.lfsr.getD 0 0) (s.lfsr.getD 4 0) (s.lfsr.getD 10 0)
        (s.lfsr.getD 13 0) (s.lfsr.getD 15 0) w) ∧
      s'.lfsr = s.lfsr.tail ++ [feedback (s.lfsr.getD 0 0) (s.lfsr.getD 4 0)
        (s.lfsr.getD 10 0) (s.lfsr.getD 13 0) (s.lfsr.getD 15 0) w] ∧
      s'.lfsr.length = 16 ∧ s'.r1 = s.r1 ∧ s'.r2 = s.r2) ∧
    feedback (s.lfsr.getD 0 0) (s.lfsr.getD 4 0) (s.lfsr.getD 10 0) (s.lfsr.getD 13 0)
        (s.lfsr.getD 15 0) w
      = (if add31 (add31 (add31 (add31 (add31 (add31 (s.lfsr.getD 0 0)
            (rotateLeft31 (s.lfsr.getD 0 0) 8)) (rotateLeft31 (s.lfsr.getD 4 0) 20))
            (rotateLeft31 (s.lfsr.getD 10 0) 21)) (rotateLeft31 (s.lfsr.getD 13 0) 17))
            (rotateLeft31 (s.lfsr.getD 15 0) 15)) w = 0 then 0x7FFFFFFF
        else add31 (add31 (add31 (add31 (add31 (add31 (s.lfsr.getD 0 0)
            (rotateLeft31 (s.lfsr.getD 0 0) 8)) (rotateLeft31 (s.lfsr.getD 4 0) 20))
            (rotateLeft31 (s.lfsr.getD 10 0) 21)) (rotateLeft31 (s.lfsr.getD 13 0) 17))
            (rotateLeft31 (s.lfsr.getD 15 0) 15)) w) ∧
    enterWorkMode s = enterInitMode s 0 := by
  refine ⟨?_, rfl, rfl⟩
  obtain ⟨lfsr, r1, r2⟩ := s
  obtain ⟨c0, c1, c2, c3, c4, c5, c6, c7, c8, c9, c10, c11, c12, c13, c14, c15, rfl⟩ :=
    cells16 lfsr hlen
  refine ⟨_, enterInitMode_cells _ _ _ _ _ _ _ _ _ _ _ _ _ _ _ _ _ _ _, ?_, rfl, rfl, rfl, rfl,
    rfl⟩
  intro i hi
  interval_cases i <;> rfl

theorem enterInitMode_shift_witness :
    (List.range 16).length = 16 ∧
    ((∃ s', enterInitMode ⟨List.range 16, 7, 9⟩ 5 = .ok s' ∧
      (∀ i < 15, s'.lfsr[i]? = (List.range 16)[i + 1]?) ∧
      s'.lfsr[15]? = some (feedback ((List.range 16).getD 0 0) ((List.range 16).getD 4 0)
        ((List.range 16).getD 10 0) ((List.range 16).getD 13 0) ((List.range 16).getD 15 0) 5) ∧
      s'.lfsr = (List.range 16).tail ++ [feedback ((List.range 16).getD 0 0)
        ((List.range 16).getD 4 0) ((List.range 16).getD 10 0) ((List.range 16).getD 13 0)
        ((List.range 16).getD 15 0) 5] ∧
      s'.lfsr.length = 16 ∧ s'.r1 = 7 ∧ s'.r2 = 9) ∧
    feedback ((List.range 16).getD 0 0) ((List.range 16).getD 4 0) ((List.range 16).getD 10 0)
        ((List.range 16).getD 13 0) ((List.range 16).getD 15 0) 5
      = (if add31 (add31 (add31 (add31 (add31 (add31 ((List.range 16).getD 0 0)
            (rotateLeft31 ((List.range 16).getD 0 0) 8))
            (rotateLeft31 ((List.range 16).getD 4 0) 20))
            (rotateLeft31 ((List.range 16).getD 10 0) 21))
            (rotateLeft31 ((List.range 16).getD 13 0) 17))
            (rotateLeft31 ((List.range 16).getD 15 0) 15)) 5 = 0 then 0x7FFFFFFF
        else add31 (add31 (add31 (add31 (add31 (add31 ((List.range 16).getD 0 0)
            (rotateLeft31 ((List.range 16).getD 0 0) 8))
            (rotateLeft31 ((List.range 16).getD 4 0) 20))
            (rotateLeft31 ((List.range 16).getD 10 0) 21))
            (rotateLeft31 ((List.range 16).getD 13 0) 17))
            (rotateLeft31 ((List.range 16).getD 15 0) 15)) 5) ∧
    enterWorkMode ⟨List.range 16, 7, 9⟩ = enterInitMode ⟨List.range 16, 7, 9⟩ 0) :=
  ⟨rfl, enterInitMode_shift ⟨List.range 16, 7, 9⟩ 5 rfl⟩

/-- C17: for every key and IV of valid lengths the branch of `enterInitMode`
that replaces `v = 0` by `0x7FFFFFFF` is never taken: every loaded cell is
nonzero, `add31 x y = 0` forces `x = 0` and `y = 0` on field elements, and in
the state before each of the 33 advances of `newZUCState` (after `k ≤ 32`
initialization rounds) and before the advance of every later `genKeyword`
call (after `n` calls) the sum `v` is nonzero and is the value written. -/
theorem enterInitMode_zero_branch_unused (key iv : List Nat) (bk : isBytes key)
    (bi : isBytes iv)
    (hlen : (key.length = 16 ∧ iv.length = 16) ∨ (key.length = 32 ∧ iv.length = 23)) :
    (∀ x y : Nat, x ≤ 2 ^ 31 - 1 → y ≤ 2 ^ 31 - 1 → add31 x y = 0 → x = 0 ∧ y = 0) ∧
    ∃ s0 s, (key.length = 16 → loadKeyIV16 zeroState key iv = .ok s0) ∧
      (key.length = 32 → loadKeyIV32 zeroState key iv zuc256_d0 = .ok s0) ∧
      (∀ c ∈ s0.lfsr, c ≠ 0) ∧
      newZUCState key iv = .ok s ∧
      (∀ k ≤ 32, ∃ sk, initLoop k s0 = .ok sk ∧ branchNotTaken sk) ∧
      ∀ n, ∃ sn zs, genKeywordCalls n s = .ok (sn, zs) ∧ branchNotTaken sn := by
  refine ⟨fun x y hx hy h => add31_eq_zero x y hx hy h, ?_⟩
  obtain ⟨s0, s, l16, l32, w0, f0, z0, -, e, w, f, z⟩ := newZUCState_ok key iv bk bi hlen
  refine ⟨s0, s, l16, l32, z0, e, fun k _ => ?_, fun n => ?_⟩
  · obtain ⟨sk, ek, wk, fk, zk⟩ := initLoop_inv k s0 w0
    exact ⟨sk, ek, branchNotTaken_of_cells sk wk.1 (fk f0) (zk z0)⟩
  · obtain ⟨sn, zs, en, -, -, wn, fn, zn⟩ := genKeywordCalls_inv n s w
    exact ⟨sn, zs, en, branchNotTaken_of_cells sn wn.1 (fn f) (zn z)⟩

theorem enterInitMode_zero_branch_unused_witness :
    (isBytes (List.replicate 32 0xFF) ∧ isBytes (List.replicate 23 0xFF) ∧
      (((List.replicate 32 0xFF).length = 16 ∧ (List.replicate 23 0xFF).length = 16) ∨
        ((List.replicate 32 0xFF).length = 32 ∧ (List.replicate 23 0xFF).length = 23))) ∧
    (∀ x y : Nat, x ≤ 2 ^ 31 - 1 → y ≤ 2 ^ 31 - 1 → add31 x y = 0 → x = 0 ∧ y = 0) ∧
    ∃ s0 s,
      ((List.replicate 32 0xFF).length = 16 →
        loadKeyIV16 zeroState (List.replicate 32 0xFF) (List.replicate 23 0xFF) = .ok s0) ∧
      ((List.replicate 32 0xFF).length = 32 →
        loadKeyIV32 zeroState (List.replicate 32 0xFF) (List.replicate 23 0xFF) zuc256_d0
          = .ok s0) ∧
      (∀ c ∈ s0.lfsr, c ≠ 0) ∧
      newZUCState (List.replicate 32 0xFF) (List.replicate 23 0xFF) = .ok s ∧
      (∀ k ≤ 32, ∃ sk, initLoop k s0 = .ok sk ∧ branchNotTaken sk) ∧
      ∀ n, ∃ sn zs, genKeywordCalls n s = .ok (sn, zs) ∧ branchNotTaken sn :=
  ⟨⟨by decide, by decide, by decide⟩,
    enterInitMode_zero_branch_unused (List.replicate 32 0xFF) (List.replicate 23 0xFF)
      (by decide) (by decide) (by decide)⟩

/-- C18: `loadKeyIV32` with `zuc256_d0` is injective.  For 32-byte keys and
23-byte IVs both loads succeed, the cells written are the sums
`loadedCells32` in which every key byte, every IV byte, each six-bit slice of
`iv[17..22]` and each half of `key[31]` has a bit range of its own next to the
constant, and equal cells force equal keys and equal IVs. -/
theorem loadKeyIV32_injective (s s' : zucState32) (key key' iv iv' : List Nat)
    (hs : s.lfsr.length = 16) (hs' : s'.lfsr.length = 16)
    (hk : key.length = 32) (hk' : key'.length = 32) (hi : iv.length = 23)
    (hi' : iv'.length = 23) (bk : isBytes key) (bk' : isBytes key') (bi : isBytes iv)
    (bi' : isBytes iv') :
    ∃ t t', loadKeyIV32 s key iv zuc256_d0 = .ok t ∧
      loadKeyIV32 s' key' iv' zuc256_d0 = .ok t' ∧
      t.lfsr = loadedCells32 key iv ∧ t'.lfsr = loadedCells32 key' iv' ∧
      (t.lfsr = t'.lfsr → key = key' ∧ iv = iv') := by
  obtain ⟨lfsr, r1, r2⟩ := s
  obtain ⟨lfsr', r1', r2'⟩ := s'
  obtain ⟨c0, c1, c2, c3, c4, c5, c6, c7, c8, c9, c10, c11, c12, c13, c14, c15, rfl⟩ :=
    cells16 lfsr hs
  obtain ⟨d0, d1, d2, d3, d4, d5, d6, d7, d8, d9, d10, d11, d12, d13, d14, d15, rfl⟩ :=
    cells16 lfsr' hs'
  obtain ⟨k0, k1, k2, k3, k4, k5, k6, k7, k8, k9, k10, k11, k12, k13, k14, k15, k16, k17, k18, k19, k20, k21, k22, k23, k24, k25, k26, k27, k28, k29, k30, k31, rfl⟩ :=
    cells32 key hk
  obtain ⟨K0, K1, K2, K3, K4, K5, K6, K7, K8, K9, K10, K11, K12, K13, K14, K15, K16, K17, K18, K19, K20, K21, K22, K23, K24, K25, K26, K27, K28, K29, K30, K31, rfl⟩ :=
    cells32 key' hk'
  obtain ⟨v0, v1, v2, v3, v4, v5, v6, v7, v8, v9, v10, v11, v12, v13, v14, v15, v16, v17, v18, v19, v20, v21, v22, rfl⟩ :=
    cells23 iv hi
  obtain ⟨V0, V1, V2, V3, V4, V5, V6, V7, V8, V9, V10, V11, V12, V13, V14, V15, V16, V17, V18, V19, V20, V21, V22, rfl⟩ :=
    cells23 iv' hi'
  refine ⟨_, _, loadKeyIV32_sums _ _ _ _ _ _ _ _ _ _ _ _ _ _ _ _ _ _ _ _ _ _ _ _ _ _ _ _ _ _ _ _ _ _ _ _ _ _ _ _ _ _ _ _ _ _ _ _ _ _ _ _ _ _ _ _ _ _ _ _ _ _ _ _ _ _ _ _ _ _ _ _ _ bk bi,
    loadKeyIV32_sums _ _ _ _ _ _ _ _ _ _ _ _ _ _ _ _ _ _ _ _ _ _ _ _ _ _ _ _ _ _ _ _ _ _ _ _ _ _ _ _ _ _ _ _ _ _ _ _ _ _ _ _ _ _ _ _ _ _ _ _ _ _ _ _ _ _ _ _ _ _ _ _ _ bk' bi',
    (loadedCells32_cons _ _ _ _ _ _ _ _ _ _ _ _ _ _ _ _ _ _ _ _ _ _ _ _ _ _ _ _ _ _ _ _ _ _ _ _ _ _ _ _ _ _ _ _ _ _ _ _ _ _ _ _ _ _ _).symm,
    (loadedCells32_cons _ _ _ _ _ _ _ _ _ _ _ _ _ _ _ _ _ _ _ _ _ _ _ _ _ _ _ _ _ _ _ _ _ _ _ _ _ _ _ _ _ _ _ _ _ _ _ _ _ _ _ _ _ _ _).symm, ?_⟩
  intro h
  simp only [isBytes, List.mem_cons, List.mem_singleton, forall_eq_or_imp, forall_eq,
    List.not_mem_nil, false_implies, implies_true, and_true] at bk bk' bi bi'
  obtain ⟨hk0, hk1, hk2, hk3, hk4, hk5, hk6, hk7, hk8, hk9, hk10, hk11, hk12, hk13, hk14, hk15, hk16, hk17, hk18, hk19, hk20, hk21, hk22, hk23, hk24, hk25, hk26, hk27, hk28, hk29, hk30, hk31⟩ := bk
  obtain ⟨hK0, hK1, hK2, hK3, hK4, hK5, hK6, hK7, hK8, hK9, hK10, hK11, hK12, hK13, hK14, hK15, hK16, hK17, hK18, hK19, hK20, hK21, hK22, hK23, hK24, hK25, hK26, hK27, hK28, hK29, hK30, hK31⟩ := bk'
  obtain ⟨hv0, hv1, hv2, hv3, hv4, hv5, hv6, hv7, hv8, hv9, hv10, hv11, hv12, hv13, hv14, hv15, hv16, hv17, hv18, hv19, hv20, hv21, hv22⟩ := bi
  obtain ⟨hV0, hV1, hV2, hV3, hV4, hV5, hV6, hV7, hV8, hV9, hV10, hV11, hV12, hV13, hV14, hV15, hV16, hV17, hV18, hV19, hV20, hV21, hV22⟩ := bi'
  simp only [List.cons.injEq, and_true] at h
  obtain ⟨e0, e1, e2, e3, e4, e5, e6, e7, e8, e9, e10, e11, e12, e13, e14, e15⟩ := h
  have f0 := fields4_inj _ _ _ _ _ _ _ _ (by norm_num) hk21 hk16
    (by norm_num) hK21 hK16 e0
  have f1 := fields4_inj _ _ _ _ _ _ _ _ (by norm_num) hk22 hk17
    (by norm_num) hK22 hK17 e1
  have f2 := fields4_inj _ _ _ _ _ _ _ _ (by norm_num) hk23 hk18
    (by norm_num) hK23 hK18 e2
  have f3 := fields4_inj _ _ _ _ _ _ _ _ (by norm_num) hk24 hk19
    (by norm_num) hK24 hK19 e3
  have f4 := fields4_inj _ _ _ _ _ _ _ _ (by norm_num) hk25 hk20
    (by norm_num) hK25 hK20 e4
  have f5 := fields4_inj _ _ _ _ _ _ _ _ (bfield_shift2 _ hv17) hk5 hk26
    (bfield_shift2 _ hV17) hK5 hK26 e5
  have f6 := fields4_inj _ _ _ _ _ _ _ _ (bfield_2_4 _ _ hv18) hk6 hk27
    (bfield_2_4 _ _ hV18) hK6 hK27 e6
  have f7 := fields4_inj _ _ _ _ _ _ _ _ (bfield_4_2 _ _ hv19) hk7 hv2
    (bfield_4_2 _ _ hV19) hK7 hV2 e7
  have f8 := fields4_inj _ _ _ _ _ _ _ _ (bfield_low6 _) hv3 hv11
    (bfield_low6 _) hV3 hV11 e8
  have f9 := fields4_inj _ _ _ _ _ _ _ _ (bfield_shift2 _ hv20) hv12 hv4
    (bfield_shift2 _ hV20) hV12 hV4 e9
  have f10 := fields4_inj _ _ _ _ _ _ _ _ (bfield_2_4 _ _ hv21) hk10 hk28
    (bfield_2_4 _ _ hV21) hK10 hK28 e10
  have f11 := fields4_inj _ _ _ _ _ _ _ _ (bfield_4_2 _ _ hv22) hv6 hv13
    (bfield_4_2 _ _ hV22) hV6 hV13 e11
  have f12 := fields4_inj _ _ _ _ _ _ _ _ (bfield_low6 _) hv7 hv14
    (bfield_low6 _) hV7 hV14 e12
  have f13 := fields4_inj _ _ _ _ _ _ _ _ (by norm_num) hv15 hv8
    (by norm_num) hV15 hV8 e13
  have f14 := fields4_inj _ _ _ _ _ _ _ _ (bfield_high4 _ hk31) hv16 hv9
    (bfield_high4 _ hK31) hV16 hV9 e14
  have f15 := fields4_inj _ _ _ _ _ _ _ _ (bfield_low4 _) hk30 hk29
    (bfield_low4 _) hK30 hK29 e15
  have g1 := slices_inj _ _ _ _ _ _ hv18 hv19 hV18 hV19 f5.2.1 f6.2.1 f7.2.1 f8.2.1
  have g2 := slices_inj _ _ _ _ _ _ hv21 hv22 hV21 hV22 f9.2.1 f10.2.1 f11.2.1 f12.2.1
  have g3 := halves_inj _ _ f14.2.1 f15.2.1
  simp only [List.cons.injEq, and_true]
  exact ⟨⟨f0.1, f1.1, f2.1, f3.1, f4.1, f5.2.2.1, f6.2.2.1, f7.2.2.1, f8.1, f9.1, f10.2.2.1,
      f11.1, f12.1, f13.1, f14.1, f15.1, f0.2.2.2, f1.2.2.2, f2.2.2.2, f3.2.2.2, f4.2.2.2,
      f0.2.2.1, f1.2.2.1, f2.2.2.1, f3.2.2.1, f4.2.2.1, f5.2.2.2, f6.2.2.2, f10.2.2.2,
      f15.2.2.2, f15.2.2.1, g3⟩,
    ⟨f5.1, f6.1, f7.2.2.2, f8.2.2.1, f9.2.2.2, f10.1, f11.2.2.1, f12.2.2.1, f13.2.2.2,
      f14.2.2.2, f7.1, f8.2.2.2, f9.2.2.1, f11.2.2.2, f12.2.2.2, f13.2.2.1, f14.2.2.1,
      g1.1, g1.2.1, g1.2.2, g2.1, g2.2.1, g2.2.2⟩⟩

theorem loadKeyIV32_injective_witness :
    (zeroState.lfsr.length = 16 ∧ zeroState.lfsr.length = 16 ∧
      (List.replicate 32 0xA5).length = 32 ∧ (List.replicate 32 0x5A).length = 32 ∧
      (List.replicate 23 0x3C).length = 23 ∧ (List.replicate 23 0xC3).length = 23 ∧
      isBytes (List.replicate 32 0xA5) ∧ isBytes (List.replicate 32 0x5A) ∧
      isBytes (List.replicate 23 0x3C) ∧ isBytes (List.replicate 23 0xC3)) ∧
    ∃ t t', loadKeyIV32 zeroState (List.replicate 32 0xA5) (List.replicate 23 0x3C) zuc256_d0
        = .ok t ∧
      loadKeyIV32 zeroState (List.replicate 32 0x5A) (List.replicate 23 0xC3) zuc256_d0
        = .ok t' ∧
      t.lfsr = loadedCells32 (List.replicate 32 0xA5) (List.replicate 23 0x3C) ∧
      t'.lfsr = loadedCells32 (List.replicate 32 0x5A) (List.replicate 23 0xC3) ∧
      (t.lfsr = t'.lfsr →
        List.replicate 32 0xA5 = List.replicate 32 0x5A ∧
        List.replicate 23 0x3C = List.replicate 23 0xC3) :=
  ⟨⟨rfl, rfl, rfl, rfl, rfl, rfl, by decide, by decide, by decide, by decide⟩,
    loadKeyIV32_injective zeroState zeroState (List.replicate 32 0xA5) (List.replicate 32 0x5A)
      (List.replicate 23 0x3C) (List.replicate 23 0xC3) rfl rfl rfl rfl rfl rfl (by decide)
      (by decide) (by decide) (by decide)⟩

/-- C19: `sbox0` and `sbox1` are each a permutation of the byte values
`0..255`: each is a rearrangement of the list `0, 1, ..., 255`, so in each
table every byte value occurs exactly once, the lookup is injective on the
indices `0..255`, and every byte value is the image of some index. -/
theorem sbox_permutations :
    (sbox0.Perm (List.range 256) ∧ sbox1.Perm (List.range 256)) ∧
    (∀ b < 256, sbox0.count b = 1 ∧ sbox1.count b = 1) ∧
    (∀ i j, i < 256 → j < 256 →
      (index sbox0 i = index sbox0 j → i = j) ∧ (index sbox1 i = index sbox1 j → i = j)) ∧
    (∀ b < 256, (∃ i < 256, index sbox0 i = .ok b) ∧ (∃ i < 256, index sbox1 i = .ok b)) := by
  have p0 : sbox0.Perm (List.range 256) := by
    have h := List.perm_insertionSort (· ≤ ·) sbox0
    rw [sbox0_sorted] at h
    exact h.symm
  have p1 : sbox1.Perm (List.range 256) := by
    have h := List.perm_insertionSort (· ≤ ·) sbox1
    rw [sbox1_sorted] at h
    exact h.symm
  obtain ⟨c0, i0, s0⟩ := table_of_perm sbox0 p0
  obtain ⟨c1, i1, s1⟩ := table_of_perm sbox1 p1
  exact ⟨⟨p0, p1⟩, fun b hb => ⟨c0 b hb, c1 b hb⟩,
    fun i j hi hj => ⟨i0 i j hi hj, i1 i j hi hj⟩, fun b hb => ⟨s0 b hb, s1 b hb⟩⟩

/-- C20: `l1` and `l2` are bijections on 32-bit words: they map 32-bit words
to 32-bit words, `l1 a = l1 b` forces `a = b`, `l2 a = l2 b` forces `a = b`,
and every 32-bit word is the image of a 32-bit word under `l1` and under
`l2`. -/
theorem l1_l2_bijective (a b : Nat) (ha : a < 2 ^ 32) (hb : b < 2 ^ 32) :
    (l1 a < 2 ^ 32 ∧ l2 a < 2 ^ 32) ∧ (l1 a = l1 b → a = b) ∧ (l2 a = l2 b → a = b) ∧
    (∃ x, x < 2 ^ 32 ∧ l1 x = a) ∧ (∃ x, x < 2 ^ 32 ∧ l2 x = a) := by
  refine ⟨⟨l1_lt a ha, l2_lt a ha⟩, fun h => ?_, fun h => ?_, ?_, ?_⟩
  · have e : rotateLeft32 a 8 = rotateLeft32 b 8 := by
      rw [← l1_four a ha, ← l1_four b hb, h]
    rw [← rotateLeft32_undo a 8 24 ha rfl, e, rotateLeft32_undo b 8 24 hb rfl]
  · have e : rotateLeft32 a 24 = rotateLeft32 b 24 := by
      rw [← l2_four a ha, ← l2_four b hb, h]
    rw [← rotateLeft32_undo a 24 8 ha rfl, e, rotateLeft32_undo b 24 8 hb rfl]
  · have hr := rotateLeft32_lt a 24 ha
    exact ⟨l1 (l1 (l1 (rotateLeft32 a 24))), l1_lt _ (l1_lt _ (l1_lt _ hr)),
      by rw [l1_four _ hr, rotateLeft32_undo a 24 8 ha rfl]⟩
  · have hr := rotateLeft32_lt a 8 ha
    exact ⟨l2 (l2 (l2 (rotateLeft32 a 8))), l2_lt _ (l2_lt _ (l2_lt _ hr)),
      by rw [l2_four _ hr, rotateLeft32_undo a 8 24 ha rfl]⟩

theorem l1_l2_bijective_witness :
    ((0x80000001 : Nat) < 2 ^ 32 ∧ (0xFFFFFFFF : Nat) < 2 ^ 32) ∧
    (l1 0x80000001 < 2 ^ 32 ∧ l2 0x80000001 < 2 ^ 32) ∧
    (l1 0x80000001 = l1 0xFFFFFFFF → (0x80000001 : Nat) = 0xFFFFFFFF) ∧
    (l2 0x80000001 = l2 0xFFFFFFFF → (0x80000001 : Nat) = 0xFFFFFFFF) ∧
    (∃ x, x < 2 ^ 32 ∧ l1 x = 0x80000001) ∧ (∃ x, x < 2 ^ 32 ∧ l2 x = 0x80000001) :=
  ⟨⟨by decide, by decide⟩, l1_l2_bijective 0x80000001 0xFFFFFFFF (by decide) (by decide)⟩

end Zuc
